import Mathlib

/-!
# MOAB entity handles, the range/sequence intersection iterator, geometry senses

A shallow embedding of `MBInternals.hpp` (the entity-handle and tag-handle
codecs), of `MBRangeSeqIntersectIter.cpp` (the iterator that walks a handle
range and the entity sequences it meets), of the sense functions of
`src/src/GeomTopoTool.cpp` and of `ReadHDF5::load_file`, together with the
properties proved about them.

Conventions of the embedding.

* `MBEntityHandle` is an unsigned integer of `sizeof(MBEntityHandle) = sz` bytes;
  the header fixes `sz` at compile time (4 or 8).  Handles are natural numbers
  below `2 ^ (8 * sz)` and every handle operation wraps modulo that power.
* `int` is the 32-bit two's-complement integer; a conversion of a handle
  difference to `int` keeps the low 32 bits (`toInt32`).
* A member function that changes its object takes the object and hands back
  the object it leaves; a call whose behaviour the language leaves undefined
  has no result (`none`).
* `MBMAXTYPE` and `MBENTITYSET` are enumerators of `MBEntityType`, declared in
  `MBInterface.hpp`; they are parameters of the definitions that use them.
-/

namespace MOAB

/-! ## MBInternals.hpp -/

/-- The macro `MB_HANDLE_SHIFT_WIDTH`: `8*sizeof(MBEntityHandle)-4`. -/
def MB_HANDLE_SHIFT_WIDTH (sz : Nat) : Nat := 8 * sz - 4

/-- The macro `MB_HANDLE_MASK`: `(MBEntityHandle)0xF << MB_HANDLE_SHIFT_WIDTH`. -/
def MB_HANDLE_MASK (sz : Nat) : Nat :=
  (0xF <<< MB_HANDLE_SHIFT_WIDTH sz) % 2 ^ (8 * sz)

/-- Bitwise complement `~x` of an `MBEntityHandle` value. -/
def handleNot (sz x : Nat) : Nat := 2 ^ (8 * sz) - 1 - x % 2 ^ (8 * sz)

/-- The macro `MB_END_ID`: `~MB_HANDLE_MASK`, the last id. -/
def MB_END_ID (sz : Nat) : Nat := handleNot sz (MB_HANDLE_MASK sz)

/-- The function `CREATE_HANDLE(type, id, err)`: the returned handle paired with the value
left in `err`.  `type` is a C `int`; `id` is an `MBEntityHandle`. -/
def CREATE_HANDLE (sz MBMAXTYPE : Nat) (type : Int) (id : Nat) : Nat × Int :=
  if id > handleNot sz (MB_HANDLE_MASK sz) ∨ type > (MBMAXTYPE : Int) then
    (1, 1)
  else
    let handle : Nat := (type % (2 ^ (8 * sz) : Int)).toNat
    let handle : Nat :=
      ((handle <<< MB_HANDLE_SHIFT_WIDTH sz) % 2 ^ (8 * sz) + id) % 2 ^ (8 * sz)
    (handle, 0)

/-- The function `ID_FROM_HANDLE(handle)`: `handle & ~MB_HANDLE_MASK`.  Its result
type `unsigned long` is taken to be as wide as `MBEntityHandle`. -/
def ID_FROM_HANDLE (sz handle : Nat) : Nat :=
  handle &&& handleNot sz (MB_HANDLE_MASK sz)

/-- The function `TYPE_FROM_HANDLE(handle)`: `(handle & MB_HANDLE_MASK) >> MB_HANDLE_SHIFT_WIDTH`. -/
def TYPE_FROM_HANDLE (sz handle : Nat) : Nat :=
  (handle &&& MB_HANDLE_MASK sz) >>> MB_HANDLE_SHIFT_WIDTH sz

/-- The macro `MB_START_ID`: all entity ids currently start at 1. -/
def MB_START_ID : Nat := 1

/-- The macro `TAG_ID_MASK`. -/
def TAG_ID_MASK : Nat := 0x00FFFFFF

/-- The macro `TAG_PROP_MASK`. -/
def TAG_PROP_MASK : Nat := 0xFF000000

/-- Modelled from the spec: the tag storage classes `MBTagType` of
`MBInterface.hpp` (not among the sources), with the stable integers the spec
gives them: Bit = 0, Sparse = 1, Dense = 2, MeshGlobal = 3. -/
inductive MBTagType where
  | MB_TAG_BIT
  | MB_TAG_SPARSE
  | MB_TAG_DENSE
  | MB_TAG_MESH
  deriving DecidableEq, Repr

/-- The integer value of a storage class. -/
def MBTagType.toNat : MBTagType → Nat
  | MB_TAG_BIT => 0
  | MB_TAG_SPARSE => 1
  | MB_TAG_DENSE => 2
  | MB_TAG_MESH => 3

/-- The function `ID_FROM_TAG_HANDLE(tag_handle)`: the handle, read as a `long`,
masked with `TAG_ID_MASK` and cast to the 32-bit `MBTagId`. -/
def ID_FROM_TAG_HANDLE (tag_handle : Nat) : Nat := (tag_handle &&& TAG_ID_MASK) % 2 ^ 32

/-- The function `TAG_HANDLE_FROM_ID(tag_id, prop)`: `tag_id | prop` in the
32-bit `MBTagId`, reinterpreted as a tag handle. -/
def TAG_HANDLE_FROM_ID (tag_id : Nat) (prop : MBTagType) : Nat :=
  (tag_id ||| prop.toNat) % 2 ^ 32

/-! ## MBInterface.hpp: status codes -/

/-- Modelled from the spec: the status codes `MBErrorCode` of `MBInterface.hpp`
(not among the sources), in the order the spec lists them, `MB_SUCCESS` first
and `MB_FAILURE` last. -/
inductive MBErrorCode where
  | MB_SUCCESS
  | MB_INDEX_OUT_OF_RANGE
  | MB_TYPE_OUT_OF_RANGE
  | MB_MEMORY_ALLOCATION_FAILED
  | MB_ENTITY_NOT_FOUND
  | MB_MULTIPLE_ENTITIES_FOUND
  | MB_TAG_NOT_FOUND
  | MB_ALREADY_ALLOCATED
  | MB_INVALID_SIZE
  | MB_UNSUPPORTED_OPERATION
  | MB_FILE_WRITE_ERROR
  | MB_FAILURE
  deriving DecidableEq, Repr

open MBErrorCode

/-! ## Machine arithmetic -/

/-- Conversion of an unsigned value to the 32-bit `int`: the low 32 bits, read
in two's complement. -/
def toInt32 (x : Nat) : Int :=
  if x % 2 ^ 32 < 2 ^ 31 then ((x % 2 ^ 32 : Nat) : Int)
  else ((x % 2 ^ 32 : Nat) : Int) - 2 ^ 32

/-- Conversion of an `int` to `MBEntityHandle`. -/
def ofInt (sz : Nat) (i : Int) : Nat := (i % (2 ^ (8 * sz) : Int)).toNat

/-- Sum `a + b` of two `MBEntityHandle` values. -/
def handleAdd (sz a b : Nat) : Nat := (a + b) % 2 ^ (8 * sz)

/-- Difference `a - b` of two `MBEntityHandle` values. -/
def handleSub (sz a b : Nat) : Nat := (a + (2 ^ (8 * sz) - b % 2 ^ (8 * sz))) % 2 ^ (8 * sz)

/-! ## EntitySequence.hpp -/

/-- Modelled from the spec: `MBEntitySequence` (`EntitySequence.hpp` is not
among the sources).  The spec's record of a sequence: its first handle and a
per-index free bitmap whose length is the allocated count. -/
structure MBEntitySequence where
  start_handle : Nat
  free : List Bool
  deriving DecidableEq, Repr

/-- Modelled from the spec: `get_start_handle()` of `MBEntitySequence`. -/
def MBEntitySequence.get_start_handle (s : MBEntitySequence) : Nat := s.start_handle

/-- Modelled from the spec: `number_allocated()` of `MBEntitySequence`, the
allocated count. -/
def MBEntitySequence.number_allocated (s : MBEntitySequence) : Int := (s.free.length : Int)

/-- Modelled from the spec: `get_end_handle()` of `MBEntitySequence`, the last
handle of `[start, start + allocated)`. -/
def MBEntitySequence.get_end_handle (sz : Nat) (s : MBEntitySequence) : Nat :=
  handleSub sz (handleAdd sz s.start_handle s.free.length) 1

/-- First index `i ≥ base` (counted from `base` along the bitmap) that is free
and strictly greater than `prev`, or `-1`. -/
def nextFreeFrom : List Bool → Nat → Int → Int
  | [], _, _ => -1
  | b :: bs, base, prev =>
    if b = true ∧ prev < (base : Int) then (base : Int) else nextFreeFrom bs (base + 1) prev

/-- Modelled from the spec: `get_next_free_index(prev)` of `MBEntitySequence`
returns the next free slot index strictly greater than `prev`, or `-1` if
none. -/
def MBEntitySequence.get_next_free_index (s : MBEntitySequence) (prev : Int) : Int :=
  nextFreeFrom s.free 0 prev

/-- Slot `i` of the sequence is marked free in the bitmap. -/
def MBEntitySequence.is_free (s : MBEntitySequence) (i : Nat) : Bool := s.free.getD i false

/-- Handle `h` lies in `[start, start + allocated)` of the sequence. -/
def MBEntitySequence.contains (s : MBEntitySequence) (h : Nat) : Prop :=
  s.start_handle ≤ h ∧ h < s.start_handle + s.free.length

instance (s : MBEntitySequence) (h : Nat) : Decidable (s.contains h) := by
  unfold MBEntitySequence.contains; infer_instance

/-- Handle `h` is live in the sequence: allocated there and not a free slot. -/
def MBEntitySequence.live (s : MBEntitySequence) (h : Nat) : Prop :=
  s.contains h ∧ s.is_free (h - s.start_handle) = false

instance (s : MBEntitySequence) (h : Nat) : Decidable (s.live h) := by
  unfold MBEntitySequence.live; infer_instance

/-! ## EntitySequenceManager.hpp -/

/-- Modelled from the spec: `EntitySequenceManager` (its header is not among
the sources) owns a per-type ordered map from start handle to sequence.  The
type is the top four bits of the key, so the per-type maps laid end to end are
one list, `sequences`, in ascending order of start handle. -/
structure EntitySequenceManager where
  sequences : List MBEntitySequence
  deriving DecidableEq, Repr

/-- Modelled from the spec: `find(h, out_seq)` returns the unique sequence whose
`[start, start+allocated)` contains `h`, or not-found (here `none`; the
iterator's `assert(!mSequence)` shows that the out-pointer is then null). -/
def EntitySequenceManager.find (m : EntitySequenceManager) (h : Nat) :
    Option MBEntitySequence :=
  m.sequences.find? (fun s => decide (s.contains h))

/-- Modelled from the spec: `entity_map(type)`, the view of the per-type map. -/
def EntitySequenceManager.entity_map (sz : Nat) (m : EntitySequenceManager) (type : Nat) :
    List MBEntitySequence :=
  m.sequences.filter (fun s => decide (TYPE_FROM_HANDLE sz s.start_handle = type))

/-- The call `map->upper_bound(h)` on a per-type map: the first entry whose key
(start handle) is greater than `h`; `none` stands for `map->end()`. -/
def upper_bound (map : List MBEntitySequence) (h : Nat) : Option MBEntitySequence :=
  map.find? (fun s => decide (h < s.start_handle))

/-! ## MBRange.hpp -/

/-- Modelled from the spec: the handle-range container `MBRange` (its header is
not among the sources), a sorted sequence of pairs `(first, last)`. -/
abbrev MBRange := List (Nat × Nat)

/-- Modelled from the spec: `MBRange::const_iterator`, a position in the pair
list together with a handle value.  `after` is the pair node the iterator
stands on followed by the later nodes (empty at the end position), `before`
the earlier nodes, nearest first. -/
structure const_iterator where
  before : List (Nat × Nat)
  after : List (Nat × Nat)
  mValue : Nat
  deriving DecidableEq, Repr

/-- The pair of the node at the front of a node list; the end (head) node
carries `(0, 0)`. -/
def node_pair (l : List (Nat × Nat)) : Nat × Nat := l.headD (0, 0)

/-- Modelled from the spec: `MBRange::begin()`. -/
def MBRange.begin (r : MBRange) : const_iterator := ⟨[], r, (node_pair r).1⟩

/-- Modelled from the spec: `MBRange::end()`. -/
def MBRange.end_ (r : MBRange) : const_iterator := ⟨r.reverse, [], 0⟩

/-- Modelled from the spec: `operator--` of `MBRange::const_iterator`: one
handle back, moving to the previous pair node at the first handle of a node. -/
def const_iterator.decr (it : const_iterator) : const_iterator :=
  if it.mValue = (node_pair it.after).1 then
    match it.before with
    | [] => ⟨it.after.reverse, [], 0⟩
    | p :: bs => ⟨bs, p :: it.after, p.2⟩
  else { it with mValue := it.mValue - 1 }

/-- A handle belongs to the range. -/
def in_range (r : MBRange) (h : Nat) : Prop := ∃ p ∈ r, p.1 ≤ h ∧ h ≤ p.2

instance (r : MBRange) (h : Nat) : Decidable (in_range r h) := by
  unfold in_range; infer_instance

/-! ## MBRangeSeqIntersectIter.cpp -/

/-- The data members of `MBRangeSeqIntersectIter`.  `rangeIter` is the
`const_pair_iterator`: the pair node it stands on followed by the later
nodes. -/
structure MBRangeSeqIntersectIter where
  mSequenceManager : EntitySequenceManager
  mSequence : Option MBEntitySequence
  rangeIter : List (Nat × Nat)
  mStartHandle : Nat
  mEndHandle : Nat
  mLastHandle : Nat
  freeIndex : Int
  deriving DecidableEq, Repr

/-- Modelled from the spec: `is_at_end()` (defined in
`MBRangeSeqIntersectIter.hpp`, not among the sources): the block in hand ends
at the last handle to iterate. -/
def is_at_end (self : MBRangeSeqIntersectIter) : Bool :=
  decide (self.mEndHandle = self.mLastHandle)

/-- The loop `while (freeIndex < end_index)` of `find_deleted_range`, returning
the final `freeIndex` and `mEndHandle`; `none` when the fuel runs out. -/
def find_deleted_loop (sz : Nat) (s : MBEntitySequence) (end_index : Int) :
    Nat → Int → Nat → Option (Int × Nat)
  | fuel, freeIndex, mEndHandle =>
    if freeIndex < end_index then
      match fuel with
      | 0 => none
      | fuel + 1 =>
        let index := s.get_next_free_index freeIndex
        if index < 0 ∨ index - freeIndex > 1 then
          some (freeIndex, handleAdd sz s.get_start_handle (ofInt sz freeIndex))
        else
          find_deleted_loop sz s end_index fuel index mEndHandle
    else some (freeIndex, mEndHandle)

/-- The function `MBRangeSeqIntersectIter::find_deleted_range()`, entered with
`mSequence = s`. -/
def find_deleted_range (sz : Nat) (self : MBRangeSeqIntersectIter) (s : MBEntitySequence) :
    Option (MBRangeSeqIntersectIter × MBErrorCode) :=
  let end_index : Int := toInt32 (handleSub sz self.mEndHandle s.get_start_handle)
  match find_deleted_loop sz s end_index (s.free.length + 2) self.freeIndex self.mEndHandle with
  | none => none
  | some (f, e) => some ({ self with freeIndex := f, mEndHandle := e }, MB_ENTITY_NOT_FOUND)

/-- The function `MBRangeSeqIntersectIter::find_invalid_range()`. -/
def find_invalid_range (sz MBMAXTYPE : Nat) (self : MBRangeSeqIntersectIter) :
    MBRangeSeqIntersectIter × MBErrorCode :=
  if self.mStartHandle = self.mEndHandle then (self, MB_ENTITY_NOT_FOUND)
  else
    let type := TYPE_FROM_HANDLE sz self.mStartHandle
    let map := self.mSequenceManager.entity_map sz type
    match upper_bound map self.mStartHandle with
    | none =>
      if type ≠ TYPE_FROM_HANDLE sz self.mEndHandle then
        ({ self with mEndHandle := (CREATE_HANDLE sz MBMAXTYPE (type : Int) (MB_END_ID sz)).1 },
          MB_ENTITY_NOT_FOUND)
      else (self, MB_ENTITY_NOT_FOUND)
    | some next =>
      if next.get_start_handle ≤ self.mEndHandle then
        ({ self with mEndHandle := handleSub sz next.get_start_handle 1 }, MB_ENTITY_NOT_FOUND)
      else (self, MB_ENTITY_NOT_FOUND)

/-- The loop `while (start_index > freeIndex)` of `update_entity_sequence`,
returning the final `freeIndex`; `none` when the fuel runs out. -/
def advance_free_loop (s : MBEntitySequence) (start_index : Int) : Nat → Int → Option Int
  | fuel, freeIndex =>
    if start_index > freeIndex then
      match fuel with
      | 0 => none
      | fuel + 1 =>
        let f := s.get_next_free_index freeIndex
        let f := if f = -1 then s.number_allocated else f
        advance_free_loop s start_index fuel f
    else some freeIndex

/-- The second half of `update_entity_sequence()` (from "Find first hole in
sequence after mStartHandle" on), entered with `mSequence = s`. -/
def trim_to_sequence (sz : Nat) (self : MBRangeSeqIntersectIter) (s : MBEntitySequence) :
    Option (MBRangeSeqIntersectIter × MBErrorCode) :=
  let start_index : Int := toInt32 (handleSub sz self.mStartHandle s.get_start_handle)
  match advance_free_loop s start_index (s.free.length + 2) self.freeIndex with
  | none => none
  | some f =>
    let self := { self with freeIndex := f }
    if start_index = self.freeIndex then find_deleted_range sz self s
    else
      let end_index : Int := toInt32 (handleSub sz self.mEndHandle s.get_start_handle)
      if end_index ≥ self.freeIndex then
        some ({ self with mEndHandle :=
                  handleAdd sz s.get_start_handle (ofInt sz (self.freeIndex - 1)) },
              MB_SUCCESS)
      else some (self, MB_SUCCESS)

/-- The function `MBRangeSeqIntersectIter::update_entity_sequence()`.  The two
loops over the free list run on fuel `number_allocated + 2`; the result is
`none` when a loop does not end within it.  `stale` is the test
`!mSequence || mStartHandle > mSequence->get_end_handle()`; the last `none`
branch is never taken, since `stale` holds when there is no sequence. -/
def update_entity_sequence (sz MBMAXTYPE MBENTITYSET : Nat) (self : MBRangeSeqIntersectIter) :
    Option (MBRangeSeqIntersectIter × MBErrorCode) :=
  let stale : Bool :=
    match self.mSequence with
    | none => true
    | some s => decide (self.mStartHandle > s.get_end_handle sz)
  if stale then
    if TYPE_FROM_HANDLE sz self.mStartHandle ≥ MBENTITYSET then
      some (self, MB_TYPE_OUT_OF_RANGE)
    else
      match self.mSequenceManager.find self.mStartHandle with
      | none => some (find_invalid_range sz MBMAXTYPE { self with mSequence := none })
      | some s =>
        let f := s.get_next_free_index (-1)
        let f := if f < 0 then s.number_allocated else f
        trim_to_sequence sz { self with mSequence := some s, freeIndex := f } s
  else
    match self.mSequence with
    | none => none
    | some s => trim_to_sequence sz self s

/-- The function `MBRangeSeqIntersectIter::init(start, end)`. -/
def init (sz MBMAXTYPE MBENTITYSET : Nat) (self : MBRangeSeqIntersectIter)
    (start end_ : const_iterator) : Option (MBRangeSeqIntersectIter × MBErrorCode) :=
  let self := { self with mSequence := none, rangeIter := start.after }
  if start = end_ then
    some ({ self with mStartHandle := 0, mEndHandle := 0, mLastHandle := 0 }, MB_FAILURE)
  else
    let self := { self with mStartHandle := start.mValue }
    let end_ := end_.decr
    let self := { self with mLastHandle := end_.mValue }
    let self := { self with mEndHandle := (node_pair self.rangeIter).2 }
    let self :=
      if self.mEndHandle > self.mLastHandle then { self with mEndHandle := self.mLastHandle }
      else self
    update_entity_sequence sz MBMAXTYPE MBENTITYSET self

/-- The function `MBRangeSeqIntersectIter::step()`. -/
def step (sz MBMAXTYPE MBENTITYSET : Nat) (self : MBRangeSeqIntersectIter) :
    Option (MBRangeSeqIntersectIter × MBErrorCode) :=
  if is_at_end self then some (self, MB_FAILURE)
  else
    let self :=
      if self.mEndHandle = (node_pair self.rangeIter).2 then
        let self := { self with rangeIter := self.rangeIter.tail }
        { self with mStartHandle := (node_pair self.rangeIter).1 }
      else { self with mStartHandle := handleAdd sz self.mEndHandle 1 }
    let self := { self with mEndHandle := (node_pair self.rangeIter).2 }
    let self :=
      if self.mEndHandle > self.mLastHandle then { self with mEndHandle := self.mLastHandle }
      else self
    update_entity_sequence sz MBMAXTYPE MBENTITYSET self

/-- Modelled from the spec: the iterator object before `init` (its constructor is
in `MBRangeSeqIntersectIter.hpp`, not among the sources): it borrows the
sequence manager; `init` sets every other member before reading it, except
`freeIndex`, which is read only after a sequence has been looked up. -/
def MBRangeSeqIntersectIter.new (m : EntitySequenceManager) : MBRangeSeqIntersectIter :=
  ⟨m, none, [], 0, 0, 0, 0⟩

/-! ## Iterating a range -/

/-- One block handed to the caller: the status returned by `init` or `step`
with `get_sequence()`, `get_start_handle()` and `get_end_handle()`. -/
structure Block where
  status : MBErrorCode
  sequence : Option MBEntitySequence
  first : Nat
  last : Nat
  deriving DecidableEq, Repr

/-- The block in hand after a call that returned `rc`. -/
def block_of (self : MBRangeSeqIntersectIter) (rc : MBErrorCode) : Block :=
  ⟨rc, self.mSequence, self.mStartHandle, self.mEndHandle⟩

/-- The blocks from the one in hand on: `step` until `is_at_end`, at most
`fuel` blocks; `none` when the fuel runs out or a call has no result. -/
def blocks_from (sz MBMAXTYPE MBENTITYSET : Nat) :
    Nat → MBRangeSeqIntersectIter → MBErrorCode → Option (List Block)
  | 0, _, _ => none
  | fuel + 1, self, rc =>
    if is_at_end self then some [block_of self rc]
    else
      match step sz MBMAXTYPE MBENTITYSET self with
      | none => none
      | some (self1, rc1) =>
        match blocks_from sz MBMAXTYPE MBENTITYSET fuel self1 rc1 with
        | none => none
        | some bs => some (block_of self rc :: bs)

/-- Full iteration of a range: `init(r.begin(), r.end())`, then `step` until
`is_at_end`.  An `init` that returns `MB_FAILURE` (nothing to iterate) gives no
block. -/
def iterate (sz MBMAXTYPE MBENTITYSET : Nat) (m : EntitySequenceManager) (r : MBRange)
    (fuel : Nat) : Option (List Block) :=
  match init sz MBMAXTYPE MBENTITYSET (MBRangeSeqIntersectIter.new m) r.begin r.end_ with
  | none => none
  | some (self, rc) =>
    if rc = MB_FAILURE then some []
    else blocks_from sz MBMAXTYPE MBENTITYSET fuel self rc


/-! ## Geometry topology tool (`src/src/GeomTopoTool.cpp`)

`GeomTopoTool` keeps, through the database facade, the dimension of every
geometry set and the sense of an edge in its faces and of a face in its
volumes.  The tool is a record of the facade it points to and of the tag
handles it has looked up; every member function takes the tool and hands back
the tool it leaves behind. -/

/-- Modelled from the spec: the numeric value of an error code, as `dimension`
hands it back through its `int` result (the header that declares `ErrorCode`
is not among the sources; the values are the positions of the enumerators). -/
def MBErrorCode.toInt : MBErrorCode → Int
  | MB_SUCCESS => 0
  | MB_INDEX_OUT_OF_RANGE => 1
  | MB_TYPE_OUT_OF_RANGE => 2
  | MB_MEMORY_ALLOCATION_FAILED => 3
  | MB_ENTITY_NOT_FOUND => 4
  | MB_MULTIPLE_ENTITIES_FOUND => 5
  | MB_TAG_NOT_FOUND => 6
  | MB_ALREADY_ALLOCATED => 7
  | MB_INVALID_SIZE => 8
  | MB_UNSUPPORTED_OPERATION => 9
  | MB_FILE_WRITE_ERROR => 10
  | MB_FAILURE => 11

/-- Names of the tags the tool uses: `GEOM_DIMENSION_TAG_NAME`,
`GEOM_SENSE_2_TAG_NAME`, `GEOM_SENSE_N_ENTS_TAG_NAME` and
`GEOM_SENSE_N_SENSES_TAG_NAME`. -/
inductive TagName where
  | GEOM_DIMENSION
  | GEOM_SENSE_2
  | GEOM_SENSE_N_ENTS
  | GEOM_SENSE_N_SENSES
  deriving DecidableEq, Repr

/-- Modelled from the spec: the tag handle the registry gives a tag of this
name (`Interface.hpp` and the tag server are not among the sources).  It is
never 0, the value the tool keeps for a tag it has not looked up. -/
def TagName.handle : TagName → Nat
  | TagName.GEOM_DIMENSION => 1
  | TagName.GEOM_SENSE_2 => 2
  | TagName.GEOM_SENSE_N_ENTS => 3
  | TagName.GEOM_SENSE_N_SENSES => 4

/-- Modelled from the spec: the database facade `Interface` (`Interface.hpp`
and its implementation are not among the sources), cut down to what the tool
calls: the registry of created tags, the sparse store of each of the four tags
(a map keyed by entity handle, sections 4.6 and 3 of the spec), and the child
and parent vectors of the meshsets (section 4.7). -/
structure Interface where
  created : List TagName
  dim_data : List (Nat × Int)
  sense2_data : List (Nat × (Nat × Nat))
  ents_data : List (Nat × List Nat)
  senses_data : List (Nat × List Int)
  children : List (Nat × List Nat)
  parents : List (Nat × List Nat)
  deriving DecidableEq, Repr

/-- Entry of a sparse store for a handle. -/
def sparse_get {α : Type} (store : List (Nat × α)) (h : Nat) : Option α :=
  match store with
  | [] => none
  | (k, v) :: rest => if k = h then some v else sparse_get rest h

/-- Insert or update the entry of a sparse store for a handle. -/
def sparse_set {α : Type} (store : List (Nat × α)) (h : Nat) (v : α) : List (Nat × α) :=
  match store with
  | [] => [(h, v)]
  | (k, w) :: rest => if k = h then (k, v) :: rest else (k, w) :: sparse_set rest h v

/-- Modelled from the spec: `get_handle(name) → tag | NotFound`.  The handle
is 0 when the tag is not found. -/
def Interface.tag_get_handle (mdb : Interface) (name : TagName) : MBErrorCode × Nat :=
  if name ∈ mdb.created then (MB_SUCCESS, name.handle) else (MB_TAG_NOT_FOUND, 0)

/-- Modelled from the spec: `create(name, size, class, default?) → tag |
AlreadyAllocated`; for a tag that exists the handle of the existing tag is
handed back with `MB_ALREADY_ALLOCATED`.  `tag_create_variable_length` is the
same call for a tag of variable length. -/
def Interface.tag_create (mdb : Interface) (name : TagName) : Interface × MBErrorCode × Nat :=
  if name ∈ mdb.created then (mdb, MB_ALREADY_ALLOCATED, name.handle)
  else ({ mdb with created := name :: mdb.created }, MB_SUCCESS, name.handle)

/-- Modelled from the spec: `get(tag, handles[]) → values[]` on one handle of
a sparse tag without default value: an error (`MB_TAG_NOT_FOUND`) that leaves
the caller's buffer `buf` as it was when the tag handle is not the handle of
the created tag `name` or the entity has no entry. -/
def tag_get_data {α : Type} (mdb : Interface) (name : TagName) (store : List (Nat × α))
    (tag : Nat) (entity : Nat) (buf : α) : MBErrorCode × α :=
  if tag = name.handle ∧ name ∈ mdb.created then
    match sparse_get store entity with
    | some v => (MB_SUCCESS, v)
    | none => (MB_TAG_NOT_FOUND, buf)
  else (MB_TAG_NOT_FOUND, buf)

/-- Modelled from the spec: whether `set(tag, handles[], values[])` on a
sparse tag is carried out (insert or update): when the tag handle is the handle
of the created tag `name`. -/
def tag_valid (mdb : Interface) (name : TagName) (tag : Nat) : Bool :=
  decide (tag = name.handle ∧ name ∈ mdb.created)

/-- Modelled from the spec: `Range::insert` of one handle (`Range.hpp` is not
among the sources); a range holds handles in ascending order without
duplicates. -/
def range_insert (h : Nat) : List Nat → List Nat
  | [] => [h]
  | x :: xs => if h < x then h :: x :: xs else if h = x then x :: xs else x :: range_insert h xs

/-- Modelled from the spec: `get_child_meshsets(set, range)` puts the children
of the meshset into the range; `MB_ENTITY_NOT_FOUND`, with the range as it
was, for a handle that is no meshset. -/
def Interface.get_child_meshsets (mdb : Interface) (set : Nat) (bdy : List Nat) :
    MBErrorCode × List Nat :=
  match sparse_get mdb.children set with
  | some c => (MB_SUCCESS, c.foldr range_insert bdy)
  | none => (MB_ENTITY_NOT_FOUND, bdy)

/-- Modelled from the spec: `get_parent_meshsets(set, range)` puts the parents
of the meshset into the range; `MB_ENTITY_NOT_FOUND`, with the range as it
was, for a handle that is no meshset. -/
def Interface.get_parent_meshsets (mdb : Interface) (set : Nat) (tmpr : List Nat) :
    MBErrorCode × List Nat :=
  match sparse_get mdb.parents set with
  | some p => (MB_SUCCESS, p.foldr range_insert tmpr)
  | none => (MB_ENTITY_NOT_FOUND, tmpr)

/-- Modelled from the spec: `intersect(a, b)` of two ranges (`Range.hpp` is
not among the sources): the handles of `a` that are in `b`, in ascending
order. -/
def intersect (a b : List Nat) : List Nat := a.filter (fun h => decide (h ∈ b))

/-- Value of `SENSE_BOTH` (`GeomTopoTool.hpp`). -/
def SENSE_BOTH : Int := 0

/-- The members of `GeomTopoTool` the sense functions use: the facade
`mdbImpl` points to, and the tag handles, 0 for a tag not yet looked up. -/
structure GeomTopoTool where
  mdbImpl : Interface
  geomTag : Nat
  sense2Tag : Nat
  senseNEntsTag : Nat
  senseNSensesTag : Nat
  deriving DecidableEq, Repr

/-- The constructor `GeomTopoTool(impl, false)`: the sense tags are 0 and the
dimension tag is created or looked up; a failure of `tag_create` is only
reported on `std::cerr`. -/
def GeomTopoTool.new (impl : Interface) : GeomTopoTool :=
  let r := impl.tag_create TagName.GEOM_DIMENSION
  ⟨r.1, r.2.2, 0, 0, 0⟩

/-- `int GeomTopoTool::dimension(EntityHandle this_set)`. -/
def dimension (g : GeomTopoTool) (this_set : Nat) : GeomTopoTool × Int :=
  let lookup := if g.geomTag = 0 then g.mdbImpl.tag_get_handle TagName.GEOM_DIMENSION
    else (MB_SUCCESS, g.geomTag)
  let g1 := { g with geomTag := lookup.2 }
  if lookup.1 ≠ MB_SUCCESS then (g1, lookup.1.toInt)
  else
    let r := tag_get_data g1.mdbImpl TagName.GEOM_DIMENSION g1.mdbImpl.dim_data g1.geomTag
      this_set 0
    if r.1 ≠ MB_SUCCESS then (g1, -1) else (g1, r.2)

/-- `ErrorCode GeomTopoTool::check_face_sense_tag(bool create)`. -/
def check_face_sense_tag (g : GeomTopoTool) (create : Bool) : GeomTopoTool × MBErrorCode :=
  if g.sense2Tag = 0 ∧ create = true then
    let r := g.mdbImpl.tag_create TagName.GEOM_SENSE_2
    let g1 := { g with mdbImpl := r.1, sense2Tag := r.2.2 }
    if r.2.1 ≠ MB_SUCCESS ∧ (r.2.1 ≠ MB_ALREADY_ALLOCATED ∨ g1.sense2Tag = 0) then
      (g1, MB_FAILURE)
    else if g1.sense2Tag = 0 ∧ create = false then
      let r2 := g1.mdbImpl.tag_get_handle TagName.GEOM_SENSE_2
      if r2.1 ≠ MB_SUCCESS then ({ g1 with sense2Tag := 0 }, MB_FAILURE)
      else ({ g1 with sense2Tag := r2.2 }, MB_SUCCESS)
    else (g1, MB_SUCCESS)
  else if g.sense2Tag = 0 ∧ create = false then
    let r2 := g.mdbImpl.tag_get_handle TagName.GEOM_SENSE_2
    if r2.1 ≠ MB_SUCCESS then ({ g with sense2Tag := 0 }, MB_FAILURE)
    else ({ g with sense2Tag := r2.2 }, MB_SUCCESS)
  else (g, MB_SUCCESS)

/-- `ErrorCode GeomTopoTool::check_edge_sense_tags(bool create)`; only
`senseNEntsTag` is tested. -/
def check_edge_sense_tags (g : GeomTopoTool) (create : Bool) : GeomTopoTool × MBErrorCode :=
  if g.senseNEntsTag = 0 ∧ create = true then
    let r := g.mdbImpl.tag_create TagName.GEOM_SENSE_N_ENTS
    let g1 := { g with mdbImpl := r.1, senseNEntsTag := r.2.2 }
    if r.2.1 ≠ MB_SUCCESS ∧ (r.2.1 ≠ MB_ALREADY_ALLOCATED ∨ g1.senseNEntsTag = 0) then
      (g1, MB_FAILURE)
    else
      let r2 := g1.mdbImpl.tag_create TagName.GEOM_SENSE_N_SENSES
      let g2 := { g1 with mdbImpl := r2.1, senseNSensesTag := r2.2.2 }
      if r2.2.1 ≠ MB_SUCCESS ∧ (r2.2.1 ≠ MB_ALREADY_ALLOCATED ∨ g2.senseNSensesTag = 0) then
        (g2, MB_FAILURE)
      else (g2, MB_SUCCESS)
  else if g.senseNEntsTag = 0 ∧ create = false then
    let r := g.mdbImpl.tag_get_handle TagName.GEOM_SENSE_N_ENTS
    if r.1 ≠ MB_SUCCESS then ({ g with senseNEntsTag := 0 }, MB_FAILURE)
    else
      let g1 := { g with senseNEntsTag := r.2 }
      let r2 := g1.mdbImpl.tag_get_handle TagName.GEOM_SENSE_N_SENSES
      if r2.1 ≠ MB_SUCCESS then ({ g1 with senseNSensesTag := 0 }, MB_FAILURE)
      else ({ g1 with senseNSensesTag := r2.2 }, MB_SUCCESS)
  else (g, MB_SUCCESS)

/-- `ErrorCode GeomTopoTool::get_senses(entity, wrt_entities, senses)`; the two
vectors are handed in and handed back.  In the face branch the statements that
follow `return rval;` inside `if (MB_SUCCESS != rval) { … }` are never run, so
the branch hands back the cleared vectors. -/
def get_senses (g : GeomTopoTool) (entity : Nat) (wrt_entities : List Nat)
    (senses : List Int) : GeomTopoTool × MBErrorCode × List Nat × List Int :=
  let d := dimension g entity
  if d.2 = -1 then (d.1, MB_FAILURE, wrt_entities, senses)
  else if d.2 = 1 then
    let c := check_edge_sense_tags d.1 false
    if c.2 ≠ MB_SUCCESS then (c.1, c.2, [], [])
    else
      let r := tag_get_data c.1.mdbImpl TagName.GEOM_SENSE_N_ENTS c.1.mdbImpl.ents_data
        c.1.senseNEntsTag entity []
      if r.1 ≠ MB_SUCCESS then (c.1, r.1, [], [])
      else
        let r2 := tag_get_data c.1.mdbImpl TagName.GEOM_SENSE_N_SENSES c.1.mdbImpl.senses_data
          c.1.senseNSensesTag entity []
        if r2.1 ≠ MB_SUCCESS then (c.1, r2.1, r.2, [])
        else (c.1, MB_SUCCESS, r.2, r2.2)
  else
    let c := check_face_sense_tag d.1 false
    if c.2 ≠ MB_SUCCESS then (c.1, c.2, [], [])
    else
      let r := tag_get_data c.1.mdbImpl TagName.GEOM_SENSE_2 c.1.mdbImpl.sense2_data
        c.1.sense2Tag entity ((0, 0) : Nat × Nat)
      if r.1 ≠ MB_SUCCESS then (c.1, r.1, [], [])
      else (c.1, MB_SUCCESS, [], [])

/-- The end of the edge branch of `set_sense`: the two `tag_set_data` calls
that store `higher_ents` and the first `higher_ents.size()` values of `senses`.
No result when `senses` is shorter than `higher_ents`, where the second call
reads past the end of the vector. -/
def set_sense_store (g : GeomTopoTool) (entity : Nat) (higher_ents : List Nat)
    (senses : List Int) : Option (GeomTopoTool × MBErrorCode) :=
  if tag_valid g.mdbImpl TagName.GEOM_SENSE_N_ENTS g.senseNEntsTag = false then
    some (g, MB_TAG_NOT_FOUND)
  else
    let mdb1 := { g.mdbImpl with ents_data := sparse_set g.mdbImpl.ents_data entity higher_ents }
    if senses.length < higher_ents.length then none
    else if tag_valid mdb1 TagName.GEOM_SENSE_N_SENSES g.senseNSensesTag = false then
      some ({ g with mdbImpl := mdb1 }, MB_TAG_NOT_FOUND)
    else
      let stored := sparse_set mdb1.senses_data entity (senses.take higher_ents.length)
      some ({ g with mdbImpl := { mdb1 with senses_data := stored } }, MB_SUCCESS)

/-- The end of the face branch of `set_sense`:
`return mdbImpl->tag_set_data(sense2Tag, &entity, 1, sense_data)`. -/
def set_sense_store2 (g : GeomTopoTool) (entity : Nat) (sense_data : Nat × Nat) :
    GeomTopoTool × MBErrorCode :=
  if tag_valid g.mdbImpl TagName.GEOM_SENSE_2 g.sense2Tag = false then (g, MB_TAG_NOT_FOUND)
  else
    let stored := sparse_set g.mdbImpl.sense2_data entity sense_data
    ({ g with mdbImpl := { g.mdbImpl with sense2_data := stored } }, MB_SUCCESS)

/-- `ErrorCode GeomTopoTool::set_sense(entity, wrt_entity, int sense)`.  The
`int` difference and sum wrap to 32 bits.  No result where the code reads
`senses[idx]` past the end of the vector. -/
def set_sense (g : GeomTopoTool) (entity wrt_entity : Nat) (sense : Int) :
    Option (GeomTopoTool × MBErrorCode) :=
  let de := dimension g entity
  let dw := dimension de.1 wrt_entity
  if de.2 = -1 ∨ dw.2 = -1 then some (dw.1, MB_FAILURE)
  else if toInt32 (ofInt 4 (dw.2 - de.2)) ≠ 1 then some (dw.1, MB_FAILURE)
  else if sense < -1 ∨ sense > 1 then some (dw.1, MB_FAILURE)
  else if de.2 = 1 then
    let c := check_edge_sense_tags dw.1 true
    if c.2 ≠ MB_SUCCESS then some c
    else
      let s := get_senses c.1 entity [] []
      let higher_ents := s.2.2.1
      let senses := s.2.2.2
      if higher_ents ≠ [] then
        let idx := higher_ents.indexOf wrt_entity
        if idx < higher_ents.length then
          match senses.get? idx with
          | none => none
          | some oldSense =>
            if oldSense = sense then some (s.1, MB_SUCCESS)
            else if oldSense ≠ 0 ∧ toInt32 (ofInt 4 (oldSense + sense)) ≠ 0 then
              some (s.1, MB_MULTIPLE_ENTITIES_FOUND)
            else set_sense_store s.1 entity higher_ents (senses.set idx SENSE_BOTH)
        else set_sense_store s.1 entity higher_ents senses
      else set_sense_store s.1 entity (higher_ents ++ [wrt_entity]) (senses ++ [sense])
  else
    let c := check_face_sense_tag dw.1 true
    if c.2 ≠ MB_SUCCESS then some c
    else
      let r := tag_get_data c.1.mdbImpl TagName.GEOM_SENSE_2 c.1.mdbImpl.sense2_data
        c.1.sense2Tag entity ((0, 0) : Nat × Nat)
      let sense_data := r.2
      if r.1 ≠ MB_TAG_NOT_FOUND ∧ r.1 ≠ MB_SUCCESS then some (c.1, MB_FAILURE)
      else if sense = 0 then
        if sense_data.1 ≠ 0 ∧ wrt_entity ≠ sense_data.1 then
          some (c.1, MB_MULTIPLE_ENTITIES_FOUND)
        else if sense_data.2 ≠ 0 ∧ wrt_entity ≠ sense_data.2 then
          some (c.1, MB_MULTIPLE_ENTITIES_FOUND)
        else some (set_sense_store2 c.1 entity (wrt_entity, wrt_entity))
      else if sense = -1 then
        if sense_data.2 ≠ 0 ∧ wrt_entity ≠ sense_data.2 then
          some (c.1, MB_MULTIPLE_ENTITIES_FOUND)
        else if sense_data.2 = wrt_entity then some (c.1, MB_SUCCESS)
        else some (set_sense_store2 c.1 entity (sense_data.1, wrt_entity))
      else if sense = 1 then
        if sense_data.1 ≠ 0 ∧ wrt_entity ≠ sense_data.1 then
          some (c.1, MB_MULTIPLE_ENTITIES_FOUND)
        else if sense_data.1 = wrt_entity then some (c.1, MB_SUCCESS)
        else some (set_sense_store2 c.1 entity (wrt_entity, sense_data.2))
      else some (set_sense_store2 c.1 entity sense_data)

/-- `ErrorCode GeomTopoTool::get_sense(entity, wrt_entity, int& sense)`; the
result holds the value `sense` has afterwards.  No result where the code reads
`senses[index]` past the end of the vector. -/
def get_sense (g : GeomTopoTool) (entity wrt_entity : Nat) (sense : Int) :
    Option (GeomTopoTool × MBErrorCode × Int) :=
  let de := dimension g entity
  let dw := dimension de.1 wrt_entity
  if de.2 = -1 ∨ dw.2 = -1 then some (dw.1, MB_FAILURE, sense)
  else if toInt32 (ofInt 4 (dw.2 - de.2)) ≠ 1 then some (dw.1, MB_FAILURE, sense)
  else if de.2 = 1 then
    let c := check_edge_sense_tags dw.1 false
    if c.2 ≠ MB_SUCCESS then some (c.1, c.2, sense)
    else
      let s := get_senses c.1 entity [] []
      let faces := s.2.2.1
      let senses := s.2.2.2
      if s.2.1 ≠ MB_SUCCESS then some (s.1, s.2.1, sense)
      else
        let index := faces.indexOf wrt_entity
        if index = faces.length then some (s.1, MB_ENTITY_NOT_FOUND, sense)
        else
          match senses.get? index with
          | none => none
          | some v => some (s.1, MB_SUCCESS, v)
  else
    let c := check_face_sense_tag dw.1 false
    if c.2 ≠ MB_SUCCESS then some (c.1, c.2, sense)
    else
      let r := tag_get_data c.1.mdbImpl TagName.GEOM_SENSE_2 c.1.mdbImpl.sense2_data
        c.1.sense2Tag entity ((0, 0) : Nat × Nat)
      let sense_data := r.2
      if r.1 ≠ MB_TAG_NOT_FOUND ∧ r.1 ≠ MB_SUCCESS then some (c.1, MB_FAILURE, sense)
      else if wrt_entity = sense_data.1 ∧ wrt_entity = sense_data.2 then
        some (c.1, MB_SUCCESS, 0)
      else if wrt_entity = sense_data.1 then some (c.1, MB_SUCCESS, 1)
      else if wrt_entity = sense_data.2 then some (c.1, MB_SUCCESS, -1)
      else some (c.1, MB_ENTITY_NOT_FOUND, sense)

/-- `ErrorCode GeomTopoTool::other_entity(bounded, not_this, across, other)`;
the result holds the value `other` has afterwards.  No result where an
`assert` fails.  In the branch for two candidates the second `if` is not the
`else` of the first, so its `else return MB_FAILURE` is reached whenever the
last candidate is not `not_this`. -/
def other_entity (g : GeomTopoTool) (bounded not_this across : Nat) :
    Option (MBErrorCode × Nat) :=
  let other := 0
  let c := g.mdbImpl.get_child_meshsets bounded []
  if c.1 ≠ MB_SUCCESS then some (c.1, other)
  else
    let p := g.mdbImpl.get_parent_meshsets across []
    let bdy := intersect c.2 p.2
    if bdy.length = 1 then
      if bdy.head? = some not_this then some (MB_SUCCESS, other) else none
    else if bdy.length = 2 then
      let other1 := if bdy.head? = some not_this then bdy.getLast?.getD 0 else other
      if bdy.getLast? = some not_this then some (MB_SUCCESS, bdy.head?.getD 0)
      else some (MB_FAILURE, other1)
    else none

/-! ## Reading a file (`src/ReadHDF5.cpp`)

`ReadHDF5::load_file` creates the vertices, elements and sets of a file in the
database and records their handles in `nodeSet`, `elemList` and `setSet`; its
label `read_fail` deletes again what has been recorded. -/

/-- An `ElemSet` of the reader (`ReadHDF5.hpp` is not among the sources; of the
members `ReadHDF5.cpp` uses, `first_id`, `type` and `type2` play no part in
cleaning up): the handles of one group of entities read from the file. -/
structure ElemSet where
  range : MBRange
  deriving DecidableEq, Repr

/-- The reader together with the database it fills: the live entities of the
database behind `iFace`, whether `filePtr` holds an open file, whether
`dataBuffer` is allocated, and the recorded handles. -/
structure ReadHDF5 where
  entities : List Nat
  filePtr : Bool
  dataBuffer : Bool
  nodeSet : ElemSet
  setSet : ElemSet
  elemList : List ElemSet
  deriving DecidableEq, Repr

/-- Modelled from the spec: `delete_entities(range)` of the database facade
(not among the sources): the handles of the range are no longer live. -/
def delete_entities (entities : List Nat) (range : MBRange) : List Nat :=
  entities.filter (fun h => !(decide (in_range range h)))

/-- Modelled from the spec: what the file library `mhdf` and the database
facade (neither is among the sources) answer to the calls of `read_nodes`: the
status of `get_dimension` with the dimension `cdim`, whether
`mhdf_openNodeCoords` reports an error, with `count` and `dim`, the status of
`set_dimension`, the status of `get_node_arrays` with the first handle of the
vertices it creates, whether `mhdf_readNodeCoord` reports an error for
coordinate `i`, and whether `mhdf_closeData` does. -/
structure NodeAnswers where
  get_dimension : MBErrorCode
  cdim : Nat
  openNodeCoords_error : Bool
  count : Nat
  dim : Nat
  set_dimension : MBErrorCode
  get_node_arrays : MBErrorCode
  handle : Nat
  readNodeCoord_error : List Bool
  closeData_error : Bool
  deriving DecidableEq, Repr

/-- `MBErrorCode ReadHDF5::read_nodes()`; `get_node_arrays` creates `count`
vertices from `handle` on. -/
def read_nodes (a : NodeAnswers) (r : ReadHDF5) : ReadHDF5 × MBErrorCode :=
  if a.get_dimension ≠ MB_SUCCESS then (r, a.get_dimension)
  else if a.openNodeCoords_error then (r, MB_FAILURE)
  else if a.cdim < a.dim ∧ a.set_dimension ≠ MB_SUCCESS then (r, a.set_dimension)
  else if a.get_node_arrays ≠ MB_SUCCESS then (r, a.get_node_arrays)
  else
    let created := List.range' a.handle a.count
    let r : ReadHDF5 :=
      { r with entities := r.entities ++ created,
               nodeSet := ⟨[(a.handle, a.handle + a.count - 1)]⟩ }
    if (List.range a.dim).any (fun i => a.readNodeCoord_error.getD i false) then
      (r, MB_FAILURE)
    else if a.closeData_error then (r, MB_FAILURE)
    else (r, MB_SUCCESS)

/-- Modelled from the spec: what `mhdf` and the database facade answer to the
calls for one group of elements: whether `mhdf_isPolyElement` reports an error
and its answer; the status of the calls of `read_elems` or `read_poly` up to
and including `get_element_array` or `get_poly_element_array` (`MB_SUCCESS`
when none fails), the first handle and the count of the elements that call
creates, and the status of the calls after it. -/
structure GroupAnswers where
  isPolyElement_error : Bool
  poly : Bool
  before : MBErrorCode
  handle : Nat
  count : Nat
  after : MBErrorCode
  deriving DecidableEq, Repr

/-- `MBErrorCode ReadHDF5::read_elems(elem_group)`: the `ElemSet` is put in
`elemList` first; its range is set as soon as `get_element_array` has created
the elements. -/
def read_elems (a : GroupAnswers) (r : ReadHDF5) : ReadHDF5 × MBErrorCode :=
  let r : ReadHDF5 := { r with elemList := r.elemList ++ [⟨[]⟩] }
  if a.before ≠ MB_SUCCESS then (r, a.before)
  else
    let created := List.range' a.handle a.count
    let elems : ElemSet := ⟨[(a.handle, a.handle + a.count - 1)]⟩
    let r : ReadHDF5 :=
      { r with entities := r.entities ++ created, elemList := r.elemList.dropLast ++ [elems] }
    (r, a.after)

/-- `MBErrorCode ReadHDF5::read_poly(elem_group)`, which records what it
creates as `read_elems` does. -/
def read_poly (a : GroupAnswers) (r : ReadHDF5) : ReadHDF5 × MBErrorCode :=
  read_elems a r

/-- Modelled from the spec: the answers to all calls of one `load_file`.  The
readers that follow the element groups are summed up by their status and the
handles of the sets they create and record in `setSet.range`: `read_sets`,
`read_adjacencies` (the list starts with the call for `nodeSet`), `read_tag`
(one status for each tag name) and `read_qa`. -/
structure FileAnswers where
  init : MBErrorCode
  openFile : Bool
  malloc : Bool
  nodes : NodeAnswers
  numElemGroups_error : Bool
  getElemGroups_error : Bool
  groups : List GroupAnswers
  read_sets : MBErrorCode
  sets : List Nat
  read_adjacencies : List MBErrorCode
  getTagNames_error : Bool
  read_tag : List MBErrorCode
  read_qa : MBErrorCode
  import_set : Option Nat
  deriving DecidableEq, Repr

/-- How a part of `load_file` is left: on to the next statement, by
`return MB_FAILURE`, or by `goto read_fail`. -/
inductive Flow where
  | next
  | return_failure
  | read_fail
  deriving DecidableEq, Repr

/-- The loop of `load_file` over the element groups. -/
def read_groups : List GroupAnswers → ReadHDF5 → ReadHDF5 × Flow
  | [], r => (r, Flow.next)
  | a :: rest, r =>
    if a.isPolyElement_error then (r, Flow.return_failure)
    else
      let res := if a.poly then read_poly a r else read_elems a r
      if res.2 ≠ MB_SUCCESS then (res.1, Flow.read_fail)
      else read_groups rest res.1

/-- The statements of `load_file` after the label `read_fail`. -/
def read_fail (r : ReadHDF5) : ReadHDF5 × MBErrorCode :=
  let r : ReadHDF5 := { r with dataBuffer := false, filePtr := false }
  let r : ReadHDF5 :=
    if r.setSet.range ≠ [] then
      { r with entities := delete_entities r.entities r.setSet.range, setSet := ⟨[]⟩ }
    else r
  let kept := r.elemList.foldl (fun ents el => delete_entities ents el.range) r.entities
  let r : ReadHDF5 := { r with entities := kept, elemList := [] }
  let r : ReadHDF5 :=
    if r.nodeSet.range ≠ [] then
      { r with entities := delete_entities r.entities r.nodeSet.range, nodeSet := ⟨[]⟩ }
    else r
  (r, MB_FAILURE)

/-- Record the handles of created sets in `setSet.range`. -/
def record_sets (r : ReadHDF5) (sets : List Nat) : ReadHDF5 :=
  let recorded := r.setSet.range ++ sets.map (fun h => (h, h))
  { r with entities := r.entities ++ sets, setSet := ⟨recorded⟩ }

/-- `MBErrorCode ReadHDF5::load_file(filename, 0, num_blocks)`. -/
def load_file (a : FileAnswers) (r : ReadHDF5) (num_blocks : Int) : ReadHDF5 × MBErrorCode :=
  if num_blocks ≠ 0 then (r, MB_FAILURE)
  else if a.init ≠ MB_SUCCESS then (r, MB_FAILURE)
  else if a.openFile = false then ({ r with filePtr := false }, MB_FAILURE)
  else
    let r : ReadHDF5 := { r with filePtr := true, dataBuffer := a.malloc }
    if a.malloc = false then read_fail r
    else
      let n := read_nodes a.nodes r
      if n.2 ≠ MB_SUCCESS then read_fail n.1
      else if a.numElemGroups_error then (n.1, MB_FAILURE)
      else if a.groups ≠ [] ∧ a.getElemGroups_error then (n.1, MB_FAILURE)
      else
        let g := read_groups a.groups n.1
        match g.2 with
        | Flow.return_failure => (g.1, MB_FAILURE)
        | Flow.read_fail => read_fail g.1
        | Flow.next =>
          let s := record_sets g.1 a.sets
          if a.read_sets ≠ MB_SUCCESS then read_fail s
          else if (a.read_adjacencies.take (s.elemList.length + 1)).any
              (fun rc => decide (rc ≠ MB_SUCCESS)) then read_fail s
          else if a.getTagNames_error then (s, MB_FAILURE)
          else if a.read_tag.any (fun rc => decide (rc ≠ MB_SUCCESS)) then read_fail s
          else
            let q := record_sets s a.import_set.toList
            if a.read_qa ≠ MB_SUCCESS then read_fail q
            else ({ q with dataBuffer := false, filePtr := false }, MB_SUCCESS)

/-- The reader before `load_file`, on a database with the given live
entities. -/
def ReadHDF5.new (entities : List Nat) : ReadHDF5 :=
  ⟨entities, false, false, ⟨[]⟩, ⟨[]⟩, []⟩

/-- A file with three vertices for which `mhdf_numElemGroups` reports an
error. -/
def file_numElemGroups_error : FileAnswers :=
  { init := MB_SUCCESS, openFile := true, malloc := true,
    nodes := ⟨MB_SUCCESS, 3, false, 3, 3, MB_SUCCESS, MB_SUCCESS, 1, [], false⟩,
    numElemGroups_error := true, getElemGroups_error := false, groups := [],
    read_sets := MB_SUCCESS, sets := [], read_adjacencies := [], getTagNames_error := false,
    read_tag := [], read_qa := MB_SUCCESS, import_set := none }

/-- A file with three vertices whose set table cannot be read: `read_sets`
fails. -/
def file_read_sets_fails : FileAnswers :=
  { file_numElemGroups_error with numElemGroups_error := false, read_sets := MB_FAILURE }
/-! ## Well-formed inputs and the facts the iterator maintains -/

/-- Well-formed `MBRange` over `sz`-byte handles: every pair is `first ≤ last`
with `last` a handle value, and the pairs are strictly increasing and
non-abutting. -/
def RangeWF (sz : Nat) (r : MBRange) : Prop :=
  (∀ p ∈ r, p.1 ≤ p.2 ∧ p.2 < 2 ^ (8 * sz)) ∧ r.Pairwise (fun p q => p.2 + 1 < q.1)

instance (sz : Nat) (r : MBRange) : Decidable (RangeWF sz r) := by
  unfold RangeWF; infer_instance

/-- Well-formed `EntitySequenceManager` over `sz`-byte handles: every sequence
has fewer than `2^31` slots (the allocated count is an `int`) and at least one,
all its handles are handle values of one entity type, and the sequences are in
ascending order and do not overlap. -/
def MgrWF (sz : Nat) (m : EntitySequenceManager) : Prop :=
  (∀ s ∈ m.sequences, s.free.length < 2 ^ 31 ∧ s.start_handle + s.free.length ≤ 2 ^ (8 * sz) ∧
      TYPE_FROM_HANDLE sz (s.start_handle + s.free.length - 1) = TYPE_FROM_HANDLE sz s.start_handle ∧
      0 < s.free.length) ∧
  m.sequences.Pairwise (fun a b => a.start_handle + a.free.length ≤ b.start_handle)

instance (sz : Nat) (m : EntitySequenceManager) : Decidable (MgrWF sz m) := by
  unfold MgrWF; infer_instance

/-- No conversion to `int` truncates: the last handle of every pair of the range
is fewer than `2^31` handles past the start of every sequence the pair meets. -/
def NoTruncation (m : EntitySequenceManager) (r : MBRange) : Prop :=
  ∀ p ∈ r, ∀ s ∈ m.sequences, s.start_handle ≤ p.2 → p.1 < s.start_handle + s.free.length →
    p.2 - s.start_handle < 2 ^ 31

instance (m : EntitySequenceManager) (r : MBRange) : Decidable (NoTruncation m r) := by
  unfold NoTruncation; infer_instance

/-- The free-list cursor `f` of sequence `s` seen from slot `k`: `f` is a free
slot or the allocated count, and no slot in `[k, f)` is free. -/
def FreeCursor (s : MBEntitySequence) (k : Nat) (f : Int) : Prop :=
  0 ≤ f ∧ f ≤ (s.free.length : Int) ∧ (f < (s.free.length : Int) → s.is_free f.toNat = true) ∧
  ∀ j : Nat, k ≤ j → (j : Int) < f → s.is_free j = false

/-- The end the block is given before it is trimmed: the end of the current
pair of the range, capped at the last handle. -/
def cand_of (rangeIter : List (Nat × Nat)) (mLastHandle : Nat) : Nat :=
  if (node_pair rangeIter).2 > mLastHandle then mLastHandle else (node_pair rangeIter).2

/-- The end the block in hand was given before it was trimmed. -/
def cand_end (self : MBRangeSeqIntersectIter) : Nat :=
  cand_of self.rangeIter self.mLastHandle

/-- The states `init` and `step` hand back, with the status returned, when a
range `r` is iterated from its beginning over the manager `m`. -/
inductive Reach (sz MBMAXTYPE MBENTITYSET : Nat) (m : EntitySequenceManager) (r : MBRange) :
    MBRangeSeqIntersectIter → MBErrorCode → Prop where
  | init {st : MBRangeSeqIntersectIter} {rc : MBErrorCode} :
      init sz MBMAXTYPE MBENTITYSET (MBRangeSeqIntersectIter.new m) r.begin r.end_ = some (st, rc) →
      rc ≠ MB_FAILURE → Reach sz MBMAXTYPE MBENTITYSET m r st rc
  | step {st st1 : MBRangeSeqIntersectIter} {rc rc1 : MBErrorCode} :
      Reach sz MBMAXTYPE MBENTITYSET m r st rc → is_at_end st = false →
      step sz MBMAXTYPE MBENTITYSET st = some (st1, rc1) →
      Reach sz MBMAXTYPE MBENTITYSET m r st1 rc1

/-- The maximum-id handle of entity type `t`: `CREATE_HANDLE(t, MB_END_ID, junk)`. -/
def max_handle (sz MBMAXTYPE t : Nat) : Nat :=
  (CREATE_HANDLE sz MBMAXTYPE (t : Int) (MB_END_ID sz)).1

/-- The second member of the last pair of a range. -/
def last_handle (r : MBRange) : Nat := (node_pair r.reverse).2

/-- What holds of the range cursor in every state of an iteration of `r`: it
stands on a pair of `r`, `mLastHandle` is the last handle of `r`, and the block
start lies in the current pair, at or before the end the block is given. -/
def RangeInv (r : MBRange) (self : MBRangeSeqIntersectIter) : Prop :=
  self.rangeIter <:+ r ∧ self.rangeIter ≠ [] ∧ self.mLastHandle = last_handle r ∧
  (node_pair self.rangeIter).1 ≤ self.mStartHandle ∧ self.mStartHandle ≤ cand_end self

/-- What holds of a cached sequence: it is a non-empty sequence of the manager
that starts at or before the block start, and the free-list cursor is valid
seen from handle `base`. -/
def CacheInv (m : EntitySequenceManager) (self : MBRangeSeqIntersectIter) (base : Nat) : Prop :=
  ∀ s, self.mSequence = some s →
    s ∈ m.sequences ∧ 0 < s.free.length ∧ s.start_handle ≤ self.mStartHandle ∧
    FreeCursor s (base - s.start_handle) self.freeIndex

/-- The state on entry to `update_entity_sequence`. -/
def PreInv (m : EntitySequenceManager) (r : MBRange) (self : MBRangeSeqIntersectIter) : Prop :=
  self.mSequenceManager = m ∧ RangeInv r self ∧ self.mEndHandle = cand_end self ∧
  CacheInv m self self.mStartHandle

/-- The state handed back by `init` or `step` with a status other than
`MB_FAILURE`. -/
def Inv (m : EntitySequenceManager) (r : MBRange) (self : MBRangeSeqIntersectIter) : Prop :=
  self.mSequenceManager = m ∧ RangeInv r self ∧
  self.mStartHandle ≤ self.mEndHandle ∧ self.mEndHandle ≤ cand_end self ∧
  CacheInv m self (self.mEndHandle + 1)

/-- The end of a block that starts in no sequence: the end it was given, cut
before the next sequence of the start's type when there is one, and otherwise
at the maximum-id handle of that type. -/
def hole_end (sz MBMAXTYPE : Nat) (self : MBRangeSeqIntersectIter) : Nat :=
  match upper_bound (self.mSequenceManager.entity_map sz (TYPE_FROM_HANDLE sz self.mStartHandle))
      self.mStartHandle with
  | some next => min (cand_end self) (next.start_handle - 1)
  | none => min (cand_end self) (max_handle sz MBMAXTYPE (TYPE_FROM_HANDLE sz self.mStartHandle))

/-- What the status returned by `init` or `step` says about the state handed
back: the three ways `update_entity_sequence` ends without a sequence or with
one. -/
def Facts (sz MBMAXTYPE MBENTITYSET : Nat) (m : EntitySequenceManager)
    (self : MBRangeSeqIntersectIter) (rc : MBErrorCode) : Prop :=
  (rc = MB_TYPE_OUT_OF_RANGE ∧ MBENTITYSET ≤ TYPE_FROM_HANDLE sz self.mStartHandle ∧
    self.mEndHandle = cand_end self) ∨
  (rc = MB_ENTITY_NOT_FOUND ∧ self.mSequence = none ∧
    TYPE_FROM_HANDLE sz self.mStartHandle < MBENTITYSET ∧
    (∀ S ∈ m.sequences, ¬ S.contains self.mStartHandle) ∧
    self.mEndHandle = hole_end sz MBMAXTYPE self) ∨
  (∃ s, self.mSequence = some s ∧ s ∈ m.sequences ∧ s.contains self.mStartHandle ∧
    ((rc = MB_SUCCESS ∧
        FreeCursor s (self.mStartHandle - s.start_handle) self.freeIndex ∧
        ((self.mStartHandle - s.start_handle : Nat) : Int) < self.freeIndex ∧
        self.mEndHandle =
          if toInt32 (cand_end self - s.start_handle) ≥ self.freeIndex
          then s.start_handle + (self.freeIndex - 1).toNat else cand_end self) ∨
     (rc = MB_ENTITY_NOT_FOUND ∧ ∃ f : Nat, self.freeIndex = (f : Int) ∧
        self.mStartHandle - s.start_handle ≤ f ∧
        (∀ j : Nat, self.mStartHandle - s.start_handle ≤ j → j ≤ f → s.is_free j = true) ∧
        (((f : Int) < toInt32 (cand_end self - s.start_handle) ∧
            self.mEndHandle = s.start_handle + f ∧ s.is_free (f + 1) = false) ∨
         (toInt32 (cand_end self - s.start_handle) ≤ (f : Int) ∧
            self.mEndHandle = cand_end self ∧
            (f = self.mStartHandle - s.start_handle ∨
              (f : Int) = toInt32 (cand_end self - s.start_handle)))))))

/-- What a block promises its caller.  A block returned with `MB_SUCCESS`
carries a sequence of the manager in which all its handles are live; a block
returned with any other status holds no handle that is live in a sequence of
type below `MBENTITYSET`. -/
def BlockOK (sz MBENTITYSET : Nat) (m : EntitySequenceManager) (b : Block) : Prop :=
  (b.status = MB_SUCCESS →
    ∃ s ∈ m.sequences, b.sequence = some s ∧ ∀ h, b.first ≤ h → h ≤ b.last → s.live h) ∧
  (b.status ≠ MB_SUCCESS →
    ∀ h, b.first ≤ h → h ≤ b.last →
      ∀ S ∈ m.sequences, TYPE_FROM_HANDLE sz S.start_handle < MBENTITYSET → ¬ S.live h)

/-- Vertices 1 to 10 in one sequence, all live. -/
def vertices_1_10 : MBEntitySequence :=
  ⟨1, [false, false, false, false, false, false, false, false, false, false]⟩

/-- Vertices 1 to 10 in one sequence, with 3, 4 and 5 deleted. -/
def vertices_1_10_del_3_4_5 : MBEntitySequence :=
  ⟨1, [false, false, true, true, true, false, false, false, false, false]⟩


/-- Edge 10 with the face 20 stored with sense 1; the faces 20 and 21 have
dimension 2.  The tool has the dimension tag and has not looked up the sense
tags. -/
def edge_10_in_face_20 : GeomTopoTool :=
  ⟨⟨[TagName.GEOM_DIMENSION, TagName.GEOM_SENSE_N_ENTS, TagName.GEOM_SENSE_N_SENSES],
    [(10, 1), (20, 2), (21, 2)], [], [(10, [20])], [(10, [1])], [], []⟩, 1, 0, 0, 0⟩

/-- Face 20 with forward volume 30 and reverse volume 31 stored. -/
def face_20_in_volumes_30_31 : GeomTopoTool :=
  ⟨⟨[TagName.GEOM_DIMENSION, TagName.GEOM_SENSE_2],
    [(20, 2), (30, 3), (31, 3)], [(20, (30, 31))], [], [], [], []⟩, 1, 0, 0, 0⟩

/-- Face 20 with forward and reverse volume 30 stored. -/
def face_20_in_volume_30_both : GeomTopoTool :=
  ⟨⟨[TagName.GEOM_DIMENSION, TagName.GEOM_SENSE_2],
    [(20, 2), (30, 3)], [(20, (30, 30))], [], [], [], []⟩, 1, 0, 0, 0⟩

/-- Volume 30 with the children 20 and 21, both parents of the edge 10. -/
def faces_20_21_between : GeomTopoTool :=
  ⟨⟨[TagName.GEOM_DIMENSION], [], [], [], [], [(30, [20, 21])], [(10, [20, 21])]⟩, 1, 0, 0, 0⟩

/-- Edge 10, face 20 and volume 30 with their dimensions, no sense tag created
and no sense stored; the tool as its constructor leaves it. -/
def geometry_without_sense_tags : GeomTopoTool :=
  GeomTopoTool.new ⟨[TagName.GEOM_DIMENSION], [(10, 1), (20, 2), (30, 3)], [], [], [], [], []⟩

/-- Edge 10, face 20 and volume 30 with their dimensions and the sense tags
created, no sense stored. -/
def geometry_without_senses : GeomTopoTool :=
  ⟨⟨[TagName.GEOM_DIMENSION, TagName.GEOM_SENSE_2, TagName.GEOM_SENSE_N_ENTS,
      TagName.GEOM_SENSE_N_SENSES],
    [(10, 1), (20, 2), (30, 3)], [], [], [], [], []⟩, 1, 0, 0, 0⟩

/-- Face 20 with forward volume 30 stored and no reverse volume. -/
def face_20_forward_30 : GeomTopoTool :=
  ⟨⟨[TagName.GEOM_DIMENSION, TagName.GEOM_SENSE_2],
    [(20, 2), (30, 3)], [(20, (30, 0))], [], [], [], []⟩, 1, 0, 0, 0⟩
/-! ### Arithmetic reading of the bit operations -/

theorem two_pow_bits (sz : Nat) (hsz : 0 < sz) :
    2 ^ (8 * sz) = 16 * 2 ^ MB_HANDLE_SHIFT_WIDTH sz := by
  unfold MB_HANDLE_SHIFT_WIDTH
  have h : 8 * sz = (8 * sz - 4) + 4 := by omega
  conv_lhs => rw [h, pow_add]
  ring

theorem mask_eq (sz : Nat) (hsz : 0 < sz) :
    MB_HANDLE_MASK sz = 15 * 2 ^ MB_HANDLE_SHIFT_WIDTH sz := by
  unfold MB_HANDLE_MASK
  rw [Nat.shiftLeft_eq, two_pow_bits sz hsz]
  have hp : 0 < 2 ^ MB_HANDLE_SHIFT_WIDTH sz := Nat.two_pow_pos _
  apply Nat.mod_eq_of_lt
  omega

theorem end_id_eq (sz : Nat) (hsz : 0 < sz) :
    handleNot sz (MB_HANDLE_MASK sz) = 2 ^ MB_HANDLE_SHIFT_WIDTH sz - 1 := by
  unfold handleNot
  rw [mask_eq sz hsz, two_pow_bits sz hsz]
  have hp : 0 < 2 ^ MB_HANDLE_SHIFT_WIDTH sz := Nat.two_pow_pos _
  rw [Nat.mod_eq_of_lt (by omega)]
  omega

theorem id_from_handle_eq (sz : Nat) (hsz : 0 < sz) (h : Nat) :
    ID_FROM_HANDLE sz h = h % 2 ^ MB_HANDLE_SHIFT_WIDTH sz := by
  unfold ID_FROM_HANDLE
  rw [end_id_eq sz hsz, Nat.and_pow_two_sub_one_eq_mod]

theorem and_shifted_mask (h s : Nat) : (h &&& (15 <<< s)) >>> s = (h >>> s) % 16 := by
  have e : (h >>> s) % 16 = (h >>> s) &&& (2 ^ 4 - 1) := by
    rw [Nat.and_pow_two_sub_one_eq_mod]
  rw [e]
  apply Nat.eq_of_testBit_eq
  intro i
  simp only [Nat.testBit_shiftRight, Nat.testBit_and, Nat.testBit_shiftLeft]
  have : s + i - s = i := by omega
  simp [this]

theorem type_from_handle_eq (sz : Nat) (hsz : 0 < sz) (h : Nat) :
    TYPE_FROM_HANDLE sz h = (h / 2 ^ MB_HANDLE_SHIFT_WIDTH sz) % 16 := by
  unfold TYPE_FROM_HANDLE
  rw [mask_eq sz hsz, ← Nat.shiftLeft_eq, and_shifted_mask, Nat.shiftRight_eq_div_pow]

theorem type_from_handle_lt (sz : Nat) (hsz : 0 < sz) (h : Nat) :
    TYPE_FROM_HANDLE sz h < 16 := by
  rw [type_from_handle_eq sz hsz]
  exact Nat.mod_lt _ (by decide)

theorem type_from_handle_of_lt (sz : Nat) (hsz : 0 < sz) (h : Nat) (hh : h < 2 ^ (8 * sz)) :
    TYPE_FROM_HANDLE sz h = h / 2 ^ MB_HANDLE_SHIFT_WIDTH sz := by
  rw [type_from_handle_eq sz hsz]
  apply Nat.mod_eq_of_lt
  rw [two_pow_bits sz hsz] at hh
  apply Nat.div_lt_of_lt_mul
  rw [Nat.mul_comm]
  exact hh

/-- The handle built by `CREATE_HANDLE` from an in-range type and id is
`type * 2^shift + id`, with `err = 0`. -/
theorem create_handle_eq (sz MBMAXTYPE : Nat) (hsz : 0 < sz)
    (t id : Nat) (ht : t ≤ MBMAXTYPE) (ht15 : t ≤ 15) (hid : id ≤ MB_END_ID sz) :
    CREATE_HANDLE sz MBMAXTYPE (t : Int) id
      = (t * 2 ^ MB_HANDLE_SHIFT_WIDTH sz + id, 0) := by
  unfold MB_END_ID at hid
  have hid2 := hid
  rw [end_id_eq sz hsz] at hid2
  have hp : 0 < 2 ^ MB_HANDLE_SHIFT_WIDTH sz := Nat.two_pow_pos _
  have hW := two_pow_bits sz hsz
  have hcond : ¬ (id > handleNot sz (MB_HANDLE_MASK sz) ∨ (t : Int) > (MBMAXTYPE : Int)) := by
    push_neg
    exact ⟨hid, by exact_mod_cast ht⟩
  unfold CREATE_HANDLE
  rw [if_neg hcond]
  have ht16 : t < 2 ^ (8 * sz) := by rw [hW]; omega
  have e1 : ((t : Int) % (2 ^ (8 * sz) : Int)).toNat = t := by
    have : ((t : Int) % (2 ^ (8 * sz) : Int)) = ((t % 2 ^ (8 * sz) : Nat) : Int) := by
      push_cast; rfl
    rw [this, Int.toNat_ofNat, Nat.mod_eq_of_lt ht16]
  simp only [e1, Nat.shiftLeft_eq]
  have hlt : t * 2 ^ MB_HANDLE_SHIFT_WIDTH sz + id < 2 ^ (8 * sz) := by
    rw [hW]
    have : t * 2 ^ MB_HANDLE_SHIFT_WIDTH sz ≤ 15 * 2 ^ MB_HANDLE_SHIFT_WIDTH sz :=
      Nat.mul_le_mul_right _ (by omega)
    omega
  have hlt2 : t * 2 ^ MB_HANDLE_SHIFT_WIDTH sz < 2 ^ (8 * sz) := by omega
  rw [Nat.mod_eq_of_lt hlt2, Nat.mod_eq_of_lt hlt]


/-! ### Claims about the handle codec -/

/-- C1. Handle round trip: for every entity handle `h` (a value of the
`sz`-byte unsigned handle type) whose type field does not exceed `MBMAXTYPE`,
`CREATE_HANDLE(TYPE_FROM_HANDLE(h), ID_FROM_HANDLE(h), err)` returns exactly
`h` and leaves `err = 0`. -/
theorem C1_handle_round_trip (sz MBMAXTYPE h : Nat) (hsz : 0 < sz)
    (hh : h < 2 ^ (8 * sz)) (ht : TYPE_FROM_HANDLE sz h ≤ MBMAXTYPE) :
    CREATE_HANDLE sz MBMAXTYPE (TYPE_FROM_HANDLE sz h : Int) (ID_FROM_HANDLE sz h)
      = (h, 0) := by
  have hp : 0 < 2 ^ MB_HANDLE_SHIFT_WIDTH sz := Nat.two_pow_pos _
  have h15 : TYPE_FROM_HANDLE sz h ≤ 15 := by
    have := type_from_handle_lt sz hsz h
    omega
  have hid : ID_FROM_HANDLE sz h ≤ MB_END_ID sz := by
    unfold MB_END_ID
    rw [end_id_eq sz hsz, id_from_handle_eq sz hsz]
    have := Nat.mod_lt h hp
    omega
  rw [create_handle_eq sz MBMAXTYPE hsz _ _ ht h15 hid,
    type_from_handle_of_lt sz hsz h hh, id_from_handle_eq sz hsz, Nat.div_add_mod']

/-- Witness of C1 at the sample handle `0x10000010` of the header's unit test
(32-bit handles). -/
theorem C1_handle_round_trip_witness :
    CREATE_HANDLE 4 15 (TYPE_FROM_HANDLE 4 0x10000010 : Int) (ID_FROM_HANDLE 4 0x10000010)
      = (0x10000010, 0) :=
  C1_handle_round_trip 4 15 0x10000010 (by decide) (by decide) (by decide)

/-- C2. Decode undoes encode: for every type `t` with `0 ≤ t ≤ MBMAXTYPE`
(an enumerator that fits the four type bits) and every `id ≤ MB_END_ID`,
`CREATE_HANDLE(t, id, err)` leaves `err = 0` and the returned handle `h` has
`TYPE_FROM_HANDLE(h) = t` and `ID_FROM_HANDLE(h) = id`. -/
theorem C2_decode_encode (sz MBMAXTYPE : Nat) (t : Int) (id : Nat) (hsz : 0 < sz)
    (hmax : MBMAXTYPE ≤ 15) (ht0 : 0 ≤ t) (ht : t ≤ (MBMAXTYPE : Int))
    (hid : id ≤ MB_END_ID sz) :
    (CREATE_HANDLE sz MBMAXTYPE t id).2 = 0 ∧
    (TYPE_FROM_HANDLE sz (CREATE_HANDLE sz MBMAXTYPE t id).1 : Int) = t ∧
    ID_FROM_HANDLE sz (CREATE_HANDLE sz MBMAXTYPE t id).1 = id := by
  obtain ⟨n, rfl⟩ := Int.eq_ofNat_of_zero_le ht0
  have hn : n ≤ MBMAXTYPE := by exact_mod_cast ht
  have hp : 0 < 2 ^ MB_HANDLE_SHIFT_WIDTH sz := Nat.two_pow_pos _
  have hid2 : id < 2 ^ MB_HANDLE_SHIFT_WIDTH sz := by
    unfold MB_END_ID at hid
    rw [end_id_eq sz hsz] at hid
    omega
  rw [create_handle_eq sz MBMAXTYPE hsz n id hn (by omega) hid]
  refine ⟨rfl, ?_, ?_⟩
  · rw [type_from_handle_eq sz hsz]
    have e : (n * 2 ^ MB_HANDLE_SHIFT_WIDTH sz + id) / 2 ^ MB_HANDLE_SHIFT_WIDTH sz = n := by
      rw [Nat.mul_comm, Nat.mul_add_div hp, Nat.div_eq_of_lt hid2]
      rfl
    simp only [e]
    have : n % 16 = n := Nat.mod_eq_of_lt (by omega)
    rw [this]
  · rw [id_from_handle_eq sz hsz]
    simp only
    rw [Nat.mul_comm, Nat.mul_add_mod, Nat.mod_eq_of_lt hid2]

/-- Witness of C2 at the unit test's `CREATE_HANDLE(1, 16, err)`. -/
theorem C2_decode_encode_witness :
    (CREATE_HANDLE 4 15 1 16).2 = 0 ∧
    (TYPE_FROM_HANDLE 4 (CREATE_HANDLE 4 15 1 16).1 : Int) = 1 ∧
    ID_FROM_HANDLE 4 (CREATE_HANDLE 4 15 1 16).1 = 16 :=
  C2_decode_encode 4 15 1 16 (by decide) (by decide) (by decide) (by decide) (by decide)

/-- C3. `CREATE_HANDLE` fails exactly on overflow: for every `type` and `id`
it reports an error (`err ≠ 0`) if and only if `id > ~MB_HANDLE_MASK` or
`type > MBMAXTYPE`; in every other case `err = 0`. -/
theorem C3_create_handle_error_iff (sz MBMAXTYPE : Nat) (type : Int) (id : Nat) :
    ((CREATE_HANDLE sz MBMAXTYPE type id).2 ≠ 0 ↔
      (id > handleNot sz (MB_HANDLE_MASK sz) ∨ type > (MBMAXTYPE : Int))) ∧
    (¬ (id > handleNot sz (MB_HANDLE_MASK sz) ∨ type > (MBMAXTYPE : Int)) →
      (CREATE_HANDLE sz MBMAXTYPE type id).2 = 0) := by
  unfold CREATE_HANDLE
  by_cases hc : id > handleNot sz (MB_HANDLE_MASK sz) ∨ type > (MBMAXTYPE : Int)
  · rw [if_pos hc]
    simp [hc]
  · rw [if_neg hc]
    simp [hc]

/-- C4. Handle order is lexicographic in (type, id): for entity types
`t1, t2 ≤ MBMAXTYPE` and ids `id1, id2 ≤ MB_END_ID`, the handle of `(t1, id1)`
is below the handle of `(t2, id2)` as unsigned integers if and only if
`t1 < t2`, or `t1 = t2` and `id1 < id2`. -/
theorem C4_handle_order_lex (sz MBMAXTYPE t1 id1 t2 id2 : Nat) (hsz : 0 < sz)
    (hmax : MBMAXTYPE ≤ 15) (ht1 : t1 ≤ MBMAXTYPE) (ht2 : t2 ≤ MBMAXTYPE)
    (hid1 : id1 ≤ MB_END_ID sz) (hid2 : id2 ≤ MB_END_ID sz) :
    (CREATE_HANDLE sz MBMAXTYPE (t1 : Int) id1).1 < (CREATE_HANDLE sz MBMAXTYPE (t2 : Int) id2).1
      ↔ (t1 < t2 ∨ (t1 = t2 ∧ id1 < id2)) := by
  have hp : 0 < 2 ^ MB_HANDLE_SHIFT_WIDTH sz := Nat.two_pow_pos _
  have h1 : id1 < 2 ^ MB_HANDLE_SHIFT_WIDTH sz := by
    unfold MB_END_ID at hid1
    rw [end_id_eq sz hsz] at hid1
    omega
  have h2 : id2 < 2 ^ MB_HANDLE_SHIFT_WIDTH sz := by
    unfold MB_END_ID at hid2
    rw [end_id_eq sz hsz] at hid2
    omega
  rw [create_handle_eq sz MBMAXTYPE hsz t1 id1 ht1 (by omega) hid1,
    create_handle_eq sz MBMAXTYPE hsz t2 id2 ht2 (by omega) hid2]
  simp only
  generalize 2 ^ MB_HANDLE_SHIFT_WIDTH sz = P at *
  rcases Nat.lt_trichotomy t1 t2 with hlt | heq | hgt
  · have : (t1 + 1) * P ≤ t2 * P := Nat.mul_le_mul_right P hlt
    rw [Nat.add_mul] at this
    constructor
    · intro _; exact Or.inl hlt
    · intro _; omega
  · subst heq
    constructor
    · intro h; right; exact ⟨rfl, by omega⟩
    · rintro (h | ⟨_, h⟩) <;> omega
  · have : (t2 + 1) * P ≤ t1 * P := Nat.mul_le_mul_right P hgt
    rw [Nat.add_mul] at this
    constructor
    · intro h; omega
    · rintro (h | ⟨h, _⟩) <;> omega

/-- Witness of C4: the last vertex handle is below the first edge handle. -/
theorem C4_handle_order_lex_witness :
    (CREATE_HANDLE 4 15 ((0 : Nat) : Int) 0x0FFFFFFF).1 < (CREATE_HANDLE 4 15 ((1 : Nat) : Int) 1).1
      ↔ (0 < 1 ∨ (0 = 1 ∧ 0x0FFFFFFF < 1)) :=
  C4_handle_order_lex 4 15 0 0x0FFFFFFF 1 1 (by decide) (by decide) (by decide) (by decide)
    (by decide) (by decide)

/-! ### Machine arithmetic without wrap-around -/

theorem toInt32_of_lt (x : Nat) (h : x < 2 ^ 31) : toInt32 x = (x : Int) := by
  unfold toInt32
  have h1 : x % 2 ^ 32 = x := Nat.mod_eq_of_lt (by omega)
  rw [h1, if_pos h]

theorem toInt32_le (x : Nat) : toInt32 x ≤ (x : Int) := by
  unfold toInt32
  have h1 : x % 2 ^ 32 ≤ x := Nat.mod_le _ _
  split <;> omega

theorem handleSub_eq (sz a b : Nat) (hab : b ≤ a) (ha : a < 2 ^ (8 * sz)) :
    handleSub sz a b = a - b := by
  unfold handleSub
  have hb : b % 2 ^ (8 * sz) = b := Nat.mod_eq_of_lt (by omega)
  rw [hb]
  have e : a + (2 ^ (8 * sz) - b) = (a - b) + 2 ^ (8 * sz) := by omega
  rw [e, Nat.add_mod_right, Nat.mod_eq_of_lt (by omega)]

theorem handleAdd_eq (sz a b : Nat) (h : a + b < 2 ^ (8 * sz)) : handleAdd sz a b = a + b := by
  unfold handleAdd
  exact Nat.mod_eq_of_lt h

theorem ofInt_eq (sz : Nat) (n : Nat) (h : n < 2 ^ (8 * sz)) : ofInt sz (n : Int) = n := by
  unfold ofInt
  have : ((n : Int) % (2 ^ (8 * sz) : Int)) = ((n % 2 ^ (8 * sz) : Nat) : Int) := by
    push_cast; rfl
  rw [this, Int.toNat_ofNat, Nat.mod_eq_of_lt h]

/-! ### The free list -/

theorem nextFreeFrom_spec (l : List Bool) : ∀ (base : Nat) (prev : Int),
    (nextFreeFrom l base prev = -1 ∧
      ∀ i, i < l.length → prev < ((base + i : Nat) : Int) → l.getD i false = false) ∨
    (∃ i, i < l.length ∧ nextFreeFrom l base prev = ((base + i : Nat) : Int) ∧
      l.getD i false = true ∧ prev < ((base + i : Nat) : Int) ∧
      ∀ j, j < i → prev < ((base + j : Nat) : Int) → l.getD j false = false) := by
  induction l with
  | nil =>
    intro base prev
    left
    exact ⟨rfl, fun i hi => absurd hi (by simp)⟩
  | cons b bs ih =>
    intro base prev
    unfold nextFreeFrom
    by_cases hc : b = true ∧ prev < (base : Int)
    · rw [if_pos hc]
      right
      refine ⟨0, by simp, by simp, by simp [hc.1], by simpa using hc.2, ?_⟩
      intro j hj
      omega
    · rw [if_neg hc]
      rcases ih (base + 1) prev with ⟨h1, h2⟩ | ⟨i, hi, h1, h2, h3, h4⟩
      · left
        refine ⟨h1, ?_⟩
        intro i hi hp
        cases i with
        | zero =>
          simp only [List.getD_cons_zero]
          by_contra hb
          apply hc
          refine ⟨by simpa using hb, by simpa using hp⟩
        | succ k =>
          simp only [List.getD_cons_succ]
          apply h2 k (by simpa using hi)
          have : base + 1 + k = base + (k + 1) := by omega
          rw [this]; exact hp
      · right
        refine ⟨i + 1, by simpa using hi, ?_, by simpa using h2, ?_, ?_⟩
        · rw [h1]; congr 1; omega
        · have : base + (i + 1) = base + 1 + i := by omega
          rw [this]; exact h3
        · intro j hj hp
          cases j with
          | zero =>
            simp only [List.getD_cons_zero]
            by_contra hb
            apply hc
            refine ⟨by simpa using hb, by simpa using hp⟩
          | succ k =>
            simp only [List.getD_cons_succ]
            apply h4 k (by omega)
            have : base + 1 + k = base + (k + 1) := by omega
            rw [this]; exact hp

theorem is_free_lt (s : MBEntitySequence) (i : Nat) (h : s.is_free i = true) :
    i < s.free.length := by
  unfold MBEntitySequence.is_free at h
  by_contra hc
  rw [List.getD_eq_default _ _ (by omega)] at h
  exact absurd h (by decide)

theorem next_free_spec (s : MBEntitySequence) (prev : Int) :
    (s.get_next_free_index prev = -1 ∧ ∀ i : Nat, prev < (i : Int) → s.is_free i = false) ∨
    (∃ i : Nat, s.get_next_free_index prev = (i : Int) ∧ i < s.free.length ∧
      s.is_free i = true ∧ prev < (i : Int) ∧
      ∀ j : Nat, prev < (j : Int) → j < i → s.is_free j = false) := by
  unfold MBEntitySequence.get_next_free_index
  rcases nextFreeFrom_spec s.free 0 prev with ⟨h1, h2⟩ | ⟨i, hi, h1, h2, h3, h4⟩
  · left
    refine ⟨h1, ?_⟩
    intro i hp
    unfold MBEntitySequence.is_free
    by_cases hi : i < s.free.length
    · exact h2 i hi (by simpa using hp)
    · exact List.getD_eq_default _ _ (by omega)
  · right
    refine ⟨i, by simpa using h1, hi, h2, by simpa using h3, ?_⟩
    intro j hp hj
    exact h4 j hj (by simpa using hp)

theorem FreeCursor.mono {s : MBEntitySequence} {k k1 : Nat} {f : Int}
    (h : FreeCursor s k f) (hk : k ≤ k1) : FreeCursor s k1 f :=
  ⟨h.1, h.2.1, h.2.2.1, fun j hj hf => h.2.2.2 j (by omega) hf⟩

/-- The cursor after one `get_next_free_index` call (with `-1` replaced by the
allocated count) is the least free slot above the previous cursor. -/
theorem next_cursor (s : MBEntitySequence) (prev : Int) (hprev : -1 ≤ prev) :
    FreeCursor s (prev + 1).toNat
      (if s.get_next_free_index prev = -1 then s.number_allocated
       else s.get_next_free_index prev) ∧
    prev < (if s.get_next_free_index prev = -1 then s.number_allocated
       else s.get_next_free_index prev) ∨ (s.free.length : Int) ≤ prev := by
  by_cases hp : (s.free.length : Int) ≤ prev
  · exact Or.inr hp
  left
  rcases next_free_spec s prev with ⟨h1, h2⟩ | ⟨i, h1, hi, h2, h3, h4⟩
  · rw [if_pos h1]
    unfold MBEntitySequence.number_allocated
    refine ⟨⟨by omega, le_refl _, fun h => absurd h (by omega), ?_⟩, by omega⟩
    intro j hj _
    exact h2 j (by omega)
  · have hne : s.get_next_free_index prev ≠ -1 := by rw [h1]; omega
    rw [if_neg hne, h1]
    refine ⟨⟨by omega, by omega, fun _ => by simpa using h2, ?_⟩, h3⟩
    intro j hj hf
    exact h4 j (by omega) (by omega)

theorem advance_free_loop_spec (s : MBEntitySequence) (si : Nat) (hsi : si < s.free.length) :
    ∀ (fuel : Nat) (f0 : Int) (k : Nat), FreeCursor s k f0 → k ≤ si →
      ((s.free.length : Int) - f0).toNat ≤ fuel →
      ∃ f, advance_free_loop s (si : Int) fuel f0 = some f ∧ FreeCursor s si f ∧ (si : Int) ≤ f := by
  intro fuel
  induction fuel with
  | zero =>
    intro f0 k hc hk hfuel
    unfold advance_free_loop
    have : ¬ ((si : Int) > f0) := by
      have := hc.2.1
      omega
    rw [if_neg this]
    exact ⟨f0, rfl, hc.mono hk, by omega⟩
  | succ n ih =>
    intro f0 k hc hk hfuel
    unfold advance_free_loop
    by_cases hgt : (si : Int) > f0
    · rw [if_pos hgt]
      simp only
      have h0 := hc.1
      rcases next_cursor s f0 (by omega) with ⟨h1, h2⟩ | h3
      · have hle := h1.2.1
        apply ih _ (f0 + 1).toNat h1 (by omega)
        omega
      · omega
    · rw [if_neg hgt]
      exact ⟨f0, rfl, hc.mono hk, by omega⟩

theorem find_deleted_loop_spec (sz : Nat) (s : MBEntitySequence) (ei : Int) :
    ∀ (fuel : Nat) (f0 : Nat) (mEnd : Nat), s.is_free f0 = true →
      s.free.length - f0 ≤ fuel →
      ∃ (f : Nat) (e : Nat), find_deleted_loop sz s ei fuel (f0 : Int) mEnd = some ((f : Int), e) ∧
        f0 ≤ f ∧ (∀ j : Nat, f0 ≤ j → j ≤ f → s.is_free j = true) ∧
        (((f : Int) < ei ∧ e = handleAdd sz s.start_handle (ofInt sz (f : Int)) ∧
            s.is_free (f + 1) = false) ∨
         (ei ≤ (f : Int) ∧ e = mEnd ∧ (f = f0 ∨ (f : Int) = ei))) := by
  intro fuel
  induction fuel with
  | zero =>
    intro f0 mEnd hfree hfuel
    have := is_free_lt s f0 hfree
    omega
  | succ n ih =>
    intro f0 mEnd hfree hfuel
    have hlt := is_free_lt s f0 hfree
    unfold find_deleted_loop
    by_cases hc : (f0 : Int) < ei
    · rw [if_pos hc]
      simp only
      rcases next_free_spec s (f0 : Int) with ⟨h1, h2⟩ | ⟨i, h1, hi, h2, h3, h4⟩
      · have hb : s.get_next_free_index (f0 : Int) < 0 ∨
            s.get_next_free_index (f0 : Int) - (f0 : Int) > 1 := by left; rw [h1]; omega
        rw [if_pos hb]
        refine ⟨f0, _, rfl, le_refl _, ?_, Or.inl ⟨hc, rfl, h2 (f0 + 1) (by push_cast; omega)⟩⟩
        intro j h1 h2
        have : j = f0 := by omega
        rw [this]; exact hfree
      · by_cases hb : s.get_next_free_index (f0 : Int) < 0 ∨
            s.get_next_free_index (f0 : Int) - (f0 : Int) > 1
        · rw [if_pos hb]
          refine ⟨f0, _, rfl, le_refl _, ?_, Or.inl ⟨hc, rfl, ?_⟩⟩
          · intro j h1 h2
            have : j = f0 := by omega
            rw [this]; exact hfree
          · apply h4 (f0 + 1) (by push_cast; omega)
            rw [h1] at hb
            omega
        · rw [if_neg hb]
          rw [h1] at hb ⊢
          have hi1 : i = f0 + 1 := by omega
          subst hi1
          obtain ⟨f, e, he, hf0, hall, hcase⟩ := ih (f0 + 1) mEnd h2 (by omega)
          refine ⟨f, e, he, by omega, ?_, ?_⟩
          · intro j hj1 hj2
            by_cases hj : j = f0
            · rw [hj]; exact hfree
            · exact hall j (by omega) hj2
          · rcases hcase with h | ⟨ha, hb2, hc2⟩
            · exact Or.inl h
            · right
              refine ⟨ha, hb2, ?_⟩
              rcases hc2 with h | h
              · right; omega
              · right; exact h
    · rw [if_neg hc]
      refine ⟨f0, mEnd, rfl, le_refl _, ?_, Or.inr ⟨by omega, rfl, Or.inl rfl⟩⟩
      intro j h1 h2
      have : j = f0 := by omega
      rw [this]; exact hfree

/-! ### Entity types of handles -/

theorem type_mono (sz : Nat) (hsz : 0 < sz) (a b : Nat) (hab : a ≤ b) (hb : b < 2 ^ (8 * sz)) :
    TYPE_FROM_HANDLE sz a ≤ TYPE_FROM_HANDLE sz b := by
  rw [type_from_handle_of_lt sz hsz a (by omega), type_from_handle_of_lt sz hsz b hb]
  exact Nat.div_le_div_right hab

theorem max_handle_eq (sz MBMAXTYPE t : Nat) (hsz : 0 < sz) (ht : t ≤ MBMAXTYPE) (ht15 : t ≤ 15) :
    max_handle sz MBMAXTYPE t
      = t * 2 ^ MB_HANDLE_SHIFT_WIDTH sz + (2 ^ MB_HANDLE_SHIFT_WIDTH sz - 1) := by
  unfold max_handle
  rw [create_handle_eq sz MBMAXTYPE hsz t _ ht ht15 (le_refl _)]
  simp only
  unfold MB_END_ID
  rw [end_id_eq sz hsz]

/-- A handle is at most the maximum-id handle of its own type, and a handle of a
greater type lies above it. -/
theorem le_max_handle_iff (sz MBMAXTYPE t h : Nat) (hsz : 0 < sz) (ht : t ≤ MBMAXTYPE)
    (ht15 : t ≤ 15) (hh : h < 2 ^ (8 * sz)) :
    h ≤ max_handle sz MBMAXTYPE t ↔ TYPE_FROM_HANDLE sz h ≤ t := by
  rw [max_handle_eq sz MBMAXTYPE t hsz ht ht15, type_from_handle_of_lt sz hsz h hh]
  have hp : 0 < 2 ^ MB_HANDLE_SHIFT_WIDTH sz := Nat.two_pow_pos _
  generalize 2 ^ MB_HANDLE_SHIFT_WIDTH sz = P at *
  have e : h / P ≤ t ↔ h / P < t + 1 := by omega
  rw [e, Nat.div_lt_iff_lt_mul hp, Nat.add_mul]
  omega

/-! ### The sequence manager -/

theorem find_some {m : EntitySequenceManager} {h : Nat} {s : MBEntitySequence}
    (hf : m.find h = some s) : s ∈ m.sequences ∧ s.contains h := by
  unfold EntitySequenceManager.find at hf
  exact ⟨List.mem_of_find?_eq_some hf, by simpa using List.find?_some hf⟩

theorem find_none {m : EntitySequenceManager} {h : Nat} (hf : m.find h = none) :
    ∀ s ∈ m.sequences, ¬ s.contains h := by
  unfold EntitySequenceManager.find at hf
  rw [List.find?_eq_none] at hf
  intro s hs
  simpa using hf s hs

theorem pairwise_mem_cases {α : Type} {R : α → α → Prop} {l : List α} (hp : l.Pairwise R)
    {a b : α} (ha : a ∈ l) (hb : b ∈ l) : a = b ∨ R a b ∨ R b a := by
  induction l with
  | nil => exact absurd ha (by simp)
  | cons x xs ih =>
    rw [List.pairwise_cons] at hp
    rcases List.mem_cons.mp ha with rfl | ha1
    · rcases List.mem_cons.mp hb with rfl | hb1
      · exact Or.inl rfl
      · exact Or.inr (Or.inl (hp.1 b hb1))
    · rcases List.mem_cons.mp hb with rfl | hb1
      · exact Or.inr (Or.inr (hp.1 a ha1))
      · exact ih hp.2 ha1 hb1

theorem contains_unique {sz : Nat} {m : EntitySequenceManager} (hm : MgrWF sz m)
    {s t : MBEntitySequence} (hs : s ∈ m.sequences) (ht : t ∈ m.sequences) {h : Nat}
    (h1 : s.contains h) (h2 : t.contains h) : s = t := by
  unfold MBEntitySequence.contains at h1 h2
  rcases pairwise_mem_cases hm.2 hs ht with h | h | h
  · exact h
  · omega
  · omega

theorem find_first_sorted {l : List MBEntitySequence}
    (hp : l.Pairwise (fun a b => a.start_handle + a.free.length ≤ b.start_handle))
    {p : MBEntitySequence → Bool} {x : MBEntitySequence} (hf : l.find? p = some x) :
    ∀ y ∈ l, p y = true → x.start_handle ≤ y.start_handle := by
  induction l with
  | nil => simp at hf
  | cons a as ih =>
    rw [List.pairwise_cons] at hp
    rw [List.find?_cons] at hf
    intro y hy hpy
    cases hpa : p a with
    | true =>
      rw [hpa] at hf
      simp only [Option.some.injEq] at hf
      subst hf
      rcases List.mem_cons.mp hy with rfl | hy1
      · exact le_refl _
      · have := hp.1 y hy1
        omega
    | false =>
      rw [hpa] at hf
      simp only at hf
      rcases List.mem_cons.mp hy with rfl | hy1
      · rw [hpa] at hpy
        exact absurd hpy (by decide)
      · exact ih hp.2 hf y hy1 hpy

theorem upper_bound_some {sz : Nat} {m : EntitySequenceManager} (hm : MgrWF sz m) {t h : Nat}
    {next : MBEntitySequence} (hu : upper_bound (m.entity_map sz t) h = some next) :
    next ∈ m.sequences ∧ TYPE_FROM_HANDLE sz next.start_handle = t ∧ h < next.start_handle ∧
    ∀ s ∈ m.sequences, TYPE_FROM_HANDLE sz s.start_handle = t → h < s.start_handle →
      next.start_handle ≤ s.start_handle := by
  unfold upper_bound EntitySequenceManager.entity_map at hu
  have hmem := List.mem_of_find?_eq_some hu
  rw [List.mem_filter] at hmem
  have hp := List.find?_some hu
  refine ⟨hmem.1, by simpa using hmem.2, by simpa using hp, ?_⟩
  intro s hs hts hlt
  apply find_first_sorted (hm.2.filter _) hu s
  · rw [List.mem_filter]
    exact ⟨hs, by simpa using hts⟩
  · simpa using hlt

theorem upper_bound_none {sz : Nat} {m : EntitySequenceManager} {t h : Nat}
    (hu : upper_bound (m.entity_map sz t) h = none) :
    ∀ s ∈ m.sequences, TYPE_FROM_HANDLE sz s.start_handle = t → s.start_handle ≤ h := by
  unfold upper_bound EntitySequenceManager.entity_map at hu
  rw [List.find?_eq_none] at hu
  intro s hs hts
  have := hu s (by rw [List.mem_filter]; exact ⟨hs, by simpa using hts⟩)
  simpa using this

theorem get_end_handle_eq {sz : Nat} (hsz : 0 < sz) (s : MBEntitySequence)
    (hlen : 0 < s.free.length)
    (hb : s.start_handle + s.free.length ≤ 2 ^ (8 * sz)) :
    s.get_end_handle sz = s.start_handle + s.free.length - 1 := by
  unfold MBEntitySequence.get_end_handle
  rcases Nat.lt_or_ge (s.start_handle + s.free.length) (2 ^ (8 * sz)) with h | h
  · rw [handleAdd_eq sz _ _ h, handleSub_eq sz _ 1 (by omega) h]
  · have e : s.start_handle + s.free.length = 2 ^ (8 * sz) := by omega
    unfold handleAdd handleSub
    rw [e, Nat.mod_self]
    have hp : 1 < 2 ^ (8 * sz) := by
      have : 2 ^ 0 < 2 ^ (8 * sz) := Nat.pow_lt_pow_right (by decide) (by omega)
      simpa using this
    rw [Nat.mod_eq_of_lt hp, Nat.zero_add, Nat.mod_eq_of_lt (by omega)]

/-! ### The pair list of a range -/

theorem last_handle_append (pre l : MBRange) (hl : l ≠ []) :
    last_handle (pre ++ l) = last_handle l := by
  unfold last_handle node_pair
  rw [List.reverse_append]
  cases hr : l.reverse with
  | nil => exact absurd (List.reverse_eq_nil_iff.mp hr) hl
  | cons x xs => simp

theorem last_handle_suffix {r l : MBRange} (hs : l <:+ r) (hl : l ≠ []) :
    last_handle r = last_handle l := by
  obtain ⟨pre, rfl⟩ := hs
  exact last_handle_append pre l hl

theorem last_handle_single (p : Nat × Nat) : last_handle [p] = p.2 := rfl

theorem last_handle_cons (p q : Nat × Nat) (t : MBRange) :
    last_handle (p :: q :: t) = last_handle (q :: t) := by
  have : p :: q :: t = [p] ++ (q :: t) := rfl
  rw [this, last_handle_append _ _ (by simp)]

theorem RangeWF.suffix {sz : Nat} {r l : MBRange} (hr : RangeWF sz r) (hs : l <:+ r) :
    RangeWF sz l := by
  refine ⟨fun p hp => hr.1 p (hs.subset hp), hr.2.sublist hs.sublist⟩

theorem second_le_last {sz : Nat} : ∀ (l : MBRange) (p : Nat × Nat), RangeWF sz (p :: l) →
    p.2 ≤ last_handle (p :: l) := by
  intro l
  induction l with
  | nil => intro p _; exact le_refl _
  | cons q t ih =>
    intro p hw
    rw [last_handle_cons]
    have hq : RangeWF sz (q :: t) := hw.suffix (List.suffix_cons p _)
    have h1 := ih q hq
    have h2 := (List.pairwise_cons.mp hw.2).1 q (by simp)
    have h3 := hw.1 q (by simp)
    omega

theorem range_next_first {sz : Nat} {p q : Nat × Nat} {rest : MBRange}
    (hw : RangeWF sz (p :: q :: rest)) : p.2 + 1 < q.1 :=
  (List.pairwise_cons.mp hw.2).1 q (by simp)

/-! ### Trimming a block to its sequence -/

theorem ofInt_toNat (sz : Nat) (i : Int) (h0 : 0 ≤ i) (h : i.toNat < 2 ^ (8 * sz)) :
    ofInt sz i = i.toNat := by
  obtain ⟨n, rfl⟩ := Int.eq_ofNat_of_zero_le h0
  simpa using ofInt_eq sz n (by simpa using h)

/-- The second half of `update_entity_sequence`, on a block that starts inside
the sequence `s`: it returns, changes only `freeIndex` and `mEndHandle`, does
not move the end forward or before the start, leaves a valid cursor, and
reports either a live block or a span of free slots. -/
theorem trim_spec {sz : Nat} {m : EntitySequenceManager} (hm : MgrWF sz m)
    (st : MBRangeSeqIntersectIter) (s : MBEntitySequence) (hs : s ∈ m.sequences)
    (hc : s.contains st.mStartHandle) (hle : st.mStartHandle ≤ st.mEndHandle)
    (hE : st.mEndHandle < 2 ^ (8 * sz))
    (hcur : FreeCursor s (st.mStartHandle - s.start_handle) st.freeIndex) :
    ∃ (f : Int) (e : Nat) (rc : MBErrorCode),
      trim_to_sequence sz st s = some ({ st with freeIndex := f, mEndHandle := e }, rc) ∧
      st.mStartHandle ≤ e ∧ e ≤ st.mEndHandle ∧
      FreeCursor s (e + 1 - s.start_handle) f ∧
      ((rc = MB_SUCCESS ∧
          FreeCursor s (st.mStartHandle - s.start_handle) f ∧
          ((st.mStartHandle - s.start_handle : Nat) : Int) < f ∧
          e = if toInt32 (st.mEndHandle - s.start_handle) ≥ f
              then s.start_handle + (f - 1).toNat else st.mEndHandle) ∨
       (rc = MB_ENTITY_NOT_FOUND ∧ ∃ fn : Nat, f = (fn : Int) ∧
          st.mStartHandle - s.start_handle ≤ fn ∧
          (∀ j : Nat, st.mStartHandle - s.start_handle ≤ j → j ≤ fn → s.is_free j = true) ∧
          (((fn : Int) < toInt32 (st.mEndHandle - s.start_handle) ∧
              e = s.start_handle + fn ∧ s.is_free (fn + 1) = false) ∨
           (toInt32 (st.mEndHandle - s.start_handle) ≤ (fn : Int) ∧ e = st.mEndHandle ∧
              (fn = st.mStartHandle - s.start_handle ∨
                (fn : Int) = toInt32 (st.mEndHandle - s.start_handle)))))) := by
  have hsw := hm.1 s hs
  unfold MBEntitySequence.contains at hc
  have e1 : handleSub sz st.mStartHandle s.start_handle = st.mStartHandle - s.start_handle :=
    handleSub_eq sz _ _ hc.1 (by omega)
  have e2 : toInt32 (st.mStartHandle - s.start_handle)
      = ((st.mStartHandle - s.start_handle : Nat) : Int) := toInt32_of_lt _ (by omega)
  have e3 : handleSub sz st.mEndHandle s.start_handle = st.mEndHandle - s.start_handle :=
    handleSub_eq sz _ _ (by omega) hE
  have hle32 := toInt32_le (st.mEndHandle - s.start_handle)
  obtain ⟨f, hf, hcf, hsf⟩ := advance_free_loop_spec s (st.mStartHandle - s.start_handle)
    (by omega) (s.free.length + 2) st.freeIndex _ hcur (le_refl _) (by have := hcur.1; omega)
  unfold trim_to_sequence
  simp only [MBEntitySequence.get_start_handle, e1, e2, e3, hf]
  by_cases heq : ((st.mStartHandle - s.start_handle : Nat) : Int) = f
  · rw [if_pos heq]
    have hfree : s.is_free (st.mStartHandle - s.start_handle) = true := by
      have := hcf.2.2.1 (by omega)
      rw [← heq] at this
      simpa using this
    obtain ⟨fn, e, hl, h1, h2, h3⟩ := find_deleted_loop_spec sz s
      (toInt32 (st.mEndHandle - s.start_handle)) (s.free.length + 2)
      (st.mStartHandle - s.start_handle) st.mEndHandle hfree (by omega)
    have hfn : fn < s.free.length := is_free_lt s fn (h2 fn h1 (le_refl _))
    unfold find_deleted_range
    simp only [MBEntitySequence.get_start_handle, e3, ← heq, hl]
    refine ⟨(fn : Int), e, MB_ENTITY_NOT_FOUND, rfl, ?_, ?_, ?_, Or.inr ⟨rfl, fn, rfl, h1, h2, ?_⟩⟩
    · rcases h3 with ⟨_, he, _⟩ | ⟨_, he, _⟩
      · rw [he, ofInt_eq sz fn (by omega), handleAdd_eq sz _ _ (by omega)]
        omega
      · omega
    · rcases h3 with ⟨hlt, he, _⟩ | ⟨_, he, _⟩
      · rw [he, ofInt_eq sz fn (by omega), handleAdd_eq sz _ _ (by omega)]
        omega
      · omega
    · refine ⟨by omega, by omega, fun _ => by simpa using h2 fn h1 (le_refl _), ?_⟩
      intro j hj1 hj2
      exfalso
      rcases h3 with ⟨hlt, he, _⟩ | ⟨hge, he, hor⟩
      · rw [he, ofInt_eq sz fn (by omega), handleAdd_eq sz _ _ (by omega)] at hj1
        omega
      · rw [he] at hj1
        rcases hor with h | h <;> omega
    · rcases h3 with ⟨hlt, he, hnf⟩ | ⟨hge, he, hor⟩
      · left
        refine ⟨hlt, ?_, hnf⟩
        rw [he, ofInt_eq sz fn (by omega), handleAdd_eq sz _ _ (by omega)]
      · right
        exact ⟨hge, he, hor⟩
  · rw [if_neg heq]
    have hlt : ((st.mStartHandle - s.start_handle : Nat) : Int) < f := by omega
    have hfl := hcf.2.1
    by_cases hge : toInt32 (st.mEndHandle - s.start_handle) ≥ f
    · rw [if_pos hge]
      have hadd : handleAdd sz s.start_handle (ofInt sz (f - 1))
          = s.start_handle + (f - 1).toNat := by
        rw [ofInt_toNat sz (f - 1) (by omega) (by omega), handleAdd_eq sz _ _ (by omega)]
      rw [hadd]
      refine ⟨f, _, MB_SUCCESS, rfl, by omega, by omega, ?_, Or.inl ⟨rfl, hcf, hlt, ?_⟩⟩
      · refine ⟨hcf.1, hcf.2.1, hcf.2.2.1, ?_⟩
        intro j hj1 hj2
        omega
      · rw [if_pos hge]
    · rw [if_neg hge]
      refine ⟨f, st.mEndHandle, MB_SUCCESS, rfl, hle, le_refl _, hcf.mono (by omega),
        Or.inl ⟨rfl, hcf, hlt, ?_⟩⟩
      rw [if_neg hge]

/-! ### One call of `update_entity_sequence` -/

theorem next_free_neg_iff (s : MBEntitySequence) (prev : Int) :
    s.get_next_free_index prev < 0 ↔ s.get_next_free_index prev = -1 := by
  rcases next_free_spec s prev with ⟨h1, _⟩ | ⟨i, h1, _⟩
  · rw [h1]; simp
  · rw [h1]; omega

theorem cand_end_congr {a b : MBRangeSeqIntersectIter} (h1 : a.rangeIter = b.rangeIter)
    (h2 : a.mLastHandle = b.mLastHandle) : cand_end a = cand_end b := by
  unfold cand_end
  rw [h1, h2]

theorem cand_of_cons (p : Nat × Nat) (rest : List (Nat × Nat)) (last : Nat) :
    cand_of (p :: rest) last = if p.2 > last then last else p.2 := rfl

theorem RangeInv.congr {r : MBRange} {a b : MBRangeSeqIntersectIter} (h : RangeInv r b)
    (h1 : a.rangeIter = b.rangeIter) (h2 : a.mLastHandle = b.mLastHandle)
    (h3 : a.mStartHandle = b.mStartHandle) : RangeInv r a := by
  unfold RangeInv at h ⊢
  rw [cand_end_congr h1 h2, h1, h2, h3]
  exact h

/-- The end a block is given lies in the current pair, at or before the last
handle, and is a handle value. -/
theorem cand_end_bounds {sz : Nat} {r : MBRange} (hr : RangeWF sz r)
    {st : MBRangeSeqIntersectIter} (hri : RangeInv r st) :
    cand_end st ≤ (node_pair st.rangeIter).2 ∧ cand_end st ≤ st.mLastHandle ∧
    cand_end st < 2 ^ (8 * sz) := by
  obtain ⟨hsuf, hne, hlast, h1, h2⟩ := hri
  have hw := hr.suffix hsuf
  cases hl : st.rangeIter with
  | nil => exact absurd hl hne
  | cons p rest =>
    rw [hl] at hw
    have hp := hw.1 p (by simp)
    unfold cand_end
    rw [hl, cand_of_cons]
    simp only [node_pair, List.headD_cons]
    split <;> omega

theorem find_invalid_spec (sz MBMAXTYPE MBENTITYSET : Nat) {m : EntitySequenceManager}
    (hsz : 0 < sz) (hES : MBENTITYSET ≤ MBMAXTYPE) (hm : MgrWF sz m)
    (st : MBRangeSeqIntersectIter) (hmgr : st.mSequenceManager = m)
    (hc : st.mEndHandle = cand_end st) (hle : st.mStartHandle ≤ st.mEndHandle)
    (hE : st.mEndHandle < 2 ^ (8 * sz))
    (ht : TYPE_FROM_HANDLE sz st.mStartHandle < MBENTITYSET) :
    ∃ e, find_invalid_range sz MBMAXTYPE st = ({ st with mEndHandle := e }, MB_ENTITY_NOT_FOUND) ∧
      e = hole_end sz MBMAXTYPE st ∧ st.mStartHandle ≤ e ∧ e ≤ st.mEndHandle := by
  have ht15 : TYPE_FROM_HANDLE sz st.mStartHandle ≤ 15 := by
    have := type_from_handle_lt sz hsz st.mStartHandle
    omega
  have hmax := le_max_handle_iff sz MBMAXTYPE (TYPE_FROM_HANDLE sz st.mStartHandle)
    st.mStartHandle hsz (by omega) ht15 (by omega)
  have hmaxE := le_max_handle_iff sz MBMAXTYPE (TYPE_FROM_HANDLE sz st.mStartHandle)
    st.mEndHandle hsz (by omega) ht15 hE
  have hmono := type_mono sz hsz _ _ hle hE
  have hself : st.mStartHandle ≤ max_handle sz MBMAXTYPE (TYPE_FROM_HANDLE sz st.mStartHandle) :=
    hmax.mpr (le_refl _)
  subst hmgr
  unfold find_invalid_range hole_end
  rw [← hc]
  by_cases heq : st.mStartHandle = st.mEndHandle
  · rw [if_pos heq]
    refine ⟨st.mEndHandle, rfl, ?_, hle, le_refl _⟩
    cases hu : upper_bound (st.mSequenceManager.entity_map sz (TYPE_FROM_HANDLE sz st.mStartHandle))
        st.mStartHandle with
    | none =>
      simp only
      omega
    | some next =>
      simp only
      have := (upper_bound_some hm hu).2.2.1
      omega
  · rw [if_neg heq]
    dsimp only
    cases hu : upper_bound (st.mSequenceManager.entity_map sz (TYPE_FROM_HANDLE sz st.mStartHandle))
        st.mStartHandle with
    | none =>
      simp only
      by_cases hty : TYPE_FROM_HANDLE sz st.mStartHandle ≠ TYPE_FROM_HANDLE sz st.mEndHandle
      · rw [if_pos hty]
        refine ⟨_, rfl, ?_, ?_, ?_⟩
        · have : ¬ st.mEndHandle ≤
              max_handle sz MBMAXTYPE (TYPE_FROM_HANDLE sz st.mStartHandle) := by
            rw [hmaxE]; omega
          unfold max_handle at this ⊢
          omega
        · exact hself
        · have : ¬ st.mEndHandle ≤
              max_handle sz MBMAXTYPE (TYPE_FROM_HANDLE sz st.mStartHandle) := by
            rw [hmaxE]; omega
          unfold max_handle at this
          omega
      · rw [if_neg hty]
        refine ⟨st.mEndHandle, rfl, ?_, hle, le_refl _⟩
        have : st.mEndHandle ≤ max_handle sz MBMAXTYPE (TYPE_FROM_HANDLE sz st.mStartHandle) := by
          rw [hmaxE]; omega
        omega
    | some next =>
      simp only [MBEntitySequence.get_start_handle]
      have hlt := (upper_bound_some hm hu).2.2.1
      by_cases hn : next.start_handle ≤ st.mEndHandle
      · rw [if_pos hn]
        rw [handleSub_eq sz _ 1 (by omega) (by omega)]
        exact ⟨_, rfl, by omega, by omega, by omega⟩
      · rw [if_neg hn]
        exact ⟨st.mEndHandle, rfl, by omega, hle, le_refl _⟩

/-- One call of `update_entity_sequence` on the state `init` and `step` prepare:
it returns, with a status other than `MB_FAILURE`, leaves the range cursor, the
block start and the last handle alone, and hands back a state that satisfies
the iteration invariant together with the facts its status stands for. -/
theorem update_spec (sz MBMAXTYPE MBENTITYSET : Nat) {m : EntitySequenceManager} {r : MBRange}
    (hsz : 0 < sz) (hES : MBENTITYSET ≤ MBMAXTYPE) (hm : MgrWF sz m) (hr : RangeWF sz r)
    (st : MBRangeSeqIntersectIter) (hpre : PreInv m r st) :
    ∃ st1 rc, update_entity_sequence sz MBMAXTYPE MBENTITYSET st = some (st1, rc) ∧
      Inv m r st1 ∧ Facts sz MBMAXTYPE MBENTITYSET m st1 rc ∧ rc ≠ MB_FAILURE ∧
      st1.rangeIter = st.rangeIter ∧ st1.mStartHandle = st.mStartHandle ∧
      st1.mLastHandle = st.mLastHandle := by
  obtain ⟨rfl, hri, hce, hci⟩ := hpre
  obtain ⟨hb1, hb2, hb3⟩ := cand_end_bounds hr hri
  have hle : st.mStartHandle ≤ st.mEndHandle := by rw [hce]; exact hri.2.2.2.2
  have hE : st.mEndHandle < 2 ^ (8 * sz) := by rw [hce]; exact hb3
  -- the branch taken when the cached sequence is missing or left behind
  have stale : ∃ st1 rc,
      (if TYPE_FROM_HANDLE sz st.mStartHandle ≥ MBENTITYSET then
        some (st, MB_TYPE_OUT_OF_RANGE)
      else
        match st.mSequenceManager.find st.mStartHandle with
        | none => some (find_invalid_range sz MBMAXTYPE { st with mSequence := none })
        | some s =>
          let f := s.get_next_free_index (-1)
          let f := if f < 0 then s.number_allocated else f
          trim_to_sequence sz { st with mSequence := some s, freeIndex := f } s)
        = some (st1, rc) ∧
      Inv st.mSequenceManager r st1 ∧ Facts sz MBMAXTYPE MBENTITYSET st.mSequenceManager st1 rc ∧
      rc ≠ MB_FAILURE ∧
      st1.rangeIter = st.rangeIter ∧ st1.mStartHandle = st.mStartHandle ∧
      st1.mLastHandle = st.mLastHandle := by
    by_cases hty : TYPE_FROM_HANDLE sz st.mStartHandle ≥ MBENTITYSET
    · rw [if_pos hty]
      refine ⟨st, MB_TYPE_OUT_OF_RANGE, rfl, ⟨rfl, hri, hle, by omega, ?_⟩,
        Or.inl ⟨rfl, hty, hce⟩, by decide, rfl, rfl, rfl⟩
      intro s hs
      obtain ⟨h1, h2, h3, h4⟩ := hci s hs
      exact ⟨h1, h2, h3, h4.mono (by omega)⟩
    · rw [if_neg hty]
      cases hf : st.mSequenceManager.find st.mStartHandle with
      | none =>
        dsimp only
        obtain ⟨e, he, he2, he3, he4⟩ := find_invalid_spec sz MBMAXTYPE MBENTITYSET hsz hES hm
          { st with mSequence := none } rfl hce hle hE (by simpa using hty)
        rw [he]
        dsimp only at he2 he3 he4
        refine ⟨_, MB_ENTITY_NOT_FOUND, rfl, ⟨rfl, hri.congr rfl rfl rfl, he3, ?_, ?_⟩,
          Or.inr (Or.inl ⟨rfl, rfl, by simpa using hty, find_none hf, ?_⟩), by decide,
          rfl, rfl, rfl⟩
        · simp only [cand_end] at hce ⊢
          omega
        · intro s hs
          simp at hs
        · rw [he2]
          rfl
      | some s =>
        dsimp only
        obtain ⟨hs, hc⟩ := find_some hf
        have hneg := next_free_neg_iff s (-1)
        have hcur0 : FreeCursor s 0
            (if s.get_next_free_index (-1) < 0 then s.number_allocated
              else s.get_next_free_index (-1)) := by
          rcases next_cursor s (-1) (le_refl _) with ⟨h1, _⟩ | h3
          · by_cases hn : s.get_next_free_index (-1) < 0
            · rw [if_pos hn]
              rw [if_pos (hneg.mp hn)] at h1
              simpa using h1
            · rw [if_neg hn]
              rw [if_neg (fun h => hn (hneg.mpr h))] at h1
              simpa using h1
          · omega
        obtain ⟨f, e, rc, ht, h1, h2, h3, h4⟩ := trim_spec hm
          { st with mSequence := some s,
                    freeIndex := (if s.get_next_free_index (-1) < 0 then s.number_allocated
                      else s.get_next_free_index (-1)) }
          s hs hc hle hE (hcur0.mono (Nat.zero_le _))
        rw [ht]
        dsimp only at h1 h2 h3 h4
        have hlen : 0 < s.free.length := by
          unfold MBEntitySequence.contains at hc
          omega
        refine ⟨_, rc, rfl, ⟨rfl, hri.congr rfl rfl rfl, h1, ?_, ?_⟩, ?_, ?_, rfl, rfl, rfl⟩
        · simp only [cand_end] at hce ⊢
          omega
        · intro s1 hs1
          simp only [Option.some.injEq] at hs1
          subst hs1
          exact ⟨hs, hlen, hc.1, h3⟩
        · right; right
          refine ⟨s, rfl, hs, hc, ?_⟩
          simp only [cand_end] at hce ⊢
          rw [← hce]
          exact h4
        · rcases h4 with ⟨h, _⟩ | ⟨h, _⟩ <;> rw [h] <;> decide
  unfold update_entity_sequence
  cases hseq : st.mSequence with
  | none =>
    simp only [if_true]
    exact stale
  | some s =>
    obtain ⟨hs, hlen, hstart, hcur⟩ := hci s hseq
    have hsw := hm.1 s hs
    simp only [get_end_handle_eq hsz s hlen hsw.2.1]
    by_cases hst : st.mStartHandle > s.start_handle + s.free.length - 1
    · simp only [hst, decide_True, if_true]
      exact stale
    · simp only [hst, decide_False]
      have hc : s.contains st.mStartHandle := by
        unfold MBEntitySequence.contains
        omega
      have hcur1 : FreeCursor s (st.mStartHandle - s.start_handle) st.freeIndex := hcur
      obtain ⟨f, e, rc, ht, h1, h2, h3, h4⟩ := trim_spec hm st s hs hc hle hE hcur1
      simp only [Bool.false_eq_true, if_false]
      rw [ht]
      refine ⟨_, rc, rfl, ⟨rfl, hri.congr rfl rfl rfl, h1, ?_, ?_⟩, ?_, ?_, rfl, rfl, rfl⟩
      · simp only [cand_end] at hce ⊢
        omega
      · intro s1 hs1
        dsimp only at hs1
        rw [hseq] at hs1
        simp only [Option.some.injEq] at hs1
        subst hs1
        exact ⟨hs, hlen, hstart, h3⟩
      · right; right
        refine ⟨s, hseq, hs, hc, ?_⟩
        simp only [cand_end] at hce ⊢
        rw [← hce]
        exact h4
      · rcases h4 with ⟨h, _⟩ | ⟨h, _⟩ <;> rw [h] <;> decide

/-! ### `init`, `step` and the states they reach -/

theorem init_empty (sz MBMAXTYPE MBENTITYSET : Nat) (self : MBRangeSeqIntersectIter) :
    init sz MBMAXTYPE MBENTITYSET self (MBRange.begin []) (MBRange.end_ [])
      = some ({ self with mSequence := none, rangeIter := [], mStartHandle := 0,
                          mEndHandle := 0, mLastHandle := 0 }, MB_FAILURE) := rfl

theorem init_spec (sz MBMAXTYPE MBENTITYSET : Nat) {m : EntitySequenceManager} {r : MBRange}
    (hsz : 0 < sz) (hES : MBENTITYSET ≤ MBMAXTYPE) (hm : MgrWF sz m) (hr : RangeWF sz r)
    (hne : r ≠ []) :
    ∃ st rc, init sz MBMAXTYPE MBENTITYSET (MBRangeSeqIntersectIter.new m) r.begin r.end_
        = some (st, rc) ∧
      Inv m r st ∧ Facts sz MBMAXTYPE MBENTITYSET m st rc ∧ rc ≠ MB_FAILURE ∧
      st.rangeIter = r ∧ st.mStartHandle = (node_pair r).1 := by
  obtain ⟨p, rest, rfl⟩ := List.exists_cons_of_ne_nil hne
  have hrev : (p :: rest).reverse ≠ [] := fun h => hne (List.reverse_eq_nil_iff.mp h)
  have hneq : MBRange.begin (p :: rest) ≠ MBRange.end_ (p :: rest) := by
    unfold MBRange.begin MBRange.end_
    intro h
    have := congrArg const_iterator.after h
    simp only at this
    exact hne this
  have hdecr : (MBRange.end_ (p :: rest)).decr.mValue = last_handle (p :: rest) := by
    unfold MBRange.end_ const_iterator.decr last_handle
    cases hq : (p :: rest).reverse with
    | nil => exact absurd hq hrev
    | cons q qs => simp [node_pair]
  have hpre : PreInv m (p :: rest)
      { mSequenceManager := m, mSequence := none, rangeIter := p :: rest,
        mStartHandle := p.1,
        mEndHandle := cand_of (p :: rest) (last_handle (p :: rest)),
        mLastHandle := last_handle (p :: rest), freeIndex := 0 } := by
    refine ⟨rfl, ⟨List.suffix_refl _, hne, rfl, le_refl _, ?_⟩, rfl, ?_⟩
    · simp only [cand_end]
      have h1 := second_le_last rest p hr
      have h2 := hr.1 p (by simp)
      rw [cand_of_cons]
      split <;> omega
    · intro s hs
      simp at hs
  obtain ⟨st1, rc, hu, hinv, hfacts, hrc, h1, h2, h3⟩ := update_spec sz MBMAXTYPE MBENTITYSET hsz hES hm hr _ hpre
  refine ⟨st1, rc, ?_, hinv, hfacts, hrc, h1, h2⟩
  rw [← hu]
  unfold init
  rw [if_neg hneq]
  simp only [hdecr, MBRangeSeqIntersectIter.new, MBRange.begin]
  congr 1
  unfold cand_of
  simp only [node_pair, List.headD_cons]
  split <;> rfl

theorem step_spec (sz MBMAXTYPE MBENTITYSET : Nat) {m : EntitySequenceManager} {r : MBRange}
    (hsz : 0 < sz) (hES : MBENTITYSET ≤ MBMAXTYPE) (hm : MgrWF sz m) (hr : RangeWF sz r)
    (st : MBRangeSeqIntersectIter) (hinv : Inv m r st) (hend : is_at_end st = false) :
    ∃ st1 rc, step sz MBMAXTYPE MBENTITYSET st = some (st1, rc) ∧
      Inv m r st1 ∧ Facts sz MBMAXTYPE MBENTITYSET m st1 rc ∧ rc ≠ MB_FAILURE ∧
      st1.mLastHandle = st.mLastHandle ∧
      ((st.mEndHandle = (node_pair st.rangeIter).2 ∧ st1.rangeIter = st.rangeIter.tail ∧
          st1.rangeIter ≠ [] ∧ st1.mStartHandle = (node_pair st.rangeIter.tail).1) ∨
       (st.mEndHandle ≠ (node_pair st.rangeIter).2 ∧ st1.rangeIter = st.rangeIter ∧
          st1.mStartHandle = st.mEndHandle + 1)) := by
  obtain ⟨hmgr, hri, hse, hec, hci⟩ := hinv
  obtain ⟨hb1, hb2, hb3⟩ := cand_end_bounds hr hri
  obtain ⟨hsuf, hne, hlast, hfirst, hsc⟩ := hri
  have hneq : st.mEndHandle ≠ st.mLastHandle := by
    unfold is_at_end at hend
    simpa using hend
  have hw := hr.suffix hsuf
  unfold step
  rw [hend]
  simp only [Bool.false_eq_true, if_false]
  cases hl : st.rangeIter with
  | nil => exact absurd hl hne
  | cons p rest =>
    rw [hl] at hw hb1 hsuf
    have hp := hw.1 p (by simp)
    have hlast2 : st.mLastHandle = last_handle (p :: rest) := by
      rw [hlast]
      exact last_handle_suffix hsuf (by simp)
    simp only [node_pair, List.headD_cons] at hb1 ⊢
    by_cases he : st.mEndHandle = p.2
    · -- the block ended the pair: move to the next pair
      rw [if_pos he]
      simp only [List.tail_cons]
      cases hrest : rest with
      | nil =>
        rw [hrest, last_handle_single] at hlast2
        omega
      | cons q rest2 =>
        rw [hrest] at hw hsuf hlast2
        have hq := hw.1 q (by simp)
        have hpq := (List.pairwise_cons.mp hw.2).1 q (by simp)
        have hwq : RangeWF sz (q :: rest2) := hw.suffix (List.suffix_cons p _)
        have hql := second_le_last rest2 q hwq
        rw [last_handle_cons] at hlast2
        have hsufq : (q :: rest2) <:+ r := (List.suffix_cons p _).trans hsuf
        have hpre : PreInv m r
            { st with rangeIter := q :: rest2, mStartHandle := q.1,
                      mEndHandle := cand_of (q :: rest2) st.mLastHandle } := by
          refine ⟨hmgr, ⟨hsufq, by simp, hlast, le_refl _, ?_⟩, rfl, ?_⟩
          · simp only [cand_end, cand_of_cons]
            split <;> omega
          · intro s hs
            obtain ⟨h1, h2, h3, h4⟩ := hci s hs
            refine ⟨h1, h2, ?_, h4.mono ?_⟩
            · simp only; omega
            · simp only; omega
        obtain ⟨st1, rc, hu, hinv1, hfacts, hrc, h1, h2, h3⟩ := update_spec sz MBMAXTYPE MBENTITYSET hsz hES hm hr _ hpre
        refine ⟨st1, rc, ?_, hinv1, hfacts, hrc, h3, Or.inl ⟨he, h1, ?_, h2⟩⟩
        · rw [← hu]
          simp only [List.headD_cons]
          congr 1
          unfold cand_of
          simp only [node_pair, List.headD_cons]
          split <;> rfl
        · rw [h1]; simp
    · -- otherwise the next handle of the same pair
      rw [if_neg he]
      have hlt : st.mEndHandle < p.2 := by omega
      have hlt2 : st.mEndHandle < st.mLastHandle := by omega
      have hadd : handleAdd sz st.mEndHandle 1 = st.mEndHandle + 1 :=
        handleAdd_eq sz _ _ (by omega)
      rw [hadd]
      have hpre : PreInv m r
          { st with mStartHandle := st.mEndHandle + 1,
                    mEndHandle := cand_of (p :: rest) st.mLastHandle } := by
        refine ⟨hmgr, ⟨?_, ?_, hlast, ?_, ?_⟩, ?_, ?_⟩
        · simp only; rw [hl]; exact hsuf
        · simp only; rw [hl]; simp
        · simp only [hl, node_pair, List.headD_cons]
          rw [hl] at hfirst
          simp only [node_pair, List.headD_cons] at hfirst
          omega
        · simp only [cand_end, hl, cand_of_cons]
          split <;> omega
        · simp only [cand_end, hl]
        · intro s hs
          obtain ⟨h1, h2, h3, h4⟩ := hci s hs
          refine ⟨h1, h2, ?_, h4⟩
          simp only; omega
      obtain ⟨st1, rc, hu, hinv1, hfacts, hrc, h1, h2, h3⟩ := update_spec sz MBMAXTYPE MBENTITYSET hsz hES hm hr _ hpre
      refine ⟨st1, rc, ?_, hinv1, hfacts, hrc, h3, Or.inr ⟨he, ?_, h2⟩⟩
      · rw [← hu]
        simp only [hl, List.headD_cons]
        congr 1
        unfold cand_of
        simp only [node_pair, List.headD_cons]
        split <;> simp [hl]
      · rw [h1]
        exact hl

/-- Every state reached by iterating a well-formed range over a well-formed
manager satisfies the iteration invariant and the facts of its status, and its
status is not `MB_FAILURE`. -/
theorem reach_inv {sz MBMAXTYPE MBENTITYSET : Nat} {m : EntitySequenceManager} {r : MBRange}
    (hsz : 0 < sz) (hES : MBENTITYSET ≤ MBMAXTYPE) (hm : MgrWF sz m) (hr : RangeWF sz r)
    {st : MBRangeSeqIntersectIter} {rc : MBErrorCode}
    (h : Reach sz MBMAXTYPE MBENTITYSET m r st rc) :
    Inv m r st ∧ Facts sz MBMAXTYPE MBENTITYSET m st rc ∧ rc ≠ MB_FAILURE := by
  induction h with
  | init hi hrc =>
    by_cases hne : r = []
    · subst hne
      rw [init_empty] at hi
      simp only [Option.some.injEq, Prod.mk.injEq] at hi
      exact absurd hi.2.symm hrc
    · obtain ⟨st1, rc1, h1, h2, h3, h4, _⟩ := init_spec sz MBMAXTYPE MBENTITYSET hsz hES hm hr hne
      rw [h1] at hi
      simp only [Option.some.injEq, Prod.mk.injEq] at hi
      rw [← hi.1, ← hi.2]
      exact ⟨h2, h3, h4⟩
  | step _ hend hs ih =>
    obtain ⟨st2, rc2, h1, h2, h3, h4, _⟩ := step_spec sz MBMAXTYPE MBENTITYSET hsz hES hm hr _ ih.1 hend
    rw [h1] at hs
    simp only [Option.some.injEq, Prod.mk.injEq] at hs
    rw [← hs.1, ← hs.2]
    exact ⟨h2, h3, h4⟩

/-! ### What a returned block holds -/

/-- All handles of a sequence of a well-formed manager have the type of its
first handle. -/
theorem contains_type {sz : Nat} (hsz : 0 < sz) {m : EntitySequenceManager} (hm : MgrWF sz m)
    {s : MBEntitySequence} (hs : s ∈ m.sequences) {h : Nat} (hc : s.contains h) :
    TYPE_FROM_HANDLE sz h = TYPE_FROM_HANDLE sz s.start_handle := by
  obtain ⟨_, h2, h3, _⟩ := hm.1 s hs
  unfold MBEntitySequence.contains at hc
  have a := type_mono sz hsz s.start_handle h hc.1 (by omega)
  have b := type_mono sz hsz h (s.start_handle + s.free.length - 1) (by omega) (by omega)
  omega

/-- A block that starts in no sequence and ends at `hole_end` holds no handle of
any sequence. -/
theorem hole_no_sequence {sz MBMAXTYPE MBENTITYSET : Nat} {m : EntitySequenceManager}
    (hsz : 0 < sz) (hES : MBENTITYSET ≤ MBMAXTYPE) (hm : MgrWF sz m)
    (st : MBRangeSeqIntersectIter) (hmgr : st.mSequenceManager = m)
    (hty : TYPE_FROM_HANDLE sz st.mStartHandle < MBENTITYSET)
    (hno : ∀ S ∈ m.sequences, ¬ S.contains st.mStartHandle)
    (hend : st.mEndHandle = hole_end sz MBMAXTYPE st) :
    ∀ h, st.mStartHandle ≤ h → h ≤ st.mEndHandle → ∀ S ∈ m.sequences, ¬ S.contains h := by
  intro h h1 h2 S hS hcon
  have hSw := hm.1 S hS
  have hcon2 := hcon
  unfold MBEntitySequence.contains at hcon2
  have hlt : st.mStartHandle < S.start_handle := by
    by_contra hc2
    apply hno S hS
    unfold MBEntitySequence.contains
    omega
  have ht15 : TYPE_FROM_HANDLE sz st.mStartHandle ≤ 15 := by
    have := type_from_handle_lt sz hsz st.mStartHandle
    omega
  have hmono := type_mono sz hsz st.mStartHandle S.start_handle (by omega) (by omega)
  subst hmgr
  unfold hole_end at hend
  cases hu : upper_bound (st.mSequenceManager.entity_map sz (TYPE_FROM_HANDLE sz st.mStartHandle))
      st.mStartHandle with
  | none =>
    rw [hu] at hend
    simp only at hend
    have hle : S.start_handle ≤ max_handle sz MBMAXTYPE (TYPE_FROM_HANDLE sz st.mStartHandle) := by
      omega
    rw [le_max_handle_iff sz MBMAXTYPE _ _ hsz (by omega) ht15 (by omega)] at hle
    have := upper_bound_none hu S hS (by omega)
    omega
  | some next =>
    rw [hu] at hend
    simp only at hend
    obtain ⟨hn1, hn2, hn3, hn4⟩ := upper_bound_some hm hu
    have hnw := hm.1 next hn1
    have hmono2 := type_mono sz hsz S.start_handle next.start_handle (by omega) (by omega)
    have := hn4 S hS (by omega) hlt
    omega


/-- Without truncation every block keeps its promise: an `MB_SUCCESS` block is
live throughout in its sequence, and a block of any other status holds no live
handle of a sequence of type below `MBENTITYSET`. -/
theorem block_ok {sz MBMAXTYPE MBENTITYSET : Nat} {m : EntitySequenceManager} {r : MBRange}
    (hsz : 0 < sz) (hES : MBENTITYSET ≤ MBMAXTYPE) (hm : MgrWF sz m) (hr : RangeWF sz r)
    {st : MBRangeSeqIntersectIter} {rc : MBErrorCode} (hinv : Inv m r st)
    (hfacts : Facts sz MBMAXTYPE MBENTITYSET m st rc)
    (hnt : ∀ s ∈ m.sequences, s.contains st.mStartHandle →
      cand_end st - s.start_handle < 2 ^ 31) :
    BlockOK sz MBENTITYSET m (block_of st rc) := by
  obtain ⟨hb1, hb2, hb3⟩ := cand_end_bounds hr hinv.2.1
  have hse := hinv.2.2.1
  have hec := hinv.2.2.2.1
  unfold BlockOK block_of
  simp only
  rcases hfacts with ⟨h1, h2, h3⟩ | ⟨h1, h2, h3, h4, h5⟩ | ⟨s, hseq, hs, hc, hcase⟩
  · -- MB_TYPE_OUT_OF_RANGE
    subst h1
    refine ⟨fun h => absurd h (by decide), ?_⟩
    intro _ h hh1 hh2 S hS hty hlive
    have := contains_type hsz hm hS hlive.1
    have := type_mono sz hsz st.mStartHandle h hh1 (by omega)
    omega
  · -- MB_ENTITY_NOT_FOUND, no sequence
    subst h1
    refine ⟨fun h => absurd h (by decide), ?_⟩
    intro _ h hh1 hh2 S hS _ hlive
    exact hole_no_sequence hsz hES hm st hinv.1 h3 h4 h5 h hh1 hh2 S hS hlive.1
  · obtain ⟨hw1, hw2, hw3, hw4⟩ := hm.1 s hs
    have hc2 := hc
    unfold MBEntitySequence.contains at hc2
    have hnt1 := hnt s hs hc
    have h32 : toInt32 (cand_end st - s.start_handle)
        = ((cand_end st - s.start_handle : Nat) : Int) := toInt32_of_lt _ hnt1
    rw [h32] at hcase
    rcases hcase with ⟨h1, hcur, hlt, hend⟩ | ⟨h1, fn, hf, hle, hall, hcase2⟩
    · -- MB_SUCCESS
      subst h1
      refine ⟨fun _ => ⟨s, hs, hseq, ?_⟩, fun h => absurd rfl h⟩
      intro h hh1 hh2
      obtain ⟨hf0, hf1, hf2, hf3⟩ := hcur
      have hlt2 : ((h - s.start_handle : Nat) : Int) < st.freeIndex := by
        split at hend <;> omega
      refine ⟨?_, hf3 (h - s.start_handle) (by omega) hlt2⟩
      unfold MBEntitySequence.contains
      omega
    · -- MB_ENTITY_NOT_FOUND, a span of free slots
      subst h1
      refine ⟨fun h => absurd h (by decide), ?_⟩
      intro _ h hh1 hh2 S hS _ hlive
      have hfn : fn < s.free.length := is_free_lt s fn (hall fn hle (le_refl _))
      have hle2 : h - s.start_handle ≤ fn := by
        rcases hcase2 with ⟨_, he, _⟩ | ⟨hge, he, hor⟩
        · omega
        · rcases hor with h | h <;> omega
      have hcs : s.contains h := by
        unfold MBEntitySequence.contains
        omega
      have := contains_unique hm hS hs hlive.1 hcs
      subst this
      have := hall (h - S.start_handle) (by omega) hle2
      rw [hlive.2] at this
      exact absurd this (by decide)

theorem in_range_ge_first {sz : Nat} : ∀ (rest : MBRange) (p : Nat × Nat),
    RangeWF sz (p :: rest) → ∀ h, in_range (p :: rest) h → p.1 ≤ h := by
  intro rest
  induction rest with
  | nil =>
    intro p _ h hin
    obtain ⟨q, hq, h1, _⟩ := hin
    simp only [List.mem_singleton] at hq
    subst hq
    exact h1
  | cons q rest2 ih =>
    intro p hw h hin
    obtain ⟨x, hx, h1, h2⟩ := hin
    rcases List.mem_cons.mp hx with rfl | hx2
    · exact h1
    · have hwq : RangeWF sz (q :: rest2) := hw.suffix (List.suffix_cons p _)
      have := ih q hwq h ⟨x, hx2, h1, h2⟩
      have := range_next_first hw
      have := hw.1 p (by simp)
      omega

theorem in_range_le_last {sz : Nat} : ∀ (rest : MBRange) (p : Nat × Nat),
    RangeWF sz (p :: rest) → ∀ h, in_range (p :: rest) h → h ≤ last_handle (p :: rest) := by
  intro rest
  induction rest with
  | nil =>
    intro p _ h hin
    obtain ⟨q, hq, _, h2⟩ := hin
    simp only [List.mem_singleton] at hq
    subst hq
    exact h2
  | cons q rest2 ih =>
    intro p hw h hin
    rw [last_handle_cons]
    have hwq : RangeWF sz (q :: rest2) := hw.suffix (List.suffix_cons p _)
    obtain ⟨x, hx, h1, h2⟩ := hin
    rcases List.mem_cons.mp hx with rfl | hx2
    · have := second_le_last rest2 q hwq
      have := range_next_first hw
      have := hwq.1 q (by simp)
      omega
    · exact ih q hwq h ⟨x, hx2, h1, h2⟩

theorem in_range_cons (p : Nat × Nat) (rest : MBRange) (h : Nat) :
    in_range (p :: rest) h ↔ (p.1 ≤ h ∧ h ≤ p.2) ∨ in_range rest h := by
  unfold in_range
  simp

/-- The blocks from a reached state on: they are ascending and disjoint, each is
non-empty and keeps its promise, and together they hold exactly the handles of
the rest of the range from the block start on. -/
theorem blocks_from_spec {sz MBMAXTYPE MBENTITYSET : Nat} {m : EntitySequenceManager} {r : MBRange}
    (hsz : 0 < sz) (hES : MBENTITYSET ≤ MBMAXTYPE) (hm : MgrWF sz m) (hr : RangeWF sz r)
    (hnt : NoTruncation m r) :
    ∀ (n : Nat) (st : MBRangeSeqIntersectIter) (rc : MBErrorCode), Inv m r st →
      Facts sz MBMAXTYPE MBENTITYSET m st rc → st.mLastHandle - st.mEndHandle < n →
      ∃ bs, blocks_from sz MBMAXTYPE MBENTITYSET n st rc = some bs ∧
        bs.Pairwise (fun a b => a.last < b.first) ∧
        (∀ b ∈ bs, b.first ≤ b.last ∧ BlockOK sz MBENTITYSET m b) ∧
        (∀ h, (∃ b ∈ bs, b.first ≤ h ∧ h ≤ b.last)
          ↔ (in_range st.rangeIter h ∧ st.mStartHandle ≤ h)) := by
  intro n
  induction n with
  | zero => intro st rc _ _ h; omega
  | succ k ih =>
    intro st rc hinv hfacts hmeas
    obtain ⟨hb1, hb2, hb3⟩ := cand_end_bounds hr hinv.2.1
    obtain ⟨hmgr, ⟨hsuf, hne, hlast, hfirst, hsc⟩, hse, hec, hci⟩ := hinv
    have hinv : Inv m r st := ⟨hmgr, ⟨hsuf, hne, hlast, hfirst, hsc⟩, hse, hec, hci⟩
    have hw := hr.suffix hsuf
    have hnt1 : ∀ s ∈ m.sequences, s.contains st.mStartHandle →
        cand_end st - s.start_handle < 2 ^ 31 := by
      intro s hs hcon
      obtain ⟨p, rest, hp⟩ := List.exists_cons_of_ne_nil hne
      have hpr : p ∈ r := hsuf.subset (by rw [hp]; simp)
      rw [hp] at hb1 hfirst
      simp only [node_pair, List.headD_cons] at hb1 hfirst
      unfold MBEntitySequence.contains at hcon
      have := hnt p hpr s hs (by omega) (by omega)
      omega
    have hok : BlockOK sz MBENTITYSET m (block_of st rc) :=
      block_ok hsz hES hm hr hinv hfacts hnt1
    unfold blocks_from
    cases hl : st.rangeIter with
    | nil => exact absurd hl hne
    | cons p rest =>
    rw [hl] at hw hfirst hsuf
    have hp := hw.1 p (by simp)
    have hlast2 : st.mLastHandle = last_handle (p :: rest) := by
      rw [hlast]
      exact last_handle_suffix hsuf (by simp)
    have hcp : cand_end st ≤ p.2 := by
      rw [hl] at hb1
      simpa [node_pair] using hb1
    simp only [node_pair, List.headD_cons] at hfirst
    by_cases hend : is_at_end st = true
    · rw [hend]
      simp only [if_true]
      have heq : st.mEndHandle = st.mLastHandle := by
        unfold is_at_end at hend
        simpa using hend
      refine ⟨_, rfl, by simp, ?_, ?_⟩
      · intro b hb
        simp only [List.mem_singleton] at hb
        subst hb
        exact ⟨hse, hok⟩
      · intro h
        simp only [List.mem_singleton, exists_eq_left, block_of]
        constructor
        · rintro ⟨h1, h2⟩
          exact ⟨⟨p, by simp, by omega, by omega⟩, h1⟩
        · rintro ⟨hin, h1⟩
          have := in_range_le_last rest p hw h hin
          omega
    · have hend2 : is_at_end st = false := by simpa using hend
      rw [hend2]
      simp only [Bool.false_eq_true, if_false]
      have hneq : st.mEndHandle ≠ st.mLastHandle := by
        unfold is_at_end at hend2
        simpa using hend2
      obtain ⟨st1, rc1, hstep, hinv1, hfacts1, _, hlast1, hmove⟩ :=
        step_spec sz MBMAXTYPE MBENTITYSET hsz hES hm hr st hinv hend2
      rw [hstep]
      simp only
      have hse1 := hinv1.2.2.1
      obtain ⟨_, hb21, _⟩ := cand_end_bounds hr hinv1.2.1
      have hec1 := hinv1.2.2.2.1
      have hgt : st.mEndHandle < st1.mStartHandle := by
        rcases hmove with ⟨he, hri, hne1, hst⟩ | ⟨he, hri, hst⟩
        · rw [hl] at hri he hst
          simp only [List.tail_cons] at hri hst
          cases hrest : rest with
          | nil => rw [hrest] at hri; exact absurd hri hne1
          | cons q rest2 =>
            rw [hrest] at hw hst
            have := range_next_first hw
            simp only [node_pair, List.headD_cons] at he hst
            omega
        · omega
      obtain ⟨bs, hbs, hpw, hall, hcov⟩ := ih st1 rc1 hinv1 hfacts1 (by omega)
      rw [hbs]
      simp only
      refine ⟨_, rfl, ?_, ?_, ?_⟩
      · rw [List.pairwise_cons]
        refine ⟨?_, hpw⟩
        intro b hb
        have hbf := (hall b hb).1
        have := (hcov b.first).mp ⟨b, hb, le_refl _, hbf⟩
        simp only [block_of]
        omega
      · intro b hb
        rcases List.mem_cons.mp hb with rfl | hb2
        · exact ⟨hse, hok⟩
        · exact hall b hb2
      · intro h
        simp only [List.exists_mem_cons_iff, block_of] at *
        rw [hcov h]
        rcases hmove with ⟨he, hri, hne1, hst⟩ | ⟨he, hri, hst⟩
        · rw [hl] at hri he hst
          simp only [List.tail_cons] at hri hst
          simp only [node_pair, List.headD_cons] at he
          rw [hri, in_range_cons]
          cases hrest : rest with
          | nil => rw [hrest] at hri; exact absurd hri hne1
          | cons q rest2 =>
            rw [hrest] at hw hst
            have hnf := range_next_first hw
            simp only [node_pair, List.headD_cons] at hst
            have hwq : RangeWF sz (q :: rest2) := hw.suffix (List.suffix_cons p _)
            have hge := in_range_ge_first rest2 q hwq h
            constructor
            · rintro (⟨h1, h2⟩ | ⟨hin, h1⟩)
              · exact ⟨Or.inl ⟨by omega, by omega⟩, h1⟩
              · exact ⟨Or.inr hin, by omega⟩
            · rintro ⟨(⟨h1, h2⟩ | hin), h3⟩
              · exact Or.inl ⟨h3, by omega⟩
              · exact Or.inr ⟨hin, by have := hge hin; omega⟩
        · rw [hri, hl, in_range_cons]
          constructor
          · rintro (⟨h1, h2⟩ | ⟨hin, h1⟩)
            · exact ⟨Or.inl ⟨by omega, by omega⟩, h1⟩
            · exact ⟨hin, by omega⟩
          · rintro ⟨hin, h3⟩
            by_cases hh : h ≤ st.mEndHandle
            · exact Or.inl ⟨h3, hh⟩
            · exact Or.inr ⟨hin, by omega⟩

/-! ### The entity type of the cached sequence -/

theorem find_deleted_range_seq {sz : Nat} {self st : MBRangeSeqIntersectIter}
    {s : MBEntitySequence} {rc : MBErrorCode}
    (h : find_deleted_range sz self s = some (st, rc)) : st.mSequence = self.mSequence := by
  unfold find_deleted_range at h
  simp only at h
  split at h
  · exact absurd h (by simp)
  · simp only [Option.some.injEq, Prod.mk.injEq] at h
    rw [← h.1]

theorem trim_to_sequence_seq {sz : Nat} {self st : MBRangeSeqIntersectIter}
    {s : MBEntitySequence} {rc : MBErrorCode}
    (h : trim_to_sequence sz self s = some (st, rc)) : st.mSequence = self.mSequence := by
  unfold trim_to_sequence at h
  simp only at h
  split at h
  · exact absurd h (by simp)
  · split at h
    · exact (find_deleted_range_seq h).trans rfl
    · split at h <;> simp only [Option.some.injEq, Prod.mk.injEq] at h <;> rw [← h.1]

theorem find_invalid_range_seq (sz MBMAXTYPE : Nat) (self : MBRangeSeqIntersectIter) :
    (find_invalid_range sz MBMAXTYPE self).1.mSequence = self.mSequence := by
  unfold find_invalid_range
  simp only
  split
  · rfl
  · split <;> split <;> rfl

/-- The cached sequence has an entity type below `MBENTITYSET` after
`update_entity_sequence` when it had one before: a sequence is looked up only
for a block start that has passed the type test. -/
theorem update_seq_type {sz MBMAXTYPE MBENTITYSET : Nat} {m : EntitySequenceManager}
    (hsz : 0 < sz) (hm : MgrWF sz m) {self st : MBRangeSeqIntersectIter} {rc : MBErrorCode}
    (hmgr : self.mSequenceManager = m)
    (hpre : ∀ s, self.mSequence = some s → TYPE_FROM_HANDLE sz s.start_handle < MBENTITYSET)
    (h : update_entity_sequence sz MBMAXTYPE MBENTITYSET self = some (st, rc)) :
    ∀ s, st.mSequence = some s → TYPE_FROM_HANDLE sz s.start_handle < MBENTITYSET := by
  unfold update_entity_sequence at h
  simp only at h
  split at h
  · split at h
    · simp only [Option.some.injEq, Prod.mk.injEq] at h
      rw [← h.1]
      exact hpre
    · rename_i hty
      split at h
      · simp only [Option.some.injEq] at h
        intro s hs
        have := find_invalid_range_seq sz MBMAXTYPE { self with mSequence := none }
        rw [h] at this
        simp only at this
        rw [this] at hs
        exact absurd hs (by simp)
      · rename_i s0 hf
        have hseq := trim_to_sequence_seq h
        simp only at hseq
        intro s hs
        rw [hseq] at hs
        simp only [Option.some.injEq] at hs
        subst hs
        rw [hmgr] at hf
        obtain ⟨hmem, hc⟩ := find_some hf
        rw [← contains_type hsz hm hmem hc]
        omega
  · split at h
    · exact absurd h (by simp)
    · have hseq := trim_to_sequence_seq h
      intro s hs
      rw [hseq] at hs
      exact hpre s hs

/-- The cached sequence of a reached state has an entity type below
`MBENTITYSET`. -/
theorem reach_seq_type {sz MBMAXTYPE MBENTITYSET : Nat} {m : EntitySequenceManager}
    {r : MBRange} (hsz : 0 < sz) (hES : MBENTITYSET ≤ MBMAXTYPE) (hm : MgrWF sz m)
    (hr : RangeWF sz r) {st : MBRangeSeqIntersectIter} {rc : MBErrorCode}
    (h : Reach sz MBMAXTYPE MBENTITYSET m r st rc) :
    ∀ s, st.mSequence = some s → TYPE_FROM_HANDLE sz s.start_handle < MBENTITYSET := by
  induction h with
  | init hi hrc =>
    unfold init at hi
    simp only at hi
    split at hi
    · simp only [Option.some.injEq, Prod.mk.injEq] at hi
      exact absurd hi.2.symm hrc
    · refine update_seq_type hsz hm ?_ ?_ hi
      · split <;> rfl
      · intro s hs
        split at hs <;> exact absurd hs (by simp)
  | step hreach hend hs ih =>
    rename_i st0 st1 rc0 rc1
    obtain ⟨hinv, _, _⟩ := reach_inv hsz hES hm hr hreach
    unfold step at hs
    rw [hend] at hs
    simp only [Bool.false_eq_true, if_false] at hs
    refine update_seq_type hsz hm ?_ ?_ hs
    · split <;> split <;> exact hinv.1
    · intro s hseq
      apply ih s
      rw [← hseq]
      split <;> split <;> rfl

/-- A block start returned with `MB_SUCCESS` has an entity type below
`MBENTITYSET`, and so has every handle of its sequence. -/
theorem success_type {sz MBMAXTYPE MBENTITYSET : Nat} {m : EntitySequenceManager}
    {r : MBRange} (hsz : 0 < sz) (hES : MBENTITYSET ≤ MBMAXTYPE) (hm : MgrWF sz m)
    (hr : RangeWF sz r) {st : MBRangeSeqIntersectIter} {rc : MBErrorCode}
    (h : Reach sz MBMAXTYPE MBENTITYSET m r st rc) {s : MBEntitySequence}
    (hs : s ∈ m.sequences) (hseq : st.mSequence = some s) {x : Nat} (hx : s.contains x) :
    TYPE_FROM_HANDLE sz x < MBENTITYSET := by
  rw [contains_type hsz hm hs hx]
  exact reach_seq_type hsz hES hm hr h s hseq

/-- Every block of an iteration is the block of a reached state. -/
theorem blocks_from_reach {sz MBMAXTYPE MBENTITYSET : Nat} {m : EntitySequenceManager}
    {r : MBRange} :
    ∀ (n : Nat) (st : MBRangeSeqIntersectIter) (rc : MBErrorCode) (bs : List Block),
      Reach sz MBMAXTYPE MBENTITYSET m r st rc →
      blocks_from sz MBMAXTYPE MBENTITYSET n st rc = some bs →
      ∀ b ∈ bs, ∃ st1 rc1, Reach sz MBMAXTYPE MBENTITYSET m r st1 rc1 ∧ b = block_of st1 rc1 := by
  intro n
  induction n with
  | zero =>
    intro st rc bs _ h
    simp [blocks_from] at h
  | succ k ih =>
    intro st rc bs hreach h
    unfold blocks_from at h
    by_cases hend : is_at_end st = true
    · rw [if_pos hend] at h
      simp only [Option.some.injEq] at h
      subst h
      intro b hb
      simp only [List.mem_singleton] at hb
      exact ⟨st, rc, hreach, hb⟩
    · rw [if_neg hend] at h
      have hend2 : is_at_end st = false := by simpa using hend
      cases hstep : step sz MBMAXTYPE MBENTITYSET st with
      | none => rw [hstep] at h; exact absurd h (by simp)
      | some p =>
        obtain ⟨st1, rc1⟩ := p
        rw [hstep] at h
        simp only at h
        cases hrest : blocks_from sz MBMAXTYPE MBENTITYSET k st1 rc1 with
        | none => rw [hrest] at h; exact absurd h (by simp)
        | some bs1 =>
          rw [hrest] at h
          simp only [Option.some.injEq] at h
          subst h
          intro b hb
          rcases List.mem_cons.mp hb with rfl | hb1
          · exact ⟨st, rc, hreach, rfl⟩
          · exact ih st1 rc1 bs1 (Reach.step hreach hend2 hstep) hrest b hb1

/-! ### Geometry topology tool: the sense functions on a tool with its tags -/

theorem sparse_get_set_self {α : Type} (store : List (Nat × α)) (h : Nat) (v : α) :
    sparse_get (sparse_set store h v) h = some v := by
  induction store with
  | nil => simp [sparse_set, sparse_get]
  | cons p rest ih =>
    obtain ⟨k, w⟩ := p
    by_cases hk : k = h
    · simp [sparse_set, sparse_get, hk]
    · simp [sparse_set, sparse_get, hk, ih]

/-- With the dimension tag looked up, `dimension` reads the stored dimension
and leaves the tool as it was. -/
theorem dimension_of_valid (g : GeomTopoTool) (x : Nat)
    (htag : g.geomTag = TagName.GEOM_DIMENSION.handle)
    (hcr : TagName.GEOM_DIMENSION ∈ g.mdbImpl.created) :
    dimension g x = (g, (sparse_get g.mdbImpl.dim_data x).getD (-1)) := by
  obtain ⟨mdb, gt, t2, t3, t4⟩ := g
  simp only at htag hcr
  subst htag
  unfold dimension tag_get_data
  cases hd : sparse_get mdb.dim_data x <;>
    simp [TagName.handle, hcr, hd]

/-- A dimension from 1 to 3 is a stored dimension: the dimension tag exists,
the tool has its handle afterwards, and nothing else changes. -/
theorem dimension_stored (g : GeomTopoTool) (x : Nat) (d : Int)
    (hd : (dimension g x).2 = d) (hd3 : d = 1 ∨ d = 2 ∨ d = 3) :
    TagName.GEOM_DIMENSION ∈ g.mdbImpl.created ∧
      sparse_get g.mdbImpl.dim_data x = some d ∧
      (dimension g x).1 = { g with geomTag := TagName.GEOM_DIMENSION.handle } := by
  obtain ⟨mdb, gt, t2, t3, t4⟩ := g
  unfold dimension tag_get_data Interface.tag_get_handle at hd ⊢
  simp only at hd ⊢
  by_cases hgt : gt = 0
  · subst hgt
    by_cases hcr : TagName.GEOM_DIMENSION ∈ mdb.created
    · cases hs : sparse_get mdb.dim_data x with
      | none =>
        simp [hcr, hs, TagName.handle] at hd
        omega
      | some v =>
        simp [hcr, hs, TagName.handle] at hd ⊢
        exact hd
    · simp [hcr, MBErrorCode.toInt] at hd
      omega
  · by_cases hv : gt = TagName.GEOM_DIMENSION.handle ∧ TagName.GEOM_DIMENSION ∈ mdb.created
    · cases hs : sparse_get mdb.dim_data x with
      | none =>
        simp [hgt, hv, hs] at hd
        omega
      | some v =>
        simp [hgt, hv, hs] at hd ⊢
        exact hd
    · simp [hgt, hv] at hd
      omega

/-- What `check_edge_sense_tags(true)` leaves: success, the stored data as it
was, and the tool as it was when it had `senseNEntsTag`, else both edge tags
created or found. -/
theorem check_edge_sense_tags_create (g : GeomTopoTool) :
    (check_edge_sense_tags g true).2 = MB_SUCCESS ∧
      (check_edge_sense_tags g true).1.geomTag = g.geomTag ∧
      (check_edge_sense_tags g true).1.mdbImpl.dim_data = g.mdbImpl.dim_data ∧
      (check_edge_sense_tags g true).1.mdbImpl.ents_data = g.mdbImpl.ents_data ∧
      (check_edge_sense_tags g true).1.mdbImpl.senses_data = g.mdbImpl.senses_data ∧
      (∀ n, n ∈ g.mdbImpl.created → n ∈ (check_edge_sense_tags g true).1.mdbImpl.created) ∧
      (check_edge_sense_tags g true).1.senseNEntsTag ≠ 0 := by
  obtain ⟨mdb, gt, t2, t3, t4⟩ := g
  unfold check_edge_sense_tags Interface.tag_create
  by_cases h3 : t3 = 0
  · by_cases hc3 : TagName.GEOM_SENSE_N_ENTS ∈ mdb.created <;>
      by_cases hc4 : TagName.GEOM_SENSE_N_SENSES ∈ mdb.created <;>
      simp [h3, hc3, hc4, TagName.handle] <;> intro n hn <;> simp [hn]
  · simp [h3]

/-- What `check_face_sense_tag(true)` leaves. -/
theorem check_face_sense_tag_create (g : GeomTopoTool) :
    (check_face_sense_tag g true).2 = MB_SUCCESS ∧
      (check_face_sense_tag g true).1.geomTag = g.geomTag ∧
      (check_face_sense_tag g true).1.mdbImpl.dim_data = g.mdbImpl.dim_data ∧
      (check_face_sense_tag g true).1.mdbImpl.sense2_data = g.mdbImpl.sense2_data ∧
      (∀ n, n ∈ g.mdbImpl.created → n ∈ (check_face_sense_tag g true).1.mdbImpl.created) ∧
      ((g.sense2Tag = 0 ∧ (check_face_sense_tag g true).1.sense2Tag = TagName.GEOM_SENSE_2.handle
          ∧ TagName.GEOM_SENSE_2 ∈ (check_face_sense_tag g true).1.mdbImpl.created) ∨
        (g.sense2Tag ≠ 0 ∧ check_face_sense_tag g true = (g, MB_SUCCESS))) := by
  obtain ⟨mdb, gt, t2, t3, t4⟩ := g
  unfold check_face_sense_tag Interface.tag_create
  by_cases h2 : t2 = 0
  · by_cases hc2 : TagName.GEOM_SENSE_2 ∈ mdb.created <;>
      simp [h2, hc2, TagName.handle]
    intro n hn
    simp [hn]
  · simp [h2]

theorem set_sense_congr (g g' : GeomTopoTool) (e w : Nat) (s : Int)
    (h : dimension g e = dimension g' e) : set_sense g e w s = set_sense g' e w s := by
  unfold set_sense
  rw [h]

theorem set_sense_face_new (g g1 : GeomTopoTool) (e w : Nat) (s : Int)
    (hgt : g.geomTag = TagName.GEOM_DIMENSION.handle)
    (hcr : TagName.GEOM_DIMENSION ∈ g.mdbImpl.created)
    (hde : sparse_get g.mdbImpl.dim_data e = some 2)
    (hdw : sparse_get g.mdbImpl.dim_data w = some 3)
    (hw : w ≠ 0) (hs : s = -1 ∨ s = 0 ∨ s = 1)
    (hno2 : sparse_get g.mdbImpl.sense2_data e = none)
    (hset : set_sense g e w s = some (g1, MB_SUCCESS)) :
    g1.geomTag = TagName.GEOM_DIMENSION.handle ∧
      TagName.GEOM_DIMENSION ∈ g1.mdbImpl.created ∧
      g1.mdbImpl.dim_data = g.mdbImpl.dim_data ∧
      g1.sense2Tag = TagName.GEOM_SENSE_2.handle ∧
      TagName.GEOM_SENSE_2 ∈ g1.mdbImpl.created ∧
      sparse_get g1.mdbImpl.sense2_data e
        = some (if s = -1 then 0 else w, if s = 1 then 0 else w) := by
  simp only [set_sense, dimension_of_valid g e hgt hcr, dimension_of_valid g w hgt hcr,
    hde, hdw, Option.getD_some] at hset
  obtain ⟨hc1, hc2, hc3, hc4, hc5, hc6⟩ := check_face_sense_tag_create g
  generalize check_face_sense_tag g true = c at hset hc1 hc2 hc3 hc4 hc5 hc6
  obtain ⟨⟨cm, cgt, c2, c3, c4⟩, crc⟩ := c
  simp only at hc1 hc2 hc3 hc4 hc5 hc6
  subst hc1
  have hnum : toInt32 (ofInt 4 ((3 : Int) - 2)) = 1 := by decide
  have hsr : ¬ (s < -1 ∨ s > 1) := by omega
  have hget : ∀ t, tag_get_data cm TagName.GEOM_SENSE_2 cm.sense2_data t e ((0, 0) : Nat × Nat)
      = (MB_TAG_NOT_FOUND, (0, 0)) := by
    intro t
    unfold tag_get_data
    rw [hc4, hno2]
    split <;> rfl
  simp only [hnum, hsr, hget] at hset
  simp [set_sense_store2, tag_valid] at hset
  have hw0 : ¬ (0 = w) := fun h => hw h.symm
  by_cases hv : c2 = TagName.GEOM_SENSE_2.handle ∧ TagName.GEOM_SENSE_2 ∈ cm.created
  · have hv2 : ¬ (c2 = TagName.GEOM_SENSE_2.handle → TagName.GEOM_SENSE_2 ∉ cm.created) :=
      fun h => h hv.1 hv.2
    rcases hs with rfl | rfl | rfl <;> simp [hw0, hv2] at hset <;> subst hset <;>
      simp [sparse_get_set_self, hc2, hgt, hc3, hc5 _ hcr, hv.1, hv.2]
  · have hv2 : c2 = TagName.GEOM_SENSE_2.handle → TagName.GEOM_SENSE_2 ∉ cm.created :=
      fun h1 h2 => hv ⟨h1, h2⟩
    rcases hs with rfl | rfl | rfl <;> simp [hw0] at hset <;> rw [if_pos hv2] at hset <;>
      simp at hset

theorem get_sense_face (g : GeomTopoTool) (e w : Nat) (s0 : Int)
    (hgt : g.geomTag = TagName.GEOM_DIMENSION.handle)
    (hcr : TagName.GEOM_DIMENSION ∈ g.mdbImpl.created)
    (hde : sparse_get g.mdbImpl.dim_data e = some 2)
    (hdw : sparse_get g.mdbImpl.dim_data w = some 3)
    (h2 : g.sense2Tag = 0 ∨ g.sense2Tag = TagName.GEOM_SENSE_2.handle)
    (hc2 : TagName.GEOM_SENSE_2 ∈ g.mdbImpl.created) :
    get_sense g e w s0 = some ({ g with sense2Tag := TagName.GEOM_SENSE_2.handle },
      if w = ((sparse_get g.mdbImpl.sense2_data e).getD (0, 0)).1
          ∧ w = ((sparse_get g.mdbImpl.sense2_data e).getD (0, 0)).2 then (MB_SUCCESS, 0)
      else if w = ((sparse_get g.mdbImpl.sense2_data e).getD (0, 0)).1 then (MB_SUCCESS, 1)
      else if w = ((sparse_get g.mdbImpl.sense2_data e).getD (0, 0)).2 then (MB_SUCCESS, -1)
      else (MB_ENTITY_NOT_FOUND, s0)) := by
  have hnum : toInt32 (ofInt 4 ((3 : Int) - 2)) = 1 := by decide
  simp only [get_sense, dimension_of_valid g e hgt hcr, dimension_of_valid g w hgt hcr,
    hde, hdw, Option.getD_some, hnum]
  obtain ⟨mdb, gt, t2, t3, t4⟩ := g
  simp only at h2 hc2 ⊢
  have hc : check_face_sense_tag ⟨mdb, gt, t2, t3, t4⟩ false
      = (⟨mdb, gt, TagName.GEOM_SENSE_2.handle, t3, t4⟩, MB_SUCCESS) := by
    unfold check_face_sense_tag Interface.tag_get_handle
    rcases h2 with rfl | rfl <;> simp [hc2, TagName.handle]
  rw [hc]
  unfold tag_get_data
  cases hs : sparse_get mdb.sense2_data e with
  | none => simp [hc2]; split_ifs <;> simp_all
  | some p => simp [hc2]; split_ifs <;> simp_all

theorem check_edge_sense_tags_lookup (g : GeomTopoTool)
    (h3 : g.senseNEntsTag = 0 ∨ (g.senseNEntsTag = TagName.GEOM_SENSE_N_ENTS.handle ∧
      g.senseNSensesTag = TagName.GEOM_SENSE_N_SENSES.handle))
    (hc3 : TagName.GEOM_SENSE_N_ENTS ∈ g.mdbImpl.created)
    (hc4 : TagName.GEOM_SENSE_N_SENSES ∈ g.mdbImpl.created) :
    check_edge_sense_tags g false = ({ g with
      senseNEntsTag := TagName.GEOM_SENSE_N_ENTS.handle,
      senseNSensesTag := TagName.GEOM_SENSE_N_SENSES.handle }, MB_SUCCESS) := by
  obtain ⟨mdb, gt, t2, t3, t4⟩ := g
  simp only at h3 hc3 hc4
  unfold check_edge_sense_tags Interface.tag_get_handle
  rcases h3 with rfl | ⟨rfl, rfl⟩ <;> simp [hc3, hc4, TagName.handle]

theorem check_edge_sense_tags_nonzero (g : GeomTopoTool) (create : Bool)
    (h3 : g.senseNEntsTag ≠ 0) : check_edge_sense_tags g create = (g, MB_SUCCESS) := by
  unfold check_edge_sense_tags
  simp [h3]

theorem get_senses_no_ents (g : GeomTopoTool) (e : Nat) (a : List Nat) (b : List Int)
    (hgt : g.geomTag = TagName.GEOM_DIMENSION.handle)
    (hcr : TagName.GEOM_DIMENSION ∈ g.mdbImpl.created)
    (hde : sparse_get g.mdbImpl.dim_data e = some 1)
    (h3 : g.senseNEntsTag ≠ 0)
    (hno : sparse_get g.mdbImpl.ents_data e = none) :
    get_senses g e a b = (g, MB_TAG_NOT_FOUND, [], []) := by
  simp only [get_senses, dimension_of_valid g e hgt hcr, hde, Option.getD_some,
    check_edge_sense_tags_nonzero g false h3]
  unfold tag_get_data
  rw [hno]
  simp

theorem get_senses_edge (g : GeomTopoTool) (e : Nat) (a : List Nat) (b : List Int)
    (faces : List Nat) (ss : List Int)
    (hgt : g.geomTag = TagName.GEOM_DIMENSION.handle)
    (hcr : TagName.GEOM_DIMENSION ∈ g.mdbImpl.created)
    (hde : sparse_get g.mdbImpl.dim_data e = some 1)
    (h3 : g.senseNEntsTag = TagName.GEOM_SENSE_N_ENTS.handle)
    (h4 : g.senseNSensesTag = TagName.GEOM_SENSE_N_SENSES.handle)
    (hc3 : TagName.GEOM_SENSE_N_ENTS ∈ g.mdbImpl.created)
    (hc4 : TagName.GEOM_SENSE_N_SENSES ∈ g.mdbImpl.created)
    (hE : sparse_get g.mdbImpl.ents_data e = some faces)
    (hS : sparse_get g.mdbImpl.senses_data e = some ss) :
    get_senses g e a b = (g, MB_SUCCESS, faces, ss) := by
  have hnz : g.senseNEntsTag ≠ 0 := by rw [h3]; decide
  simp only [get_senses, dimension_of_valid g e hgt hcr, hde, Option.getD_some,
    check_edge_sense_tags_nonzero g false hnz]
  unfold tag_get_data
  simp [h3, h4, hc3, hc4, hE, hS]

theorem get_sense_edge (g : GeomTopoTool) (e w : Nat) (s0 : Int)
    (faces : List Nat) (ss : List Int)
    (hgt : g.geomTag = TagName.GEOM_DIMENSION.handle)
    (hcr : TagName.GEOM_DIMENSION ∈ g.mdbImpl.created)
    (hde : sparse_get g.mdbImpl.dim_data e = some 1)
    (hdw : sparse_get g.mdbImpl.dim_data w = some 2)
    (h3 : g.senseNEntsTag = 0 ∨ (g.senseNEntsTag = TagName.GEOM_SENSE_N_ENTS.handle ∧
      g.senseNSensesTag = TagName.GEOM_SENSE_N_SENSES.handle))
    (hc3 : TagName.GEOM_SENSE_N_ENTS ∈ g.mdbImpl.created)
    (hc4 : TagName.GEOM_SENSE_N_SENSES ∈ g.mdbImpl.created)
    (hE : sparse_get g.mdbImpl.ents_data e = some faces)
    (hS : sparse_get g.mdbImpl.senses_data e = some ss) :
    get_sense g e w s0 =
      if faces.indexOf w = faces.length then
        some
          ({ g with
              senseNEntsTag := TagName.GEOM_SENSE_N_ENTS.handle,
              senseNSensesTag := TagName.GEOM_SENSE_N_SENSES.handle },
            MB_ENTITY_NOT_FOUND, s0)
      else
        match ss.get? (faces.indexOf w) with
        | none => none
        | some v =>
          some
            ({ g with
                senseNEntsTag := TagName.GEOM_SENSE_N_ENTS.handle,
                senseNSensesTag := TagName.GEOM_SENSE_N_SENSES.handle },
              MB_SUCCESS, v) := by
  have hnum : toInt32 (ofInt 4 ((2 : Int) - 1)) = 1 := by decide
  simp only [get_sense, dimension_of_valid g e hgt hcr, dimension_of_valid g w hgt hcr,
    hde, hdw, Option.getD_some, hnum, check_edge_sense_tags_lookup g h3 hc3 hc4]
  rw [get_senses_edge
    { g with
      senseNEntsTag := TagName.GEOM_SENSE_N_ENTS.handle,
      senseNSensesTag := TagName.GEOM_SENSE_N_SENSES.handle }
    e [] [] faces ss hgt hcr hde rfl rfl hc3 hc4 hE hS]
  simp

theorem set_sense_edge_new (g g1 : GeomTopoTool) (e w : Nat) (s : Int)
    (hgt : g.geomTag = TagName.GEOM_DIMENSION.handle)
    (hcr : TagName.GEOM_DIMENSION ∈ g.mdbImpl.created)
    (hde : sparse_get g.mdbImpl.dim_data e = some 1)
    (hdw : sparse_get g.mdbImpl.dim_data w = some 2)
    (hs : s = -1 ∨ s = 0 ∨ s = 1)
    (hno : sparse_get g.mdbImpl.ents_data e = none)
    (hset : set_sense g e w s = some (g1, MB_SUCCESS)) :
    g1.geomTag = TagName.GEOM_DIMENSION.handle ∧
      TagName.GEOM_DIMENSION ∈ g1.mdbImpl.created ∧
      g1.mdbImpl.dim_data = g.mdbImpl.dim_data ∧
      g1.senseNEntsTag = TagName.GEOM_SENSE_N_ENTS.handle ∧
      g1.senseNSensesTag = TagName.GEOM_SENSE_N_SENSES.handle ∧
      TagName.GEOM_SENSE_N_ENTS ∈ g1.mdbImpl.created ∧
      TagName.GEOM_SENSE_N_SENSES ∈ g1.mdbImpl.created ∧
      sparse_get g1.mdbImpl.ents_data e = some [w] ∧
      sparse_get g1.mdbImpl.senses_data e = some [s] := by
  have hnum : toInt32 (ofInt 4 ((2 : Int) - 1)) = 1 := by decide
  have hsr : ¬ (s < -1 ∨ s > 1) := by omega
  simp only [set_sense, dimension_of_valid g e hgt hcr, dimension_of_valid g w hgt hcr,
    hde, hdw, Option.getD_some, hnum, hsr] at hset
  obtain ⟨hc1, hc2, hc3, hc4, hc5, hc6, hc7⟩ := check_edge_sense_tags_create g
  generalize check_edge_sense_tags g true = c at hset hc1 hc2 hc3 hc4 hc5 hc6 hc7
  obtain ⟨cg, crc⟩ := c
  simp only at hc1 hc2 hc3 hc4 hc5 hc6 hc7
  subst hc1
  rw [get_senses_no_ents cg e [] [] (hc2.trans hgt) (hc6 _ hcr) (hc3 ▸ hde) hc7 (hc4 ▸ hno)]
    at hset
  obtain ⟨cm, cgt, c2, c3, c4⟩ := cg
  simp [set_sense_store, tag_valid] at hset hc2 hc3 hc4 hc5 hc6 hc7
  by_cases hv3 : c3 = TagName.GEOM_SENSE_N_ENTS.handle → TagName.GEOM_SENSE_N_ENTS ∉ cm.created
  · rw [if_pos hv3] at hset
    simp at hset
  · rw [if_neg hv3] at hset
    by_cases hv4 : c4 = TagName.GEOM_SENSE_N_SENSES.handle →
        TagName.GEOM_SENSE_N_SENSES ∉ cm.created
    · rw [if_pos hv4] at hset
      simp at hset
    · rw [if_neg hv4] at hset
      simp at hset
      subst hset
      simp only [Classical.not_imp, not_not] at hv3 hv4
      simp [sparse_get_set_self, hc2, hgt, hc3, hc6 _ hcr, hv3.1, hv3.2, hv4.1, hv4.2]

theorem get_sense_congr (g g' : GeomTopoTool) (e w : Nat) (s : Int)
    (h : dimension g e = dimension g' e) : get_sense g e w s = get_sense g' e w s := by
  unfold get_sense
  rw [h]

theorem check_edge_sense_tags_exist (g : GeomTopoTool) (create : Bool)
    (h3 : g.senseNEntsTag = 0 ∨ (g.senseNEntsTag = TagName.GEOM_SENSE_N_ENTS.handle ∧
      g.senseNSensesTag = TagName.GEOM_SENSE_N_SENSES.handle))
    (hc3 : TagName.GEOM_SENSE_N_ENTS ∈ g.mdbImpl.created)
    (hc4 : TagName.GEOM_SENSE_N_SENSES ∈ g.mdbImpl.created) :
    check_edge_sense_tags g create =
      ({ g with
          senseNEntsTag := TagName.GEOM_SENSE_N_ENTS.handle,
          senseNSensesTag := TagName.GEOM_SENSE_N_SENSES.handle },
        MB_SUCCESS) := by
  cases create
  · exact check_edge_sense_tags_lookup g h3 hc3 hc4
  · obtain ⟨mdb, gt, t2, t3, t4⟩ := g
    simp only at h3 hc3 hc4
    unfold check_edge_sense_tags Interface.tag_create
    rcases h3 with rfl | ⟨rfl, rfl⟩ <;> simp [hc3, hc4, TagName.handle]

/-! ### Ranges of entity sets (C10) -/

theorem update_type_out (sz MBMAXTYPE MBENTITYSET : Nat) (st : MBRangeSeqIntersectIter)
    (hseq : st.mSequence = none)
    (hty : MBENTITYSET ≤ TYPE_FROM_HANDLE sz st.mStartHandle) :
    update_entity_sequence sz MBMAXTYPE MBENTITYSET st = some (st, MB_TYPE_OUT_OF_RANGE) := by
  unfold update_entity_sequence
  rw [hseq]
  simp only [if_true]
  rw [if_pos hty]

theorem blocks_type_out (sz MBMAXTYPE MBENTITYSET : Nat) (hsz : 0 < sz)
    (m : EntitySequenceManager) (f : Int) :
    ∀ (rest : MBRange) (p : Nat × Nat), RangeWF sz (p :: rest) →
      MBENTITYSET ≤ TYPE_FROM_HANDLE sz p.1 →
      blocks_from sz MBMAXTYPE MBENTITYSET (rest.length + 1)
        ⟨m, none, p :: rest, p.1, p.2, last_handle (p :: rest), f⟩ MB_TYPE_OUT_OF_RANGE
      = some ((p :: rest).map (fun q => ⟨MB_TYPE_OUT_OF_RANGE, none, q.1, q.2⟩)) := by
  intro rest
  induction rest with
  | nil =>
    intro p hw hty
    unfold blocks_from
    simp [is_at_end, last_handle_single, block_of]
  | cons q rest2 ih =>
    intro p hw hty
    have hq := hw.1 q (by simp)
    have hp := hw.1 p (by simp)
    have hpq := (List.pairwise_cons.mp hw.2).1 q (by simp)
    have hwq : RangeWF sz (q :: rest2) := hw.suffix (List.suffix_cons p _)
    have hql := second_le_last rest2 q hwq
    have htq : MBENTITYSET ≤ TYPE_FROM_HANDLE sz q.1 :=
      le_trans hty (type_mono sz hsz _ _ (by omega) (by omega))
    have hend : is_at_end ⟨m, none, p :: q :: rest2, p.1, p.2, last_handle (p :: q :: rest2), f⟩
        = false := by
      unfold is_at_end
      rw [last_handle_cons]
      simp only [decide_eq_false_iff_not]
      omega
    have hstep : step sz MBMAXTYPE MBENTITYSET
        ⟨m, none, p :: q :: rest2, p.1, p.2, last_handle (p :: q :: rest2), f⟩
        = some (⟨m, none, q :: rest2, q.1, q.2, last_handle (q :: rest2), f⟩,
            MB_TYPE_OUT_OF_RANGE) := by
      unfold step
      rw [hend]
      simp only [Bool.false_eq_true, if_false, node_pair, List.headD_cons, if_true,
        List.tail_cons, last_handle_cons]
      rw [if_neg (by omega)]
      exact update_type_out sz MBMAXTYPE MBENTITYSET _ rfl htq
    unfold blocks_from
    rw [hend]
    simp only [Bool.false_eq_true, if_false, hstep]
    have := ih q hwq htq
    simp only [List.length_cons] at this ⊢
    rw [this]
    simp [block_of]

/-- C10 (amended). For every well-formed handle range whose first handle has
type at least `MBENTITYSET`, the iteration ends after one block per pair of the
range; every block is returned with `MB_TYPE_OUT_OF_RANGE` and is exactly that
pair, neither extended nor cut to the maximum-id handle of the type.  A range
of one pair therefore yields exactly one block, the pair itself. -/
theorem C10_type_out_of_range_blocks (sz MBMAXTYPE MBENTITYSET : Nat)
    (m : EntitySequenceManager) (r : MBRange) (hsz : 0 < sz) (hr : RangeWF sz r)
    (hne : r ≠ []) (hty : MBENTITYSET ≤ TYPE_FROM_HANDLE sz (node_pair r).1) :
    iterate sz MBMAXTYPE MBENTITYSET m r r.length
      = some (r.map (fun q => ⟨MB_TYPE_OUT_OF_RANGE, none, q.1, q.2⟩)) := by
  obtain ⟨p, rest, rfl⟩ := List.exists_cons_of_ne_nil hne
  have hp := hr.1 p (by simp)
  have hpl := second_le_last rest p hr
  have hneq : MBRange.begin (p :: rest) ≠ MBRange.end_ (p :: rest) := by
    unfold MBRange.begin MBRange.end_
    intro h
    have := congrArg const_iterator.after h
    simp only at this
    exact hne this
  have hdecr : (MBRange.end_ (p :: rest)).decr.mValue = last_handle (p :: rest) := by
    unfold MBRange.end_ const_iterator.decr last_handle
    cases hq : (p :: rest).reverse with
    | nil => simp at hq
    | cons q qs => simp [node_pair]
  have hinit : init sz MBMAXTYPE MBENTITYSET (MBRangeSeqIntersectIter.new m)
      (MBRange.begin (p :: rest)) (MBRange.end_ (p :: rest))
      = some (⟨m, none, p :: rest, p.1, p.2, last_handle (p :: rest), 0⟩,
          MB_TYPE_OUT_OF_RANGE) := by
    unfold init
    rw [if_neg hneq]
    simp only [hdecr, MBRangeSeqIntersectIter.new, MBRange.begin, node_pair, List.headD_cons]
    rw [if_neg (by omega)]
    exact update_type_out sz MBMAXTYPE MBENTITYSET _ rfl hty
  unfold iterate
  rw [hinit]
  simp only [List.length_cons]
  rw [if_neg (by decide)]
  exact blocks_type_out sz MBMAXTYPE MBENTITYSET hsz m 0 rest p hr hty

/-- Witness of C10 (amended): two runs of entity sets, 32-bit handles. -/
theorem C10_type_out_of_range_blocks_witness :
    iterate 4 15 11 ⟨[]⟩ [(0xB0000001, 0xB0000003), (0xB0000007, 0xB0000009)] 2
      = some [⟨MB_TYPE_OUT_OF_RANGE, none, 0xB0000001, 0xB0000003⟩,
              ⟨MB_TYPE_OUT_OF_RANGE, none, 0xB0000007, 0xB0000009⟩] :=
  C10_type_out_of_range_blocks 4 15 11 ⟨[]⟩ [(0xB0000001, 0xB0000003), (0xB0000007, 0xB0000009)]
    (by decide) (by decide) (by decide) (by decide)

/-- C10 as stated fails: a range of two runs of entity-set handles (sets 1..3 and
7..9, 32-bit handles) starts with a handle of type `MBENTITYSET`, yet iterating
it yields two blocks, not one, and the first block ends at set 3, not at the
maximum-id handle `0xBFFFFFFF` of the type. -/
theorem C10_counterexample :
    iterate 4 15 11 ⟨[]⟩ [(0xB0000001, 0xB0000003), (0xB0000007, 0xB0000009)] 2
      = some [⟨MB_TYPE_OUT_OF_RANGE, none, 0xB0000001, 0xB0000003⟩,
              ⟨MB_TYPE_OUT_OF_RANGE, none, 0xB0000007, 0xB0000009⟩] ∧
    TYPE_FROM_HANDLE 4 0xB0000001 = 11 ∧
    max_handle 4 15 11 = 0xBFFFFFFF ∧ (0xB0000003 : Nat) ≠ 0xBFFFFFFF := by
  decide

/-! ### Blocks that start in no sequence (C9) -/

/-- C9 (amended). No-sequence hole: when the block start, of type below
`MBENTITYSET`, lies in no sequence, `init` or `step` returns
`MB_ENTITY_NOT_FOUND`; the block end is `min(mEnd, start handle of the next
sequence of that type - 1)` when such a later sequence exists, and otherwise
`min(mEnd, maximum-id handle of that type)`, where `mEnd` is the end of the
current pair capped at the last handle; and no handle of the returned block
belongs to any sequence. -/
theorem C9_hole_block (sz MBMAXTYPE MBENTITYSET : Nat) (m : EntitySequenceManager) (r : MBRange)
    (st : MBRangeSeqIntersectIter) (rc : MBErrorCode)
    (hsz : 0 < sz) (hES : MBENTITYSET ≤ MBMAXTYPE) (hm : MgrWF sz m) (hr : RangeWF sz r)
    (hreach : Reach sz MBMAXTYPE MBENTITYSET m r st rc)
    (hty : TYPE_FROM_HANDLE sz st.mStartHandle < MBENTITYSET)
    (hno : ∀ S ∈ m.sequences, ¬ S.contains st.mStartHandle) :
    rc = MB_ENTITY_NOT_FOUND ∧
    (∀ next, upper_bound (m.entity_map sz (TYPE_FROM_HANDLE sz st.mStartHandle)) st.mStartHandle
        = some next →
      st.mEndHandle = min (cand_end st) (next.start_handle - 1)) ∧
    (upper_bound (m.entity_map sz (TYPE_FROM_HANDLE sz st.mStartHandle)) st.mStartHandle = none →
      st.mEndHandle
        = min (cand_end st) (max_handle sz MBMAXTYPE (TYPE_FROM_HANDLE sz st.mStartHandle))) ∧
    (∀ h, st.mStartHandle ≤ h → h ≤ st.mEndHandle → ∀ S ∈ m.sequences, ¬ S.contains h) := by
  obtain ⟨hinv, hfacts, _⟩ := reach_inv hsz hES hm hr hreach
  obtain ⟨hb1, hb2, hb3⟩ := cand_end_bounds hr hinv.2.1
  rcases hfacts with ⟨_, h2, _⟩ | ⟨h1, h2, h3, h4, h5⟩ | ⟨s, _, hs, hc, _⟩
  · omega
  · refine ⟨h1, ?_, ?_, hole_no_sequence hsz hES hm st hinv.1 hty hno h5⟩
    · intro next hu
      rw [h5]
      unfold hole_end
      rw [hinv.1, hu]
    · intro hu
      rw [h5]
      unfold hole_end
      rw [hinv.1, hu]
  · exact absurd hc (hno s hs)

/-- Witness of C9 (amended): vertices 1..10 in a sequence, range 11..40; the
block starts at vertex 11, which lies in no sequence. -/
theorem C9_hole_block_witness :
    MB_ENTITY_NOT_FOUND = MB_ENTITY_NOT_FOUND ∧
    (∀ next, upper_bound ((⟨[vertices_1_10]⟩ : EntitySequenceManager).entity_map 4
        (TYPE_FROM_HANDLE 4 11)) 11 = some next →
      40 = min (cand_end ⟨⟨[vertices_1_10]⟩, none, [(11, 40)], 11, 40, 40, 0⟩)
        (next.start_handle - 1)) ∧
    (upper_bound ((⟨[vertices_1_10]⟩ : EntitySequenceManager).entity_map 4
        (TYPE_FROM_HANDLE 4 11)) 11 = none →
      40 = min (cand_end ⟨⟨[vertices_1_10]⟩, none, [(11, 40)], 11, 40, 40, 0⟩)
        (max_handle 4 15 (TYPE_FROM_HANDLE 4 11))) ∧
    (∀ h, 11 ≤ h → h ≤ 40 → ∀ S ∈ (⟨[vertices_1_10]⟩ : EntitySequenceManager).sequences,
      ¬ S.contains h) :=
  C9_hole_block 4 15 11 ⟨[vertices_1_10]⟩ [(11, 40)]
    ⟨⟨[vertices_1_10]⟩, none, [(11, 40)], 11, 40, 40, 0⟩ MB_ENTITY_NOT_FOUND
    (by decide) (by decide) (by decide) (by decide)
    (Reach.init (by rfl) (by decide)) (by decide) (by decide)

/-- C9 as stated fails: with no sequence at all and the range of vertices 1..5
(32-bit handles), the block starts in no sequence and there is no later
sequence, yet the block returned with `MB_ENTITY_NOT_FOUND` ends at handle 5,
not at the maximum-id vertex handle `0x0FFFFFFF`. -/
theorem C9_counterexample :
    init 4 15 11 (MBRangeSeqIntersectIter.new ⟨[]⟩) (MBRange.begin [(1, 5)]) (MBRange.end_ [(1, 5)])
      = some (⟨⟨[]⟩, none, [(1, 5)], 1, 5, 5, 0⟩, MB_ENTITY_NOT_FOUND) ∧
    upper_bound ((⟨[]⟩ : EntitySequenceManager).entity_map 4 (TYPE_FROM_HANDLE 4 1)) 1 = none ∧
    max_handle 4 15 (TYPE_FROM_HANDLE 4 1) = 0x0FFFFFFF ∧ (5 : Nat) ≠ 0x0FFFFFFF := by
  decide

/-! ### Maximal blocks (C7) -/

/-- C7. Blocks returned with `MB_SUCCESS` are maximal.  In every state `init` or
`step` hands back with `MB_SUCCESS`, the block end is the end the block was
given (the end of the current pair of the range, capped at the last handle), or
the last handle of the block's sequence, or the handle just before the next
free slot of that sequence (no slot of the block is free and the slot after it
is).  A block whose given extent is live throughout, such as one that reaches
exactly to the end of its sequence, is returned whole; and the next call never
returns an `MB_SUCCESS` block of the same sequence that abuts this one. -/
theorem C7_success_blocks_maximal (sz MBMAXTYPE MBENTITYSET : Nat) (m : EntitySequenceManager)
    (r : MBRange) (st : MBRangeSeqIntersectIter) (rc : MBErrorCode)
    (hsz : 0 < sz) (hES : MBENTITYSET ≤ MBMAXTYPE) (hm : MgrWF sz m) (hr : RangeWF sz r)
    (hreach : Reach sz MBMAXTYPE MBENTITYSET m r st rc) (hrc : rc = MB_SUCCESS) :
    ∃ s, st.mSequence = some s ∧ s ∈ m.sequences ∧
      (st.mEndHandle = cand_end st ∨ st.mEndHandle = s.get_end_handle sz ∨
        (s.is_free (st.mEndHandle + 1 - s.start_handle) = true ∧
          ∀ h, st.mStartHandle ≤ h → h ≤ st.mEndHandle → s.live h)) ∧
      ((∀ h, st.mStartHandle ≤ h → h ≤ cand_end st → s.live h) →
        st.mEndHandle = cand_end st) ∧
      (∀ st1 rc1, is_at_end st = false →
        step sz MBMAXTYPE MBENTITYSET st = some (st1, rc1) → rc1 = MB_SUCCESS →
        st1.mSequence = some s → st1.mStartHandle ≠ st.mEndHandle + 1) := by
  obtain ⟨hinv, hfacts, _⟩ := reach_inv hsz hES hm hr hreach
  obtain ⟨hb1, hb2, hb3⟩ := cand_end_bounds hr hinv.2.1
  subst hrc
  rcases hfacts with ⟨h, _⟩ | ⟨h, _⟩ | ⟨s, hseq, hs, hc, hcase⟩
  · exact absurd h (by decide)
  · exact absurd h (by decide)
  rcases hcase with ⟨_, hcur, hlt, hend⟩ | ⟨h, _⟩
  swap
  · exact absurd h (by decide)
  obtain ⟨hw1, hw2, hw3, hw4⟩ := hm.1 s hs
  have hc2 := hc
  unfold MBEntitySequence.contains at hc2
  obtain ⟨hf0, hf1, hf2, hf3⟩ := hcur
  have hse := hinv.2.2.1
  have hec := hinv.2.2.2.1
  -- the block lies below the free-list cursor whenever it was trimmed
  have htrim : toInt32 (cand_end st - s.start_handle) ≥ st.freeIndex →
      st.mEndHandle = s.start_handle + (st.freeIndex - 1).toNat := by
    intro hge
    rw [hend, if_pos hge]
  have hkeep : ¬ toInt32 (cand_end st - s.start_handle) ≥ st.freeIndex →
      st.mEndHandle = cand_end st := by
    intro hge
    rw [hend, if_neg hge]
  refine ⟨s, hseq, hs, ?_, ?_, ?_⟩
  · by_cases hge : toInt32 (cand_end st - s.start_handle) ≥ st.freeIndex
    · have he := htrim hge
      by_cases hfull : st.freeIndex = (s.free.length : Int)
      · right; left
        rw [get_end_handle_eq hsz s hw4 hw2, he, hfull]
        omega
      · right; right
        have hfree := hf2 (by omega)
        refine ⟨?_, ?_⟩
        · have : st.mEndHandle + 1 - s.start_handle = st.freeIndex.toNat := by omega
          rw [this]
          exact hfree
        · intro h h1 h2
          refine ⟨?_, hf3 (h - s.start_handle) (by omega) (by omega)⟩
          unfold MBEntitySequence.contains
          omega
    · left
      exact hkeep hge
  · intro hall
    by_contra hne
    have hge : toInt32 (cand_end st - s.start_handle) ≥ st.freeIndex := by
      by_contra hge
      exact hne (hkeep hge)
    have he := htrim hge
    -- the slot just after the trimmed block lies in the given extent, so it is live
    have hle32 := toInt32_le (cand_end st - s.start_handle)
    have hin : s.live (s.start_handle + st.freeIndex.toNat) := hall _ (by omega) (by omega)
    obtain ⟨hcon, hnf⟩ := hin
    unfold MBEntitySequence.contains at hcon
    have := hf2 (by omega)
    have e : s.start_handle + st.freeIndex.toNat - s.start_handle = st.freeIndex.toNat := by omega
    rw [e] at hnf
    rw [this] at hnf
    exact absurd hnf (by decide)
  · intro st1 rc1 hnotend hstep hrc1 hseq1 habut
    subst hrc1
    have hreach1 : Reach sz MBMAXTYPE MBENTITYSET m r st1 MB_SUCCESS :=
      Reach.step hreach hnotend hstep
    obtain ⟨hinv1, hfacts1, _⟩ := reach_inv hsz hES hm hr hreach1
    obtain ⟨st2, rc2, hstep2, _, _, _, hlast, hmove⟩ :=
      step_spec sz MBMAXTYPE MBENTITYSET hsz hES hm hr st hinv hnotend
    rw [hstep] at hstep2
    simp only [Option.some.injEq, Prod.mk.injEq] at hstep2
    obtain ⟨rfl, rfl⟩ := hstep2
    have hneq : st.mEndHandle ≠ st.mLastHandle := by
      unfold is_at_end at hnotend
      simpa using hnotend
    have hw := hr.suffix hinv.2.1.1
    rcases hmove with ⟨he, hri, hne, hst⟩ | ⟨he, hri, hst⟩
    · -- the next pair starts beyond the handle after the old end
      cases hl : st.rangeIter with
      | nil => exact absurd hl hinv.2.1.2.1
      | cons p rest =>
        rw [hl] at hri he hst hw
        simp only [List.tail_cons] at hri hst
        cases hrest : rest with
        | nil => rw [hrest] at hri; exact absurd hri hne
        | cons q rest2 =>
          rw [hrest] at hw hst
          have := range_next_first hw
          simp only [node_pair, List.headD_cons] at he hst
          omega
    · -- the same pair: the old end was trimmed, so the next slot is free or past the sequence
      by_cases hge : toInt32 (cand_end st - s.start_handle) ≥ st.freeIndex
      · have he2 := htrim hge
        rcases hfacts1 with ⟨h, _⟩ | ⟨h, _⟩ | ⟨s1, hseq2, _, hc1, hcase1⟩
        · exact absurd h (by decide)
        · exact absurd h (by decide)
        rw [hseq1] at hseq2
        simp only [Option.some.injEq] at hseq2
        subst hseq2
        rcases hcase1 with ⟨_, hcur1, hlt1, _⟩ | ⟨h, _⟩
        swap
        · exact absurd h (by decide)
        unfold MBEntitySequence.contains at hc1
        have hfree := hf2 (by omega)
        have := hcur1.2.2.2 st.freeIndex.toNat (by omega) (by omega)
        rw [hfree] at this
        exact absurd this (by decide)
      · have he2 := hkeep hge
        simp only [cand_end, cand_of] at he2 hb1
        split at he2 <;> omega

/-- Witness of C7: vertices 1..10 with 3, 4, 5 deleted, range 1..10 (32-bit
handles); `init` returns `MB_SUCCESS` with the block 1..2, which ends just
before the free slot of vertex 3. -/
theorem C7_success_blocks_maximal_witness :
    ∃ s, (some vertices_1_10_del_3_4_5 : Option MBEntitySequence) = some s ∧
      s ∈ (⟨[vertices_1_10_del_3_4_5]⟩ : EntitySequenceManager).sequences ∧
      (2 = cand_end ⟨⟨[vertices_1_10_del_3_4_5]⟩, some vertices_1_10_del_3_4_5, [(1, 10)],
              1, 2, 10, 2⟩ ∨
        2 = s.get_end_handle 4 ∨
        (s.is_free (2 + 1 - s.start_handle) = true ∧ ∀ h, 1 ≤ h → h ≤ 2 → s.live h)) ∧
      ((∀ h, 1 ≤ h →
          h ≤ cand_end ⟨⟨[vertices_1_10_del_3_4_5]⟩, some vertices_1_10_del_3_4_5, [(1, 10)],
              1, 2, 10, 2⟩ → s.live h) →
        2 = cand_end ⟨⟨[vertices_1_10_del_3_4_5]⟩, some vertices_1_10_del_3_4_5, [(1, 10)],
              1, 2, 10, 2⟩) ∧
      (∀ st1 rc1,
        is_at_end ⟨⟨[vertices_1_10_del_3_4_5]⟩, some vertices_1_10_del_3_4_5, [(1, 10)],
              1, 2, 10, 2⟩ = false →
        step 4 15 11 ⟨⟨[vertices_1_10_del_3_4_5]⟩, some vertices_1_10_del_3_4_5, [(1, 10)],
              1, 2, 10, 2⟩ = some (st1, rc1) →
        rc1 = MB_SUCCESS → st1.mSequence = some s → st1.mStartHandle ≠ 2 + 1) :=
  C7_success_blocks_maximal 4 15 11 ⟨[vertices_1_10_del_3_4_5]⟩ [(1, 10)]
    ⟨⟨[vertices_1_10_del_3_4_5]⟩, some vertices_1_10_del_3_4_5, [(1, 10)], 1, 2, 10, 2⟩
    MB_SUCCESS (by decide) (by decide) (by decide) (by decide)
    (Reach.init (by rfl) (by decide)) rfl

/-! ### Full iteration (C5) -/

/-- C5 (amended). Full iteration (`init`, then `step` until `is_at_end`) of any
well-formed handle range `r` over any well-formed sequence-manager state `m`, when
no conversion to `int` truncates: the iteration ends, successive blocks are
non-empty, pairwise disjoint and strictly ascending, and for every sequence `S`
of type below `MBENTITYSET` the union of the blocks returned with `MB_SUCCESS`
that lie in `S` equals the set of handles of `r` that are live in `S`; and
every handle of a block returned with `MB_SUCCESS` has a type below
`MBENTITYSET`, so that no handle of type `MBENTITYSET` or above is returned
with `MB_SUCCESS`. -/
theorem C5_iteration_covers_live (sz MBMAXTYPE MBENTITYSET : Nat) (m : EntitySequenceManager)
    (r : MBRange) (hsz : 0 < sz) (hES : MBENTITYSET ≤ MBMAXTYPE) (hm : MgrWF sz m)
    (hr : RangeWF sz r) (hnt : NoTruncation m r) :
    ∃ bs, iterate sz MBMAXTYPE MBENTITYSET m r (last_handle r + 1) = some bs ∧
      bs.Pairwise (fun a b => a.last < b.first) ∧ (∀ b ∈ bs, b.first ≤ b.last) ∧
      (∀ S ∈ m.sequences, TYPE_FROM_HANDLE sz S.start_handle < MBENTITYSET → ∀ h,
        (∃ b ∈ bs, b.status = MB_SUCCESS ∧ S.contains b.first ∧ S.contains b.last ∧
            b.first ≤ h ∧ h ≤ b.last)
          ↔ (in_range r h ∧ S.live h)) ∧
      (∀ b ∈ bs, b.status = MB_SUCCESS → ∀ h, b.first ≤ h → h ≤ b.last →
        TYPE_FROM_HANDLE sz h < MBENTITYSET) := by
  by_cases hne : r = []
  · subst hne
    refine ⟨[], ?_, by simp, by simp, ?_, by simp⟩
    · unfold iterate
      rw [init_empty]
      simp
    · intro S _ _ h
      simp [in_range]
  obtain ⟨st, rc, hinit, hinv, hfacts, hrc, hri, hst⟩ :=
    init_spec sz MBMAXTYPE MBENTITYSET hsz hES hm hr hne
  obtain ⟨bs, hbs, hpw, hall, hcov⟩ :=
    blocks_from_spec hsz hES hm hr hnt (last_handle r + 1) st rc hinv hfacts
      (by have := hinv.2.1.2.2.1; omega)
  refine ⟨bs, ?_, hpw, fun b hb => (hall b hb).1, ?_, ?_⟩
  · unfold iterate
    rw [hinit]
    simp only
    rw [if_neg hrc]
    exact hbs
  rotate_left
  · intro b hb hsucc h h1 h2
    obtain ⟨st1, rc1, hreach, hblock⟩ :=
      blocks_from_reach (last_handle r + 1) st rc bs (Reach.init hinit hrc) hbs b hb
    obtain ⟨s, hs, hseq, hlive⟩ := (hall b hb).2.1 hsucc
    rw [hblock] at hseq
    exact success_type hsz hES hm hr hreach hs hseq (hlive h h1 h2).1
  intro S hS hty h
  obtain ⟨p, rest, hp⟩ := List.exists_cons_of_ne_nil hne
  constructor
  · rintro ⟨b, hb, hsucc, hc1, _, h1, h2⟩
    obtain ⟨hfl, hok, _⟩ := hall b hb
    obtain ⟨s, hs, _, hlive⟩ := hok hsucc
    have hbf := (hlive b.first (le_refl _) hfl).1
    have := contains_unique hm hS hs hc1 hbf
    subst this
    refine ⟨?_, hlive h h1 h2⟩
    have := (hcov h).mp ⟨b, hb, h1, h2⟩
    rw [hri] at this
    exact this.1
  · rintro ⟨hin, hlive⟩
    have hge : st.mStartHandle ≤ h := by
      rw [hst, hp]
      simp only [node_pair, List.headD_cons]
      exact in_range_ge_first rest p (hp ▸ hr) h (hp ▸ hin)
    obtain ⟨b, hb, h1, h2⟩ := (hcov h).mpr ⟨by rw [hri]; exact hin, hge⟩
    obtain ⟨hfl, hok, hbad⟩ := hall b hb
    by_cases hsucc : b.status = MB_SUCCESS
    · obtain ⟨s, hs, _, hl⟩ := hok hsucc
      have := contains_unique hm hS hs hlive.1 (hl h h1 h2).1
      subst this
      exact ⟨b, hb, hsucc, (hl b.first (le_refl _) hfl).1, (hl b.last hfl (le_refl _)).1, h1, h2⟩
    · exact absurd hlive (hbad hsucc h h1 h2 S hS hty)

/-- Witness of C5 (amended): vertices 1..10 with 3, 4, 5 deleted, range 1..10,
32-bit handles. -/
theorem C5_iteration_covers_live_witness :
    ∃ bs, iterate 4 15 11 ⟨[vertices_1_10_del_3_4_5]⟩ [(1, 10)] (last_handle [(1, 10)] + 1)
        = some bs ∧
      bs.Pairwise (fun a b => a.last < b.first) ∧ (∀ b ∈ bs, b.first ≤ b.last) ∧
      (∀ S ∈ (⟨[vertices_1_10_del_3_4_5]⟩ : EntitySequenceManager).sequences,
        TYPE_FROM_HANDLE 4 S.start_handle < 11 → ∀ h,
        (∃ b ∈ bs, b.status = MB_SUCCESS ∧ S.contains b.first ∧ S.contains b.last ∧
            b.first ≤ h ∧ h ≤ b.last)
          ↔ (in_range [(1, 10)] h ∧ S.live h)) ∧
      (∀ b ∈ bs, b.status = MB_SUCCESS → ∀ h, b.first ≤ h → h ≤ b.last →
        TYPE_FROM_HANDLE 4 h < 11) :=
  C5_iteration_covers_live 4 15 11 ⟨[vertices_1_10_del_3_4_5]⟩ [(1, 10)]
    (by decide) (by decide) (by decide) (by decide) (by decide)

/-- C5 as stated fails: entity sets 1..3 live in a sequence of their own, range
of sets 1..3 (32-bit handles).  The iteration returns the single block with
`MB_TYPE_OUT_OF_RANGE`, so no `MB_SUCCESS` block holds set 1, although set 1 is
a handle of the range that is live in the sequence. -/
theorem C5_counterexample :
    MgrWF 4 ⟨[⟨0xB0000001, [false, false, false]⟩]⟩ ∧
    RangeWF 4 [(0xB0000001, 0xB0000003)] ∧
    NoTruncation ⟨[⟨0xB0000001, [false, false, false]⟩]⟩ [(0xB0000001, 0xB0000003)] ∧
    iterate 4 15 11 ⟨[⟨0xB0000001, [false, false, false]⟩]⟩ [(0xB0000001, 0xB0000003)] 1
      = some [⟨MB_TYPE_OUT_OF_RANGE, none, 0xB0000001, 0xB0000003⟩] ∧
    in_range [(0xB0000001, 0xB0000003)] 0xB0000001 ∧
    (⟨0xB0000001, [false, false, false]⟩ : MBEntitySequence).live 0xB0000001 := by
  decide


/-! ### Blocks returned with `MB_SUCCESS` (C6) -/

/-- C6, failing input.  Vertices 1..10 live in one sequence; the range is the
single pair from vertex 1 to hex 5 (32-bit handles), respectively from vertex 1
to edge 5 (64-bit handles).  The end index `mEndHandle - start handle` does not
fit `int`: it becomes negative, respectively 4, the test `end_index >= freeIndex`
fails and `init` returns `MB_SUCCESS` with the block untrimmed, although handle
11 of the block is in no sequence. -/
theorem C6_failing_input :
    MgrWF 4 ⟨[vertices_1_10]⟩ ∧ RangeWF 4 [(1, 0x90000005)] ∧
    toInt32 (handleSub 4 0x90000005 1) = -1879048188 ∧
    init 4 15 11 (MBRangeSeqIntersectIter.new ⟨[vertices_1_10]⟩)
        (MBRange.begin [(1, 0x90000005)]) (MBRange.end_ [(1, 0x90000005)])
      = some (⟨⟨[vertices_1_10]⟩, some vertices_1_10, [(1, 0x90000005)],
                1, 0x90000005, 0x90000005, 10⟩, MB_SUCCESS) ∧
    MgrWF 8 ⟨[vertices_1_10]⟩ ∧ RangeWF 8 [(1, 0x1000000000000005)] ∧
    toInt32 (handleSub 8 0x1000000000000005 1) = 4 ∧
    init 8 15 11 (MBRangeSeqIntersectIter.new ⟨[vertices_1_10]⟩)
        (MBRange.begin [(1, 0x1000000000000005)]) (MBRange.end_ [(1, 0x1000000000000005)])
      = some (⟨⟨[vertices_1_10]⟩, some vertices_1_10, [(1, 0x1000000000000005)],
                1, 0x1000000000000005, 0x1000000000000005, 10⟩, MB_SUCCESS) ∧
    ¬ vertices_1_10.contains 11 := by
  decide

/-! ### Spans of deleted entities (C8) -/

/-- Deleted span without truncation: when the block start is a free (deleted)
slot of its sequence `S`, of type below `MBENTITYSET`, and no conversion to
`int` truncates, `init` or `step` returns `MB_ENTITY_NOT_FOUND` with `S` as the
sequence and a block that consists only of free slots of `S`; the block ends at
the end the block was given (the end of the current pair, capped at the last
handle) or, when that comes first, at the end of the consecutive deleted span
(the slot after the block is then not free). -/
theorem deleted_span_no_truncation (sz MBMAXTYPE MBENTITYSET : Nat) (m : EntitySequenceManager)
    (r : MBRange) (st : MBRangeSeqIntersectIter) (rc : MBErrorCode) (S : MBEntitySequence)
    (hsz : 0 < sz) (hES : MBENTITYSET ≤ MBMAXTYPE) (hm : MgrWF sz m) (hr : RangeWF sz r)
    (hnt : NoTruncation m r)
    (hreach : Reach sz MBMAXTYPE MBENTITYSET m r st rc)
    (hS : S ∈ m.sequences) (hc : S.contains st.mStartHandle)
    (hfree : S.is_free (st.mStartHandle - S.start_handle) = true)
    (hty : TYPE_FROM_HANDLE sz st.mStartHandle < MBENTITYSET) :
    rc = MB_ENTITY_NOT_FOUND ∧ st.mSequence = some S ∧
    (∀ h, st.mStartHandle ≤ h → h ≤ st.mEndHandle →
      S.contains h ∧ S.is_free (h - S.start_handle) = true) ∧
    (st.mEndHandle = cand_end st ∨
      (st.mEndHandle < cand_end st ∧ S.is_free (st.mEndHandle + 1 - S.start_handle) = false)) := by
  obtain ⟨hinv, hfacts, _⟩ := reach_inv hsz hES hm hr hreach
  obtain ⟨hb1, hb2, hb3⟩ := cand_end_bounds hr hinv.2.1
  have hse := hinv.2.2.1
  have hec := hinv.2.2.2.1
  rcases hfacts with ⟨_, h2, _⟩ | ⟨_, _, _, h4, _⟩ | ⟨s, hseq, hs, hcs, hcase⟩
  · omega
  · exact absurd hc (h4 S hS)
  have := contains_unique hm hS hs hc hcs
  subst this
  obtain ⟨hw1, hw2, hw3, hw4⟩ := hm.1 S hS
  have hc2 := hc
  unfold MBEntitySequence.contains at hc2
  -- the current pair is a pair of the range, so the end index fits `int`
  have hnt1 : cand_end st - S.start_handle < 2 ^ 31 := by
    obtain ⟨p, rest, hp⟩ := List.exists_cons_of_ne_nil hinv.2.1.2.1
    have hpr : p ∈ r := hinv.2.1.1.subset (by rw [hp]; simp)
    have hfirst := hinv.2.1.2.2.2.1
    rw [hp] at hb1 hfirst
    simp only [node_pair, List.headD_cons] at hb1 hfirst
    have := hnt p hpr S hS (by omega) (by omega)
    omega
  have h32 : toInt32 (cand_end st - S.start_handle)
      = ((cand_end st - S.start_handle : Nat) : Int) := toInt32_of_lt _ hnt1
  rw [h32] at hcase
  rcases hcase with ⟨_, hcur, hlt, _⟩ | ⟨h1, fn, hf, hle, hall, hcase2⟩
  · have := hcur.2.2.2 (st.mStartHandle - S.start_handle) (le_refl _) hlt
    rw [hfree] at this
    exact absurd this (by decide)
  have hfn : fn < S.free.length := is_free_lt S fn (hall fn hle (le_refl _))
  refine ⟨h1, hseq, ?_, ?_⟩
  · intro h hh1 hh2
    have hle2 : h - S.start_handle ≤ fn := by
      rcases hcase2 with ⟨_, he, _⟩ | ⟨hge, he, hor⟩
      · omega
      · rcases hor with h | h <;> omega
    refine ⟨?_, hall (h - S.start_handle) (by omega) hle2⟩
    unfold MBEntitySequence.contains
    omega
  · rcases hcase2 with ⟨hlt, he, hnf⟩ | ⟨_, he, _⟩
    · right
      refine ⟨by omega, ?_⟩
      have : st.mEndHandle + 1 - S.start_handle = fn + 1 := by omega
      rw [this]
      exact hnf
    · left
      exact he

/-- The scenario of the specification: vertices 1..10 with 3, 4, 5 deleted,
range 1..10 (32-bit handles) gives the blocks (seq, 1, 2), the hole (3, 5) with
`MB_ENTITY_NOT_FOUND`, and (seq, 6, 10); the state after the first `step`,
whose block starts at the deleted vertex 3, is an instance of
`deleted_span_no_truncation`. -/
theorem deleted_span_scenario :
    iterate 4 15 11 ⟨[vertices_1_10_del_3_4_5]⟩ [(1, 10)] 3
      = some [⟨MB_SUCCESS, some vertices_1_10_del_3_4_5, 1, 2⟩,
              ⟨MB_ENTITY_NOT_FOUND, some vertices_1_10_del_3_4_5, 3, 5⟩,
              ⟨MB_SUCCESS, some vertices_1_10_del_3_4_5, 6, 10⟩] ∧
    (MB_ENTITY_NOT_FOUND = MB_ENTITY_NOT_FOUND ∧
      some vertices_1_10_del_3_4_5 = some vertices_1_10_del_3_4_5 ∧
      (∀ h, 3 ≤ h → h ≤ 5 →
        vertices_1_10_del_3_4_5.contains h ∧
          vertices_1_10_del_3_4_5.is_free (h - vertices_1_10_del_3_4_5.start_handle) = true) ∧
      (5 = cand_end ⟨⟨[vertices_1_10_del_3_4_5]⟩, some vertices_1_10_del_3_4_5, [(1, 10)],
              3, 5, 10, 4⟩ ∨
        (5 < cand_end ⟨⟨[vertices_1_10_del_3_4_5]⟩, some vertices_1_10_del_3_4_5, [(1, 10)],
              3, 5, 10, 4⟩ ∧
          vertices_1_10_del_3_4_5.is_free (5 + 1 - vertices_1_10_del_3_4_5.start_handle)
            = false))) :=
  ⟨by
      have h0 : init 4 15 11 (MBRangeSeqIntersectIter.new ⟨[vertices_1_10_del_3_4_5]⟩)
          (MBRange.begin [(1, 10)]) (MBRange.end_ [(1, 10)])
          = some (⟨⟨[vertices_1_10_del_3_4_5]⟩, some vertices_1_10_del_3_4_5, [(1, 10)], 1, 2, 10, 2⟩,
              MB_SUCCESS) := by rfl
      have h1 : step 4 15 11
          ⟨⟨[vertices_1_10_del_3_4_5]⟩, some vertices_1_10_del_3_4_5, [(1, 10)], 1, 2, 10, 2⟩
          = some (⟨⟨[vertices_1_10_del_3_4_5]⟩, some vertices_1_10_del_3_4_5, [(1, 10)], 3, 5, 10, 4⟩,
              MB_ENTITY_NOT_FOUND) := by rfl
      have h2 : step 4 15 11
          ⟨⟨[vertices_1_10_del_3_4_5]⟩, some vertices_1_10_del_3_4_5, [(1, 10)], 3, 5, 10, 4⟩
          = some (⟨⟨[vertices_1_10_del_3_4_5]⟩, some vertices_1_10_del_3_4_5, [(1, 10)], 6, 10, 10, 10⟩,
              MB_SUCCESS) := by rfl
      simp [iterate, h0, blocks_from, is_at_end, h1, h2, block_of],
    deleted_span_no_truncation 4 15 11 ⟨[vertices_1_10_del_3_4_5]⟩ [(1, 10)]
      ⟨⟨[vertices_1_10_del_3_4_5]⟩, some vertices_1_10_del_3_4_5, [(1, 10)], 3, 5, 10, 4⟩
      MB_ENTITY_NOT_FOUND vertices_1_10_del_3_4_5
      (by decide) (by decide) (by decide) (by decide) (by decide)
      (@Reach.step 4 15 11 ⟨[vertices_1_10_del_3_4_5]⟩ [(1, 10)]
        ⟨⟨[vertices_1_10_del_3_4_5]⟩, some vertices_1_10_del_3_4_5, [(1, 10)], 1, 2, 10, 2⟩
        ⟨⟨[vertices_1_10_del_3_4_5]⟩, some vertices_1_10_del_3_4_5, [(1, 10)], 3, 5, 10, 4⟩
        MB_SUCCESS MB_ENTITY_NOT_FOUND
        (Reach.init (by rfl) (by decide)) (by rfl) (by rfl))
      (by decide) (by decide) (by decide) (by decide)⟩

/-- A deleted entity set is not looked up: entity sets 1..3 in a sequence of
their own with set 2 deleted, range of sets 2..3 (32-bit handles).  The block
start, set 2, is a free slot of that sequence, and `init` returns
`MB_TYPE_OUT_OF_RANGE` without a sequence, the type test coming before any
lookup. -/
theorem deleted_set_type_out_of_range :
    MgrWF 4 ⟨[⟨0xB0000001, [false, true, false]⟩]⟩ ∧
    RangeWF 4 [(0xB0000002, 0xB0000003)] ∧
    (⟨0xB0000001, [false, true, false]⟩ : MBEntitySequence).contains 0xB0000002 ∧
    (⟨0xB0000001, [false, true, false]⟩ : MBEntitySequence).is_free (0xB0000002 - 0xB0000001)
      = true ∧
    init 4 15 11 (MBRangeSeqIntersectIter.new ⟨[⟨0xB0000001, [false, true, false]⟩]⟩)
        (MBRange.begin [(0xB0000002, 0xB0000003)]) (MBRange.end_ [(0xB0000002, 0xB0000003)])
      = some (⟨⟨[⟨0xB0000001, [false, true, false]⟩]⟩, none, [(0xB0000002, 0xB0000003)],
                0xB0000002, 0xB0000003, 0xB0000003, 0⟩, MB_TYPE_OUT_OF_RANGE) ∧
    (⟨0xB0000001, [false, true, false]⟩ : MBEntitySequence).is_free (0xB0000003 - 0xB0000001)
      = false := by
  decide

/-- The deleted span from vertex 3 over the pair from vertex 3 to hex 5, 32-bit
handles: `init` leaves the end of the block at the end of the pair. -/
theorem deleted_span_truncated_32 :
    init 4 15 11 (MBRangeSeqIntersectIter.new ⟨[vertices_1_10_del_3_4_5]⟩)
        (MBRange.begin [(3, 0x90000005)]) (MBRange.end_ [(3, 0x90000005)])
      = some (⟨⟨[vertices_1_10_del_3_4_5]⟩, some vertices_1_10_del_3_4_5, [(3, 0x90000005)],
                3, 0x90000005, 0x90000005, 2⟩, MB_ENTITY_NOT_FOUND) := by
  rfl

set_option maxHeartbeats 4000000 in
/-- The deleted span from vertex 3 over the pair from vertex 3 to edge 5, 64-bit
handles: `init` leaves the end of the block at the end of the pair. -/
theorem deleted_span_truncated_64 :
    init 8 15 11 (MBRangeSeqIntersectIter.new ⟨[vertices_1_10_del_3_4_5]⟩)
        (MBRange.begin [(3, 0x1000000000000005)]) (MBRange.end_ [(3, 0x1000000000000005)])
      = some (⟨⟨[vertices_1_10_del_3_4_5]⟩, some vertices_1_10_del_3_4_5,
                [(3, 0x1000000000000005)], 3, 0x1000000000000005, 0x1000000000000005, 4⟩,
              MB_ENTITY_NOT_FOUND) := by
  decide

/-- C8, failing input.  Vertices 1..10 in one sequence with 3, 4 and 5 deleted;
the range is the single pair from vertex 3 to hex 5 (32-bit handles),
respectively from vertex 3 to edge 5 (64-bit handles).  The block start, vertex
3, is a deleted slot of its sequence.  In `find_deleted_range` the end index
`mEndHandle - start handle` does not fit `int`: it becomes negative,
respectively 4, the loop `while (freeIndex < end_index)` does not reach the
break in the deleted span, and `init` returns `MB_ENTITY_NOT_FOUND` with the
block untrimmed, from vertex 3 to the end of the pair, although the deleted
span ends at vertex 5 and vertex 6 of the block is not a free slot. -/
theorem C8_failing_input :
    MgrWF 4 ⟨[vertices_1_10_del_3_4_5]⟩ ∧ RangeWF 4 [(3, 0x90000005)] ∧
    vertices_1_10_del_3_4_5.contains 3 ∧
    vertices_1_10_del_3_4_5.is_free (3 - vertices_1_10_del_3_4_5.start_handle) = true ∧
    toInt32 (handleSub 4 0x90000005 1) = -1879048188 ∧
    init 4 15 11 (MBRangeSeqIntersectIter.new ⟨[vertices_1_10_del_3_4_5]⟩)
        (MBRange.begin [(3, 0x90000005)]) (MBRange.end_ [(3, 0x90000005)])
      = some (⟨⟨[vertices_1_10_del_3_4_5]⟩, some vertices_1_10_del_3_4_5, [(3, 0x90000005)],
                3, 0x90000005, 0x90000005, 2⟩, MB_ENTITY_NOT_FOUND) ∧
    MgrWF 8 ⟨[vertices_1_10_del_3_4_5]⟩ ∧ RangeWF 8 [(3, 0x1000000000000005)] ∧
    toInt32 (handleSub 8 0x1000000000000005 1) = 4 ∧
    init 8 15 11 (MBRangeSeqIntersectIter.new ⟨[vertices_1_10_del_3_4_5]⟩)
        (MBRange.begin [(3, 0x1000000000000005)]) (MBRange.end_ [(3, 0x1000000000000005)])
      = some (⟨⟨[vertices_1_10_del_3_4_5]⟩, some vertices_1_10_del_3_4_5,
                [(3, 0x1000000000000005)], 3, 0x1000000000000005, 0x1000000000000005, 4⟩,
              MB_ENTITY_NOT_FOUND) ∧
    vertices_1_10_del_3_4_5.is_free (5 - vertices_1_10_del_3_4_5.start_handle) = true ∧
    vertices_1_10_del_3_4_5.contains 6 ∧
    vertices_1_10_del_3_4_5.is_free (6 - vertices_1_10_del_3_4_5.start_handle) = false :=
  ⟨by decide, by decide, by decide, by decide, by decide, deleted_span_truncated_32,
    by decide, by decide, by decide, deleted_span_truncated_64, by decide, by decide,
    by decide⟩

/-! ### Handle codec: handle 0 and tag handles (C12, C13, C14) -/

/-- C12 (amended). A successful encode of an id that is at least `MB_START_ID`
never produces handle 0: for every `type` and every `id ≥ MB_START_ID`, if
`CREATE_HANDLE(type, id, err)` leaves `err = 0` then the returned handle is not
0.  (With `id = 0` the handle of type 0 is 0.) -/
theorem C12_handle_nonzero (sz MBMAXTYPE : Nat) (type : Int) (id : Nat) (hsz : 0 < sz)
    (hid : MB_START_ID ≤ id) (herr : (CREATE_HANDLE sz MBMAXTYPE type id).2 = 0) :
    (CREATE_HANDLE sz MBMAXTYPE type id).1 ≠ 0 := by
  have hp : 0 < 2 ^ MB_HANDLE_SHIFT_WIDTH sz := Nat.two_pow_pos _
  have hW := two_pow_bits sz hsz
  unfold MB_START_ID at hid
  unfold CREATE_HANDLE at herr ⊢
  by_cases hc : id > handleNot sz (MB_HANDLE_MASK sz) ∨ type > (MBMAXTYPE : Int)
  · rw [if_pos hc] at herr
    simp at herr
  · rw [if_neg hc]
    simp only
    push_neg at hc
    have hid2 := hc.1
    rw [end_id_eq sz hsz] at hid2
    generalize (type % (2 ^ (8 * sz) : Int)).toNat = K
    rw [Nat.shiftLeft_eq, hW, Nat.mul_mod_mul_right]
    have hm : K % 16 < 16 := Nat.mod_lt _ (by decide)
    generalize K % 16 = k at hm
    have hk : k * 2 ^ MB_HANDLE_SHIFT_WIDTH sz ≤ 15 * 2 ^ MB_HANDLE_SHIFT_WIDTH sz :=
      Nat.mul_le_mul_right _ (by omega)
    rw [Nat.mod_eq_of_lt (by omega)]
    omega

/-- Witness of C12 (amended): the unit test's `CREATE_HANDLE(1, 16, err)`. -/
theorem C12_handle_nonzero_witness : (CREATE_HANDLE 4 15 1 16).1 ≠ 0 :=
  C12_handle_nonzero 4 15 1 16 (by decide) (by decide) (by decide)

/-- C12 as stated fails: `CREATE_HANDLE(0, 0, err)` (type vertex, id 0) leaves
`err = 0` and returns handle 0. -/
theorem C12_counterexample : CREATE_HANDLE 4 15 0 0 = (0, 0) := by
  decide

/-- C13, failing input.  `TAG_HANDLE_FROM_ID(2, Sparse)` is `2 | 1 = 3`: the
storage class lands in the id bits, not in the property byte, and
`ID_FROM_TAG_HANDLE` gives back 3, not 2. -/
theorem C13_failing_input :
    (2 : Nat) ≤ TAG_ID_MASK ∧
    TAG_HANDLE_FROM_ID 2 MBTagType.MB_TAG_SPARSE = 3 ∧
    ID_FROM_TAG_HANDLE (TAG_HANDLE_FROM_ID 2 MBTagType.MB_TAG_SPARSE) = 3 := by
  decide

/-- C14, failing input.  For tag id 3 the four storage classes give one and the
same handle, 3, and its property bits `handle & TAG_PROP_MASK` are 0 for every
class. -/
theorem C14_failing_input :
    (3 : Nat) ≤ TAG_ID_MASK ∧
    TAG_HANDLE_FROM_ID 3 MBTagType.MB_TAG_BIT = 3 ∧
    TAG_HANDLE_FROM_ID 3 MBTagType.MB_TAG_SPARSE = 3 ∧
    TAG_HANDLE_FROM_ID 3 MBTagType.MB_TAG_DENSE = 3 ∧
    TAG_HANDLE_FROM_ID 3 MBTagType.MB_TAG_MESH = 3 ∧
    TAG_HANDLE_FROM_ID 3 MBTagType.MB_TAG_SPARSE &&& TAG_PROP_MASK = 0 := by
  decide

/-! ### The iterator advances and terminates (C11) -/

/-- A handle of the range at or after the first handle of the pair the cursor
stands on belongs to the rest of the range from that pair on. -/
theorem in_range_of_suffix {sz : Nat} {r : MBRange} (hr : RangeWF sz r) {p : Nat × Nat}
    {rest : MBRange} (hs : (p :: rest) <:+ r) {h : Nat} (hin : in_range r h) (hge : p.1 ≤ h) :
    in_range (p :: rest) h := by
  obtain ⟨pre, rfl⟩ := hs
  obtain ⟨x, hx, h1, h2⟩ := hin
  rcases List.mem_append.mp hx with hpre | hl
  · have := (List.pairwise_append.mp hr.2).2.2 x hpre p (by simp)
    omega
  · exact ⟨x, hl, h1, h2⟩

theorem in_range_suffix {r l : MBRange} (hs : l <:+ r) {h : Nat} (hin : in_range l h) :
    in_range r h := by
  obtain ⟨x, hx, h1, h2⟩ := hin
  exact ⟨x, hs.subset hx, h1, h2⟩

/-- The blocks from a reached state on, whether or not a conversion to `int`
truncates: the iteration ends, the blocks are non-empty, ascending and
disjoint, and together they hold exactly the handles of the rest of the range
from the block start on. -/
theorem blocks_from_cover {sz MBMAXTYPE MBENTITYSET : Nat} {m : EntitySequenceManager}
    {r : MBRange} (hsz : 0 < sz) (hES : MBENTITYSET ≤ MBMAXTYPE) (hm : MgrWF sz m)
    (hr : RangeWF sz r) :
    ∀ (n : Nat) (st : MBRangeSeqIntersectIter) (rc : MBErrorCode), Inv m r st →
      st.mLastHandle - st.mEndHandle < n →
      ∃ bs, blocks_from sz MBMAXTYPE MBENTITYSET n st rc = some bs ∧
        bs.Pairwise (fun a b => a.last < b.first) ∧
        (∀ b ∈ bs, b.first ≤ b.last) ∧
        (∀ h, (∃ b ∈ bs, b.first ≤ h ∧ h ≤ b.last)
          ↔ (in_range st.rangeIter h ∧ st.mStartHandle ≤ h)) := by
  intro n
  induction n with
  | zero => intro st rc _ h; omega
  | succ k ih =>
    intro st rc hinv hmeas
    obtain ⟨hb1, hb2, hb3⟩ := cand_end_bounds hr hinv.2.1
    obtain ⟨hmgr, ⟨hsuf, hne, hlast, hfirst, hsc⟩, hse, hec, hci⟩ := hinv
    have hinv : Inv m r st := ⟨hmgr, ⟨hsuf, hne, hlast, hfirst, hsc⟩, hse, hec, hci⟩
    have hw := hr.suffix hsuf
    unfold blocks_from
    cases hl : st.rangeIter with
    | nil => exact absurd hl hne
    | cons p rest =>
    rw [hl] at hw hfirst hsuf
    have hp := hw.1 p (by simp)
    have hlast2 : st.mLastHandle = last_handle (p :: rest) := by
      rw [hlast]
      exact last_handle_suffix hsuf (by simp)
    have hcp : cand_end st ≤ p.2 := by
      rw [hl] at hb1
      simpa [node_pair] using hb1
    simp only [node_pair, List.headD_cons] at hfirst
    by_cases hend : is_at_end st = true
    · rw [hend]
      simp only [if_true]
      have heq : st.mEndHandle = st.mLastHandle := by
        unfold is_at_end at hend
        simpa using hend
      refine ⟨_, rfl, by simp, ?_, ?_⟩
      · intro b hb
        simp only [List.mem_singleton] at hb
        subst hb
        exact hse
      · intro h
        simp only [List.mem_singleton, exists_eq_left, block_of]
        constructor
        · rintro ⟨h1, h2⟩
          exact ⟨⟨p, by simp, by omega, by omega⟩, h1⟩
        · rintro ⟨hin, h1⟩
          have := in_range_le_last rest p hw h hin
          omega
    · have hend2 : is_at_end st = false := by simpa using hend
      rw [hend2]
      simp only [Bool.false_eq_true, if_false]
      have hneq : st.mEndHandle ≠ st.mLastHandle := by
        unfold is_at_end at hend2
        simpa using hend2
      obtain ⟨st1, rc1, hstep, hinv1, _, _, hlast1, hmove⟩ :=
        step_spec sz MBMAXTYPE MBENTITYSET hsz hES hm hr st hinv hend2
      rw [hstep]
      simp only
      have hse1 := hinv1.2.2.1
      obtain ⟨_, hb21, _⟩ := cand_end_bounds hr hinv1.2.1
      have hec1 := hinv1.2.2.2.1
      have hgt : st.mEndHandle < st1.mStartHandle := by
        rcases hmove with ⟨he, hri, hne1, hst⟩ | ⟨he, hri, hst⟩
        · rw [hl] at hri he hst
          simp only [List.tail_cons] at hri hst
          cases hrest : rest with
          | nil => rw [hrest] at hri; exact absurd hri hne1
          | cons q rest2 =>
            rw [hrest] at hw hst
            have := range_next_first hw
            simp only [node_pair, List.headD_cons] at he hst
            omega
        · omega
      obtain ⟨bs, hbs, hpw, hall, hcov⟩ := ih st1 rc1 hinv1 (by omega)
      rw [hbs]
      simp only
      refine ⟨_, rfl, ?_, ?_, ?_⟩
      · rw [List.pairwise_cons]
        refine ⟨?_, hpw⟩
        intro b hb
        have hbf := hall b hb
        have := (hcov b.first).mp ⟨b, hb, le_refl _, hbf⟩
        simp only [block_of]
        omega
      · intro b hb
        rcases List.mem_cons.mp hb with rfl | hb2
        · exact hse
        · exact hall b hb2
      · intro h
        simp only [List.exists_mem_cons_iff, block_of] at *
        rw [hcov h]
        rcases hmove with ⟨he, hri, hne1, hst⟩ | ⟨he, hri, hst⟩
        · rw [hl] at hri he hst
          simp only [List.tail_cons] at hri hst
          simp only [node_pair, List.headD_cons] at he
          rw [hri, in_range_cons]
          cases hrest : rest with
          | nil => rw [hrest] at hri; exact absurd hri hne1
          | cons q rest2 =>
            rw [hrest] at hw hst
            have hnf := range_next_first hw
            simp only [node_pair, List.headD_cons] at hst
            have hwq : RangeWF sz (q :: rest2) := hw.suffix (List.suffix_cons p _)
            have hge := in_range_ge_first rest2 q hwq h
            constructor
            · rintro (⟨h1, h2⟩ | ⟨hin, h1⟩)
              · exact ⟨Or.inl ⟨by omega, by omega⟩, h1⟩
              · exact ⟨Or.inr hin, by omega⟩
            · rintro ⟨(⟨h1, h2⟩ | hin), h3⟩
              · exact Or.inl ⟨h3, by omega⟩
              · exact Or.inr ⟨hin, by have := hge hin; omega⟩
        · rw [hri, hl, in_range_cons]
          constructor
          · rintro (⟨h1, h2⟩ | ⟨hin, h1⟩)
            · exact ⟨Or.inl ⟨by omega, by omega⟩, h1⟩
            · exact ⟨hin, by omega⟩
          · rintro ⟨hin, h3⟩
            by_cases hh : h ≤ st.mEndHandle
            · exact Or.inl ⟨h3, hh⟩
            · exact Or.inr ⟨hin, by omega⟩

/-- C11. The iterator always advances and terminates.  For every state reached
by iterating a well-formed range over a well-formed manager that is not at the
end, `step` returns with `MB_SUCCESS`, `MB_ENTITY_NOT_FOUND` or
`MB_TYPE_OUT_OF_RANGE`, sets `mStartHandle` to the smallest handle of the range
greater than the previous `mEndHandle`, and leaves
`mStartHandle ≤ mEndHandle ≤ mLastHandle`; and the full iteration reaches
`is_at_end` within `last handle + 1` blocks, which together hold exactly the
handles of the range, so that none is skipped. -/
theorem C11_step_advances (sz MBMAXTYPE MBENTITYSET : Nat) (m : EntitySequenceManager)
    (r : MBRange) (st : MBRangeSeqIntersectIter) (rc : MBErrorCode)
    (hsz : 0 < sz) (hES : MBENTITYSET ≤ MBMAXTYPE) (hm : MgrWF sz m) (hr : RangeWF sz r)
    (hreach : Reach sz MBMAXTYPE MBENTITYSET m r st rc) (hend : is_at_end st = false) :
    (∃ st1 rc1, step sz MBMAXTYPE MBENTITYSET st = some (st1, rc1) ∧
      (rc1 = MB_SUCCESS ∨ rc1 = MB_ENTITY_NOT_FOUND ∨ rc1 = MB_TYPE_OUT_OF_RANGE) ∧
      in_range r st1.mStartHandle ∧ st.mEndHandle < st1.mStartHandle ∧
      (∀ h, in_range r h → st.mEndHandle < h → st1.mStartHandle ≤ h) ∧
      st1.mStartHandle ≤ st1.mEndHandle ∧ st1.mEndHandle ≤ st1.mLastHandle) ∧
    (∃ bs, iterate sz MBMAXTYPE MBENTITYSET m r (last_handle r + 1) = some bs ∧
      bs.Pairwise (fun a b => a.last < b.first) ∧
      ∀ h, in_range r h ↔ ∃ b ∈ bs, b.first ≤ h ∧ h ≤ b.last) := by
  obtain ⟨hinv, _, _⟩ := reach_inv hsz hES hm hr hreach
  constructor
  · obtain ⟨st1, rc1, hstep, hinv1, hfacts1, _, hlast1, hmove⟩ :=
      step_spec sz MBMAXTYPE MBENTITYSET hsz hES hm hr st hinv hend
    obtain ⟨_, hb21, _⟩ := cand_end_bounds hr hinv1.2.1
    obtain ⟨hb1, hb2, _⟩ := cand_end_bounds hr hinv.2.1
    have hse1 := hinv1.2.2.1
    have hec1 := hinv1.2.2.2.1
    have hse := hinv.2.2.1
    have hec := hinv.2.2.2.1
    have hfirst := hinv.2.1.2.2.2.1
    have hsuf := hinv.2.1.1
    have hneq : st.mEndHandle ≠ st.mLastHandle := by
      unfold is_at_end at hend
      simpa using hend
    refine ⟨st1, rc1, hstep, ?_, ?_, ?_, ?_, hse1, by omega⟩
    · rcases hfacts1 with ⟨h, _⟩ | ⟨h, _⟩ | ⟨_, _, _, _, ⟨h, _⟩ | ⟨h, _⟩⟩
      · exact Or.inr (Or.inr h)
      · exact Or.inr (Or.inl h)
      · exact Or.inl h
      · exact Or.inr (Or.inl h)
    all_goals
      cases hl : st.rangeIter with
      | nil => exact absurd hl hinv.2.1.2.1
      | cons p rest =>
      rw [hl] at hsuf hfirst hb1
      have hw := hr.suffix hsuf
      have hp := hw.1 p (by simp)
      simp only [node_pair, List.headD_cons] at hfirst hb1
      rcases hmove with ⟨he, hri, hne1, hst⟩ | ⟨he, hri, hst⟩
      · rw [hl] at hri he hst
        simp only [List.tail_cons] at hri hst
        simp only [node_pair, List.headD_cons] at he
        cases hrest : rest with
        | nil => rw [hrest] at hri; exact absurd hri hne1
        | cons q rest2 =>
          rw [hrest] at hw hst hsuf
          have hnf := range_next_first hw
          simp only [node_pair, List.headD_cons] at hst
          have hwq : RangeWF sz (q :: rest2) := hw.suffix (List.suffix_cons p _)
          have hq := hwq.1 q (by simp)
          first
          | exact ⟨q, hsuf.subset (by simp), by omega, by omega⟩
          | omega
          | intro h hin hgt
            have hin2 := in_range_of_suffix hr hsuf hin (by omega)
            rw [in_range_cons] at hin2
            rcases hin2 with ⟨_, h2⟩ | hin3
            · omega
            · have := in_range_ge_first rest2 q hwq h hin3
              omega
      · rw [hl] at he
        simp only [node_pair, List.headD_cons] at he
        first
        | exact ⟨p, hsuf.subset (by simp), by omega, by omega⟩
        | omega
  · by_cases hne : r = []
    · subst hne
      refine ⟨[], ?_, by simp, ?_⟩
      · unfold iterate
        rw [init_empty]
        simp
      · intro h
        simp [in_range]
    obtain ⟨st0, rc0, hinit, hinv0, _, hrc, hri, hst⟩ :=
      init_spec sz MBMAXTYPE MBENTITYSET hsz hES hm hr hne
    obtain ⟨bs, hbs, hpw, _, hcov⟩ :=
      blocks_from_cover hsz hES hm hr (last_handle r + 1) st0 rc0 hinv0
        (by have := hinv0.2.1.2.2.1; omega)
    refine ⟨bs, ?_, hpw, ?_⟩
    · unfold iterate
      rw [hinit]
      simp only
      rw [if_neg hrc]
      exact hbs
    · intro h
      rw [hcov h, hri]
      obtain ⟨p, rest, hp⟩ := List.exists_cons_of_ne_nil hne
      constructor
      · intro hin
        refine ⟨hin, ?_⟩
        rw [hst, hp]
        simp only [node_pair, List.headD_cons]
        exact in_range_ge_first rest p (hp ▸ hr) h (hp ▸ hin)
      · exact fun hin => hin.1

theorem C11_step_advances_witness :
    (∃ st1 rc1,
      step 4 15 11 ⟨⟨[vertices_1_10_del_3_4_5]⟩, some vertices_1_10_del_3_4_5, [(1, 10)],
              1, 2, 10, 2⟩ = some (st1, rc1) ∧
      (rc1 = MB_SUCCESS ∨ rc1 = MB_ENTITY_NOT_FOUND ∨ rc1 = MB_TYPE_OUT_OF_RANGE) ∧
      in_range [(1, 10)] st1.mStartHandle ∧ 2 < st1.mStartHandle ∧
      (∀ h, in_range [(1, 10)] h → 2 < h → st1.mStartHandle ≤ h) ∧
      st1.mStartHandle ≤ st1.mEndHandle ∧ st1.mEndHandle ≤ st1.mLastHandle) ∧
    (∃ bs, iterate 4 15 11 ⟨[vertices_1_10_del_3_4_5]⟩ [(1, 10)] (last_handle [(1, 10)] + 1)
        = some bs ∧
      bs.Pairwise (fun a b => a.last < b.first) ∧
      ∀ h, in_range [(1, 10)] h ↔ ∃ b ∈ bs, b.first ≤ h ∧ h ≤ b.last) :=
  C11_step_advances 4 15 11 ⟨[vertices_1_10_del_3_4_5]⟩ [(1, 10)]
    ⟨⟨[vertices_1_10_del_3_4_5]⟩, some vertices_1_10_del_3_4_5, [(1, 10)], 1, 2, 10, 2⟩
    MB_SUCCESS (by decide) (by decide) (by decide) (by decide)
    (Reach.init (by rfl) (by decide)) rfl

/-! ### Senses of edges and faces (C15 to C20) -/

/-- C15. Sense round trip.  For every geometry entity `e` that is an edge or a
face (`dimension` 1 or 2) with no sense data stored, every entity `w` (an
entity handle is not 0, the value reserved for none) with
`dimension(w) = dimension(e) + 1` and every sense `s` in {-1, 0, 1}: if
`set_sense(e, w, s)` returns `MB_SUCCESS`, then `get_sense(e, w, sense)` on the
tool it leaves returns `MB_SUCCESS` with `sense = s`. -/
theorem C15_sense_round_trip (g g1 : GeomTopoTool) (e w : Nat) (s s0 : Int)
    (hw : w ≠ 0)
    (hde : (dimension g e).2 = 1 ∨ (dimension g e).2 = 2)
    (hdw : (dimension (dimension g e).1 w).2 = (dimension g e).2 + 1)
    (hs : s = -1 ∨ s = 0 ∨ s = 1)
    (hno2 : sparse_get g.mdbImpl.sense2_data e = none)
    (hnoE : sparse_get g.mdbImpl.ents_data e = none)
    (hset : set_sense g e w s = some (g1, MB_SUCCESS)) :
    ∃ g2, get_sense g1 e w s0 = some (g2, MB_SUCCESS, s) := by
  generalize hd : (dimension g e).2 = d at hde hdw
  obtain ⟨hcr, hsde, hg'⟩ := dimension_stored g e d hd (by omega)
  rw [hg'] at hdw
  obtain ⟨_, hsdw, _⟩ := dimension_stored _ w (d + 1) hdw (by omega)
  have hcong : set_sense g e w s
      = set_sense { g with geomTag := TagName.GEOM_DIMENSION.handle } e w s := by
    apply set_sense_congr
    rw [dimension_of_valid { g with geomTag := TagName.GEOM_DIMENSION.handle } e rfl hcr]
    simp only [hsde, Option.getD_some]
    exact Prod.ext hg' hd
  rw [hcong] at hset
  simp only at hsdw
  rcases hde with rfl | rfl
  · norm_num at hsdw
    obtain ⟨h1, h2, h3, h4, h5, h6, h7, h8, h9⟩ :=
      set_sense_edge_new { g with geomTag := TagName.GEOM_DIMENSION.handle } g1 e w s rfl hcr hsde hsdw hs hnoE hset
    simp only at h3
    rw [get_sense_edge g1 e w s0 [w] [s] h1 h2 (h3 ▸ hsde) (h3 ▸ hsdw) (Or.inr ⟨h4, h5⟩)
      h6 h7 h8 h9]
    simp
  · norm_num at hsdw
    obtain ⟨h1, h2, h3, h4, h5, h6⟩ :=
      set_sense_face_new { g with geomTag := TagName.GEOM_DIMENSION.handle } g1 e w s rfl hcr hsde hsdw hw hs hno2 hset
    simp only at h3
    rw [get_sense_face g1 e w s0 h1 h2 (h3 ▸ hsde) (h3 ▸ hsdw) (Or.inr h4) h5, h6]
    have hw0 : ¬ (w = 0) := hw
    rcases hs with rfl | rfl | rfl <;> simp [hw0]

theorem C15_sense_round_trip_witness :
    ∃ g2, get_sense
      ⟨⟨[TagName.GEOM_SENSE_2, TagName.GEOM_DIMENSION], [(10, 1), (20, 2), (30, 3)],
        [(20, (0, 30))], [], [], [], []⟩, 1, 2, 0, 0⟩ 20 30 7 = some (g2, MB_SUCCESS, -1) :=
  C15_sense_round_trip geometry_without_sense_tags _ 20 30 (-1) 7 (by decide) (by decide)
    (by decide) (by decide) (by decide) (by decide) (by decide)

/-- C16. `set_sense(surface, volume, 1)` returns `MB_MULTIPLE_ENTITIES_FOUND`
when the surface already has a forward volume other than `volume`, and
`set_sense(surface, volume, -1)` when it already has a reverse volume other
than `volume`; the stored forward/reverse pairs are then as they were. -/
theorem C16_multiple_entities (g : GeomTopoTool) (surface volume : Nat) (sense : Int)
    (F R : Nat)
    (hds : (dimension g surface).2 = 2)
    (hdv : (dimension (dimension g surface).1 volume).2 = 3)
    (h2 : g.sense2Tag = 0 ∨ g.sense2Tag = TagName.GEOM_SENSE_2.handle)
    (hc2 : TagName.GEOM_SENSE_2 ∈ g.mdbImpl.created)
    (hdata : sparse_get g.mdbImpl.sense2_data surface = some (F, R))
    (hconf : (sense = 1 ∧ F ≠ 0 ∧ F ≠ volume) ∨ (sense = -1 ∧ R ≠ 0 ∧ R ≠ volume)) :
    ∃ g1, set_sense g surface volume sense = some (g1, MB_MULTIPLE_ENTITIES_FOUND) ∧
      g1.mdbImpl.sense2_data = g.mdbImpl.sense2_data ∧
      sparse_get g1.mdbImpl.sense2_data surface = some (F, R) := by
  obtain ⟨hcr, hsde, hg'⟩ := dimension_stored g surface 2 hds (by omega)
  rw [hg'] at hdv
  obtain ⟨_, hsdw, _⟩ := dimension_stored _ volume 3 hdv (by omega)
  have hcong : set_sense g surface volume sense
      = set_sense { g with geomTag := TagName.GEOM_DIMENSION.handle } surface volume sense := by
    apply set_sense_congr
    rw [dimension_of_valid { g with geomTag := TagName.GEOM_DIMENSION.handle } surface rfl hcr]
    simp only [hsde, Option.getD_some]
    exact Prod.ext hg' hds
  rw [hcong]
  simp only at hsdw
  have hnum : toInt32 (ofInt 4 ((3 : Int) - 2)) = 1 := by decide
  have hsr : ¬ (sense < -1 ∨ sense > 1) := by omega
  simp only [set_sense,
    dimension_of_valid { g with geomTag := TagName.GEOM_DIMENSION.handle } surface rfl hcr,
    dimension_of_valid { g with geomTag := TagName.GEOM_DIMENSION.handle } volume rfl hcr,
    hsde, hsdw, Option.getD_some, hnum, hsr]
  obtain ⟨mdb, gt, t2, t3, t4⟩ := g
  simp only at h2 hc2 hdata ⊢
  have hc : check_face_sense_tag ⟨mdb, TagName.GEOM_DIMENSION.handle, t2, t3, t4⟩ true
      = (⟨mdb, TagName.GEOM_DIMENSION.handle, TagName.GEOM_SENSE_2.handle, t3, t4⟩,
          MB_SUCCESS) := by
    unfold check_face_sense_tag Interface.tag_create
    rcases h2 with rfl | rfl <;> simp [hc2, TagName.handle]
  rw [hc]
  unfold tag_get_data
  rcases hconf with ⟨rfl, hF, hFv⟩ | ⟨rfl, hR, hRv⟩
  · simp [hc2, hdata, hF, Ne.symm hFv]
  · simp [hc2, hdata, hR, Ne.symm hRv]

theorem C16_multiple_entities_witness :
    ∃ g1, set_sense face_20_in_volumes_30_31 20 31 1
        = some (g1, MB_MULTIPLE_ENTITIES_FOUND) ∧
      g1.mdbImpl.sense2_data = face_20_in_volumes_30_31.mdbImpl.sense2_data ∧
      sparse_get g1.mdbImpl.sense2_data 20 = some (30, 31) :=
  C16_multiple_entities face_20_in_volumes_30_31 20 31 1 30 31 (by decide) (by decide)
    (by decide) (by decide) (by decide) (by decide)

/-- C17 (counterexample). No sense is stored and the sense tags have never
been created: `get_sense` returns `MB_FAILURE`, not `MB_ENTITY_NOT_FOUND`, for
the face 20 relative to the volume 30 and for the edge 10 relative to the face
20. -/
theorem C17_counterexample :
    geometry_without_sense_tags.mdbImpl.sense2_data = [] ∧
    geometry_without_sense_tags.mdbImpl.ents_data = [] ∧
    (dimension geometry_without_sense_tags 10).2 = 1 ∧
    (dimension geometry_without_sense_tags 20).2 = 2 ∧
    (dimension geometry_without_sense_tags 30).2 = 3 ∧
    (get_sense geometry_without_sense_tags 20 30 7).map (fun r => r.2) = some (MB_FAILURE, 7) ∧
    (get_sense geometry_without_sense_tags 10 20 7).map (fun r => r.2) = some (MB_FAILURE, 7) := by
  decide

/-- C17 (amended). For an edge or a face `entity` and a `wrt_entity` of the
next dimension, `get_sense(entity, wrt_entity, sense)` leaves `sense` as it was
and returns

* `MB_ENTITY_NOT_FOUND` for a face when the tag `GEOM_SENSE_2` has been created
  (the tool holds its handle or has not looked it up), `wrt_entity` is not
  handle 0 and is neither the forward nor the reverse volume stored for the
  face, also when no sense data at all has been stored for the face;
* `MB_ENTITY_NOT_FOUND` for an edge when the tags `GEOM_SENSE_N_ENTS` and
  `GEOM_SENSE_N_SENSES` have been created (the tool holds their handles or has
  not looked them up), a list of faces and a list of senses are stored for the
  edge, and the list of faces does not contain `wrt_entity`;
* `MB_FAILURE` when the sense tags of the entity's dimension have never been
  created: for a face when the tool has not looked up `GEOM_SENSE_2` and the
  tag does not exist, for an edge when the tool has not looked up
  `GEOM_SENSE_N_ENTS` and one of the two edge tags does not exist. -/
theorem C17_entity_not_found (g : GeomTopoTool) (e w : Nat) (s0 : Int)
    (hde : (dimension g e).2 = 1 ∨ (dimension g e).2 = 2)
    (hdw : (dimension (dimension g e).1 w).2 = (dimension g e).2 + 1) :
    ((dimension g e).2 = 2 → w ≠ 0 →
      (g.sense2Tag = 0 ∨ g.sense2Tag = TagName.GEOM_SENSE_2.handle) →
      TagName.GEOM_SENSE_2 ∈ g.mdbImpl.created →
      (∀ p, sparse_get g.mdbImpl.sense2_data e = some p → w ≠ p.1 ∧ w ≠ p.2) →
      ∃ g2, get_sense g e w s0 = some (g2, MB_ENTITY_NOT_FOUND, s0)) ∧
    ((dimension g e).2 = 1 →
      (g.senseNEntsTag = 0 ∨ (g.senseNEntsTag = TagName.GEOM_SENSE_N_ENTS.handle ∧
        g.senseNSensesTag = TagName.GEOM_SENSE_N_SENSES.handle)) →
      TagName.GEOM_SENSE_N_ENTS ∈ g.mdbImpl.created →
      TagName.GEOM_SENSE_N_SENSES ∈ g.mdbImpl.created →
      ∀ faces ss, sparse_get g.mdbImpl.ents_data e = some faces →
        sparse_get g.mdbImpl.senses_data e = some ss → w ∉ faces →
        ∃ g2, get_sense g e w s0 = some (g2, MB_ENTITY_NOT_FOUND, s0)) ∧
    ((dimension g e).2 = 2 → g.sense2Tag = 0 → TagName.GEOM_SENSE_2 ∉ g.mdbImpl.created →
      ∃ g2, get_sense g e w s0 = some (g2, MB_FAILURE, s0)) ∧
    ((dimension g e).2 = 1 → g.senseNEntsTag = 0 →
      (TagName.GEOM_SENSE_N_ENTS ∉ g.mdbImpl.created ∨
        TagName.GEOM_SENSE_N_SENSES ∉ g.mdbImpl.created) →
      ∃ g2, get_sense g e w s0 = some (g2, MB_FAILURE, s0)) := by
  generalize hd : (dimension g e).2 = d at hde hdw
  obtain ⟨hcr, hsde, hg'⟩ := dimension_stored g e d hd (by omega)
  rw [hg'] at hdw
  obtain ⟨_, hsdw, _⟩ := dimension_stored _ w (d + 1) hdw (by omega)
  have hcong : get_sense g e w s0
      = get_sense { g with geomTag := TagName.GEOM_DIMENSION.handle } e w s0 := by
    apply get_sense_congr
    rw [dimension_of_valid { g with geomTag := TagName.GEOM_DIMENSION.handle } e rfl hcr]
    simp only [hsde, Option.getD_some]
    exact Prod.ext hg' hd
  rw [hcong]
  simp only at hsdw
  have hnum : ∀ x : Int, toInt32 (ofInt 4 (x + 1 - x)) = 1 := by
    intro x
    rw [show x + 1 - x = 1 by ring]
    decide
  refine ⟨?_, ?_, ?_, ?_⟩
  · rintro rfl hw h2 hc2 hp
    norm_num at hsdw
    rw [get_sense_face { g with geomTag := TagName.GEOM_DIMENSION.handle } e w s0
      rfl hcr hsde hsdw h2 hc2]
    simp only
    cases hs : sparse_get g.mdbImpl.sense2_data e with
    | none =>
      have hw0 : ¬ (w = 0) := hw
      simp [hw0]
    | some p =>
      obtain ⟨h1, h2⟩ := hp p hs
      simp [h1, h2]
  · rintro rfl h3 hc3 hc4 faces ss hE hS hnot
    norm_num at hsdw
    rw [get_sense_edge { g with geomTag := TagName.GEOM_DIMENSION.handle } e w s0 faces ss
      rfl hcr hsde hsdw h3 hc3 hc4 hE hS]
    have hidx : faces.indexOf w = faces.length := List.indexOf_eq_length.mpr hnot
    simp [hidx]
  · rintro rfl h2 hc2
    simp only [get_sense,
      dimension_of_valid { g with geomTag := TagName.GEOM_DIMENSION.handle } e rfl hcr,
      dimension_of_valid { g with geomTag := TagName.GEOM_DIMENSION.handle } w rfl hcr,
      hsde, hsdw, Option.getD_some, hnum]
    simp [check_face_sense_tag, Interface.tag_get_handle, h2, hc2]
  · rintro rfl h3 hc
    simp only [get_sense,
      dimension_of_valid { g with geomTag := TagName.GEOM_DIMENSION.handle } e rfl hcr,
      dimension_of_valid { g with geomTag := TagName.GEOM_DIMENSION.handle } w rfl hcr,
      hsde, hsdw, Option.getD_some, hnum]
    by_cases hc3 : TagName.GEOM_SENSE_N_ENTS ∈ g.mdbImpl.created
    · have hc4 : TagName.GEOM_SENSE_N_SENSES ∉ g.mdbImpl.created := by
        rcases hc with h | h
        · exact absurd hc3 h
        · exact h
      simp [check_edge_sense_tags, Interface.tag_get_handle, h3, hc3, hc4, TagName.handle]
    · simp [check_edge_sense_tags, Interface.tag_get_handle, h3, hc3]

theorem C17_entity_not_found_witness :
    (∃ g2, get_sense geometry_without_senses 20 30 7 = some (g2, MB_ENTITY_NOT_FOUND, 7)) ∧
    (∃ g2, get_sense edge_10_in_face_20 10 21 7 = some (g2, MB_ENTITY_NOT_FOUND, 7)) ∧
    (∃ g2, get_sense geometry_without_sense_tags 20 30 7 = some (g2, MB_FAILURE, 7)) ∧
    (∃ g2, get_sense geometry_without_sense_tags 10 20 7 = some (g2, MB_FAILURE, 7)) :=
  ⟨(C17_entity_not_found geometry_without_senses 20 30 7 (by decide) (by decide)).1
      (by decide) (by decide) (by decide) (by decide) (by decide),
    (C17_entity_not_found edge_10_in_face_20 10 21 7 (by decide) (by decide)).2.1
      (by decide) (by decide) (by decide) (by decide) [20] [1] (by decide) (by decide)
      (by decide),
    (C17_entity_not_found geometry_without_sense_tags 20 30 7 (by decide) (by decide)).2.2.1
      (by decide) (by decide) (by decide),
    (C17_entity_not_found geometry_without_sense_tags 10 20 7 (by decide) (by decide)).2.2.2
      (by decide) (by decide) (by decide)⟩

/-- C18 (failing input). Edge 10 has the face 20 stored with sense 1.
`set_sense(10, 21, -1)` for the face 21, which is not in the list, returns
`MB_SUCCESS` and leaves the stored lists `[20]` and `[1]` as they were: the face
21 is not added, and `get_sense(10, 21)` afterwards returns
`MB_ENTITY_NOT_FOUND`. -/
theorem C18_failing_input :
    ∃ g1, set_sense edge_10_in_face_20 10 21 (-1) = some (g1, MB_SUCCESS) ∧
      sparse_get g1.mdbImpl.ents_data 10 = some [20] ∧
      sparse_get g1.mdbImpl.senses_data 10 = some [1] ∧
      (get_sense g1 10 21 7).map (fun r => r.2) = some (MB_ENTITY_NOT_FOUND, 7) :=
  ⟨_, rfl, by decide, by decide, by decide⟩

/-- C19 (failing input). Face 20 has forward volume 30 and reverse volume 31
stored (and `get_sense` finds them), but `get_senses(20, …)` returns
`MB_SUCCESS` with both vectors empty, whatever they held before; likewise for a
face whose forward and reverse volume are both 30. -/
theorem C19_failing_input :
    (get_sense face_20_in_volumes_30_31 20 30 7).map (fun r => r.2) = some (MB_SUCCESS, 1) ∧
    (get_sense face_20_in_volumes_30_31 20 31 7).map (fun r => r.2) = some (MB_SUCCESS, -1) ∧
    (get_senses face_20_in_volumes_30_31 20 [] []).2 = (MB_SUCCESS, [], []) ∧
    (get_senses face_20_in_volumes_30_31 20 [5] [1]).2 = (MB_SUCCESS, [], []) ∧
    (get_senses face_20_in_volume_30_both 20 [] []).2 = (MB_SUCCESS, [], []) := by
  decide

/-- C20 (failing input). The faces 20 and 21 are the two sets that are both
children of volume 30 and parents of edge 10.  With `not_this = 21`, the larger
handle, `other_entity` returns `MB_SUCCESS` with `other = 20`; with
`not_this = 20`, the smaller handle, it returns `MB_FAILURE` (with `other` set
to 21). -/
theorem C20_failing_input :
    other_entity faces_20_21_between 30 21 10 = some (MB_SUCCESS, 20) ∧
    other_entity faces_20_21_between 30 20 10 = some (MB_FAILURE, 21) := by
  decide

/-! ### Reading a file (C21), an edge sense set again (C22), the exhausted iterator (C23) -/

/-- C21 (failing input). A file with three vertices for which
`mhdf_numElemGroups` reports an error: `load_file` returns `MB_FAILURE` after
`read_nodes` has created the vertices 1, 2, 3, which are still live, with
`nodeSet.range` still holding them, the file still open and the buffer still
allocated; when instead `read_sets` fails, the label `read_fail` is reached
and all of this is undone. -/
theorem C21_failing_input :
    load_file file_numElemGroups_error (ReadHDF5.new []) 0
      = (⟨[1, 2, 3], true, true, ⟨[(1, 3)]⟩, ⟨[]⟩, []⟩, MB_FAILURE) ∧
    load_file file_read_sets_fails (ReadHDF5.new []) 0
      = (⟨[], false, false, ⟨[]⟩, ⟨[]⟩, []⟩, MB_FAILURE) := by
  decide

/-- C22 (failing input). Edge 10 has the face 20 stored with sense 1.
`set_sense(10, 20, 0)`, a request for a sense that differs from the stored one,
returns `MB_MULTIPLE_ENTITIES_FOUND` and the stored sense stays 1 instead of
becoming `SENSE_BOTH`.  The face branch does what the edge branch is meant to
do: for the face 20 stored forward in the volume 30, `set_sense(20, 30, 0)`
returns `MB_SUCCESS` and stores the volume as forward and reverse. -/
theorem C22_failing_input :
    (∃ g1, set_sense edge_10_in_face_20 10 20 0 = some (g1, MB_MULTIPLE_ENTITIES_FOUND) ∧
      sparse_get g1.mdbImpl.ents_data 10 = some [20] ∧
      sparse_get g1.mdbImpl.senses_data 10 = some [1]) ∧
    (∃ g1, set_sense face_20_forward_30 20 30 0 = some (g1, MB_SUCCESS) ∧
      sparse_get g1.mdbImpl.sense2_data 20 = some (30, 30)) :=
  ⟨⟨_, rfl, by decide, by decide⟩, ⟨_, rfl, by decide⟩⟩

/-- What `set_sense` does on an edge for a face already in its list, the
stored and the requested sense both in {-1, 0, 1} and the edge tags created:
if the stored sense equals the requested one the call returns `MB_SUCCESS` and
changes no stored data; if they differ and the stored sense is 0 or the two are
opposite, the stored sense of the face becomes `SENSE_BOTH` (0), the other
stored senses and the face list stay, and the call returns `MB_SUCCESS`; if
the stored sense is 1 or -1 and the requested one is 0, the call returns
`MB_MULTIPLE_ENTITIES_FOUND` and changes no stored data. -/
theorem set_sense_edge_again (g : GeomTopoTool) (e w : Nat) (s old : Int)
    (faces : List Nat) (ss : List Int)
    (hde : (dimension g e).2 = 1)
    (hdw : (dimension (dimension g e).1 w).2 = 2)
    (hs : s = -1 ∨ s = 0 ∨ s = 1)
    (ho : old = -1 ∨ old = 0 ∨ old = 1)
    (h3 : g.senseNEntsTag = 0 ∨ (g.senseNEntsTag = TagName.GEOM_SENSE_N_ENTS.handle ∧
      g.senseNSensesTag = TagName.GEOM_SENSE_N_SENSES.handle))
    (hc3 : TagName.GEOM_SENSE_N_ENTS ∈ g.mdbImpl.created)
    (hc4 : TagName.GEOM_SENSE_N_SENSES ∈ g.mdbImpl.created)
    (hE : sparse_get g.mdbImpl.ents_data e = some faces)
    (hS : sparse_get g.mdbImpl.senses_data e = some ss)
    (hlen : ss.length = faces.length)
    (hmem : w ∈ faces)
    (hold : ss.get? (faces.indexOf w) = some old) :
    ∃ g1 rc, set_sense g e w s = some (g1, rc) ∧
      sparse_get g1.mdbImpl.ents_data e = some faces ∧
      (old = s → rc = MB_SUCCESS ∧ sparse_get g1.mdbImpl.senses_data e = some ss ∧
        g1.mdbImpl.ents_data = g.mdbImpl.ents_data ∧
        g1.mdbImpl.senses_data = g.mdbImpl.senses_data) ∧
      (old ≠ s → (old = 0 ∨ old + s = 0) → rc = MB_SUCCESS ∧
        sparse_get g1.mdbImpl.senses_data e = some (ss.set (faces.indexOf w) SENSE_BOTH)) ∧
      (old ≠ s → old ≠ 0 → s = 0 → rc = MB_MULTIPLE_ENTITIES_FOUND ∧
        sparse_get g1.mdbImpl.senses_data e = some ss ∧
        g1.mdbImpl.ents_data = g.mdbImpl.ents_data ∧
        g1.mdbImpl.senses_data = g.mdbImpl.senses_data) := by
  obtain ⟨hcr, hsde, hg'⟩ := dimension_stored g e 1 hde (by omega)
  rw [hg'] at hdw
  obtain ⟨_, hsdw, _⟩ := dimension_stored _ w 2 hdw (by omega)
  have hcong : set_sense g e w s
      = set_sense { g with geomTag := TagName.GEOM_DIMENSION.handle } e w s := by
    apply set_sense_congr
    rw [dimension_of_valid { g with geomTag := TagName.GEOM_DIMENSION.handle } e rfl hcr]
    simp only [hsde, Option.getD_some]
    exact Prod.ext hg' hde
  rw [hcong]
  simp only at hsdw
  have hnum : toInt32 (ofInt 4 ((2 : Int) - 1)) = 1 := by decide
  have hsr : ¬ (s < -1 ∨ s > 1) := by omega
  have hne : faces ≠ [] := List.ne_nil_of_mem hmem
  have hidx : faces.indexOf w < faces.length := List.indexOf_lt_length.mpr hmem
  have hwrap : toInt32 (ofInt 4 (old + s)) = old + s := by
    rcases ho with rfl | rfl | rfl <;> rcases hs with rfl | rfl | rfl <;> decide
  have htake : List.take faces.length (ss.set (faces.indexOf w) SENSE_BOTH)
      = ss.set (faces.indexOf w) SENSE_BOTH :=
    List.take_of_length_le (by rw [List.length_set, hlen])
  clear hcong hg' hdw
  have key : set_sense { g with geomTag := TagName.GEOM_DIMENSION.handle } e w s =
      if old = s then
        some
          ({ g with
              geomTag := TagName.GEOM_DIMENSION.handle,
              senseNEntsTag := TagName.GEOM_SENSE_N_ENTS.handle,
              senseNSensesTag := TagName.GEOM_SENSE_N_SENSES.handle },
            MB_SUCCESS)
      else if old ≠ 0 ∧ old + s ≠ 0 then
        some
          ({ g with
              geomTag := TagName.GEOM_DIMENSION.handle,
              senseNEntsTag := TagName.GEOM_SENSE_N_ENTS.handle,
              senseNSensesTag := TagName.GEOM_SENSE_N_SENSES.handle },
            MB_MULTIPLE_ENTITIES_FOUND)
      else
        some
          ({ mdbImpl :=
              { g.mdbImpl with
                ents_data := sparse_set g.mdbImpl.ents_data e faces,
                senses_data := sparse_set g.mdbImpl.senses_data e
                  (ss.set (faces.indexOf w) SENSE_BOTH) },
             geomTag := TagName.GEOM_DIMENSION.handle,
             sense2Tag := g.sense2Tag,
             senseNEntsTag := TagName.GEOM_SENSE_N_ENTS.handle,
             senseNSensesTag := TagName.GEOM_SENSE_N_SENSES.handle },
            MB_SUCCESS) := by
    simp only [set_sense,
      dimension_of_valid { g with geomTag := TagName.GEOM_DIMENSION.handle } e rfl hcr,
      dimension_of_valid { g with geomTag := TagName.GEOM_DIMENSION.handle } w rfl hcr,
      hsde, hsdw, Option.getD_some, hnum, hsr,
      check_edge_sense_tags_exist { g with geomTag := TagName.GEOM_DIMENSION.handle } true
        h3 hc3 hc4]
    rw [get_senses_edge
      { g with
        geomTag := TagName.GEOM_DIMENSION.handle,
        senseNEntsTag := TagName.GEOM_SENSE_N_ENTS.handle,
        senseNSensesTag := TagName.GEOM_SENSE_N_SENSES.handle }
      e [] [] faces ss rfl hcr hsde rfl rfl hc3 hc4 hE hS]
    simp only [hne, hidx, hold, hwrap, set_sense_store, tag_valid, hc3, hc4, List.length_set,
      hlen, htake]
    simp [hne, hwrap, htake]
  rw [key]
  by_cases hos : old = s
  · rw [if_pos hos]
    exact ⟨_, _, rfl, hE, fun _ => ⟨rfl, hS, rfl, rfl⟩, fun h => absurd hos h,
      fun h => absurd hos h⟩
  · rw [if_neg hos]
    by_cases hsum : old = 0 ∨ old + s = 0
    · have hguard : ¬ (old ≠ 0 ∧ old + s ≠ 0) := by
        rcases hsum with h | h
        · exact fun hh => hh.1 h
        · exact fun hh => hh.2 h
      rw [if_neg hguard]
      refine ⟨_, _, rfl, ?_, fun h => absurd h hos, fun _ _ => ⟨rfl, ?_⟩, ?_⟩
      · exact sparse_get_set_self _ _ _
      · exact sparse_get_set_self _ _ _
      · intro _ h1 h2
        rcases hsum with h | h
        · exact absurd h h1
        · rw [h2] at h
          exact absurd (by simpa using h) h1
    · have hguard : old ≠ 0 ∧ old + s ≠ 0 := by
        constructor
        · exact fun h => hsum (Or.inl h)
        · exact fun h => hsum (Or.inr h)
      rw [if_pos hguard]
      exact ⟨_, _, rfl, hE, fun h => absurd h hos, fun _ h => absurd h hsum,
        fun _ _ _ => ⟨rfl, hS, rfl, rfl⟩⟩

/-- An instance of `set_sense_edge_again`: the face 20 stored with sense 1,
requested with sense -1. -/
theorem set_sense_edge_again_opposite :
    ∃ g1 rc, set_sense edge_10_in_face_20 10 20 (-1) = some (g1, rc) ∧
      sparse_get g1.mdbImpl.ents_data 10 = some [20] ∧
      ((1 : Int) = -1 → rc = MB_SUCCESS ∧ sparse_get g1.mdbImpl.senses_data 10 = some [1] ∧
        g1.mdbImpl.ents_data = edge_10_in_face_20.mdbImpl.ents_data ∧
        g1.mdbImpl.senses_data = edge_10_in_face_20.mdbImpl.senses_data) ∧
      ((1 : Int) ≠ -1 → ((1 : Int) = 0 ∨ (1 : Int) + -1 = 0) → rc = MB_SUCCESS ∧
        sparse_get g1.mdbImpl.senses_data 10
          = some (([1] : List Int).set (([20] : List Nat).indexOf 20) SENSE_BOTH)) ∧
      ((1 : Int) ≠ -1 → (1 : Int) ≠ 0 → (-1 : Int) = 0 → rc = MB_MULTIPLE_ENTITIES_FOUND ∧
        sparse_get g1.mdbImpl.senses_data 10 = some [1] ∧
        g1.mdbImpl.ents_data = edge_10_in_face_20.mdbImpl.ents_data ∧
        g1.mdbImpl.senses_data = edge_10_in_face_20.mdbImpl.senses_data) :=
  set_sense_edge_again edge_10_in_face_20 10 20 (-1) 1 [20] [1] (by decide) (by decide)
    (by decide) (by decide) (by decide) (by decide) (by decide) (by decide) (by decide)
    (by decide) (by decide) (by decide)

/-- C23. An exhausted iterator only reports failure: `init` with
`start == end` returns `MB_FAILURE` with `mStartHandle`, `mEndHandle` and
`mLastHandle` all 0 (so that `is_at_end` holds), and `step` called when
`is_at_end` holds returns `MB_FAILURE` and leaves the iterator, with its start,
end and last handles, its range cursor and its cached sequence, as it was. -/
theorem C23_exhausted_iterator (sz MBMAXTYPE MBENTITYSET : Nat)
    (self : MBRangeSeqIntersectIter) (start end_ : const_iterator) :
    (start = end_ →
      ∃ st, init sz MBMAXTYPE MBENTITYSET self start end_ = some (st, MB_FAILURE) ∧
        st.mStartHandle = 0 ∧ st.mEndHandle = 0 ∧ st.mLastHandle = 0 ∧
        is_at_end st = true) ∧
    (is_at_end self = true → step sz MBMAXTYPE MBENTITYSET self = some (self, MB_FAILURE)) := by
  constructor
  · intro h
    unfold init
    simp only [h, if_true]
    exact ⟨_, rfl, rfl, rfl, rfl, by simp [is_at_end]⟩
  · intro h
    unfold step
    simp [h]

theorem C23_exhausted_iterator_witness :
    (∃ st, init 4 15 11 (MBRangeSeqIntersectIter.new ⟨[vertices_1_10]⟩)
        (MBRange.begin []) (MBRange.end_ []) = some (st, MB_FAILURE) ∧
        st.mStartHandle = 0 ∧ st.mEndHandle = 0 ∧ st.mLastHandle = 0 ∧
        is_at_end st = true) ∧
    step 4 15 11 ⟨⟨[vertices_1_10]⟩, some vertices_1_10, [(1, 10)], 1, 10, 10, 10⟩
      = some (⟨⟨[vertices_1_10]⟩, some vertices_1_10, [(1, 10)], 1, 10, 10, 10⟩, MB_FAILURE) :=
  ⟨(C23_exhausted_iterator 4 15 11 (MBRangeSeqIntersectIter.new ⟨[vertices_1_10]⟩)
      (MBRange.begin []) (MBRange.end_ [])).1 (by decide),
    (C23_exhausted_iterator 4 15 11
      ⟨⟨[vertices_1_10]⟩, some vertices_1_10, [(1, 10)], 1, 10, 10, 10⟩
      (MBRange.begin []) (MBRange.end_ [])).2 (by decide)⟩

end MOAB
